import Mathlib

/-!
The OSD scrub queue (`ScrubQueue`, src/osd/scrubber/osd_scrub_sched.h and
osd_scrub_sched.cc), the scrub state machine and its timer events
(src/osd/scrubber/scrub_machine.h) and the mClock scheduler
(src/osd/scheduler/mClockScheduler.h).

A shallow embedding of the dual-lane scrub scheduler, of the state chart of
`ScrubMachine` with its timer tokens, and of the queues of `mClockScheduler`, and a
verification of the properties their specification states.

Modelling conventions

* `utime_t` (wall-clock time) and the `double` valued configuration options are
  exact rationals, in seconds.  Rounding of `double` arithmetic and the
  nanosecond truncation of `utime_t` are outside the model.
* A `ScrubJobRef` (a `std::shared_ptr<ScrubJob>` / intrusive pointer in the
  source) is an address into a store of job objects (`JobStore`).  The two lanes
  hold references; writing through a reference is visible through every copy
  of it, as in the source.
* Every member function is modelled as executed atomically (one call at a
  time).  A read of `scrub_job->state` therefore returns what the last write
  stored.
* `std::partition` and `std::sort` are not stable; what the C++ standard
  guarantees about them is the contract bundled in `StdAlgorithms`, and every
  function that calls them takes an implementation `L : StdAlgorithms` as an
  argument.  `refAlgo` is one executable implementation.
* The state chart is the table of the `reactions` lists of the header, looked up
  from the innermost state outwards; the bodies of the custom reactions are in a
  source file that is not available and are an argument of the dispatch
  (`spec_reactions` is their model after the specification).
* The member functions of `mClockScheduler` are defined in a source file that is
  not available; except for `get_io_prio_cut`, they are modelled after the
  specification over the types the header declares.
-/

namespace Scrub

/-- Wall-clock time, `utime_t`, in seconds. -/
abbrev utime_t := ℚ

/-- The id of a placement group, `spg_t`. -/
abbrev spg_t := Nat

/-- A scrub target is named by its PG id (`ScrubTargetId`). -/
abbrev ScrubTargetId := spg_t

/-- The queue-state atom of a scrub job (`Scrub::qu_state_t`). -/
inductive qu_state_t where
  | not_registered
  | registered
  | unregistering
  deriving DecidableEq, Repr

/-- Whether a scrub is mandatory (`Scrub::must_scrub_t`). -/
inductive must_scrub_t where
  | not_mandatory
  | mandatory
  deriving DecidableEq, Repr

/-- The pair `{scheduled_at, deadline}` of a job (`Scrub::scrub_schedule_t`). -/
structure scrub_schedule_t where
  scheduled_at : utime_t
  deadline : utime_t
  deriving DecidableEq

/-- The scheduling request handed to `update_job` (`Scrub::sched_params_t`);
the interval hints default to `0.0` and `is_must` to `not_mandatory`. -/
structure sched_params_t where
  proposed_time : utime_t := 0
  min_interval : ℚ := 0
  max_interval : ℚ := 0
  is_must : must_scrub_t := must_scrub_t.not_mandatory
  deriving DecidableEq

/-- Modelled from the spec: `Scrub::OSDRestrictions` is declared in a header that is
not among the sources; of its flags `collect_ripe_jobs` reads `only_deadlined`. -/
structure OSDRestrictions where
  allow_requested_repair_only : Bool := false
  load_is_low : Bool := true
  time_permit : Bool := true
  only_deadlined : Bool := false
  deriving DecidableEq

/-- Modelled from the spec: the per-PG record `Scrub::ScrubJob` (scrub_job.h is not
among the sources): pgid, schedule, the state atom, `in_queues`,
`resources_failure`, `penalty_timeout` and the pardon signal `updated`. -/
structure ScrubJob where
  pgid : spg_t
  schedule : scrub_schedule_t
  state : qu_state_t
  in_queues : Bool
  resources_failure : Bool
  penalty_timeout : utime_t
  updated : Bool
  deriving DecidableEq

/-- A reference to a job object (`Scrub::ScrubJobRef`). -/
abbrev ScrubJobRef := Nat

/-- The job objects the references point to. -/
abbrev JobStore := ScrubJobRef → ScrubJob

/-- A lane: `Scrub::ScrubQContainer`, a `std::vector<ScrubJobRef>`. -/
abbrev ScrubQContainer := List ScrubJobRef

/-- The configuration options (`conf()->...`) the scrub queue reads. -/
structure ScrubConf where
  osd_scrub_sleep : ℚ
  osd_scrub_min_interval : ℚ
  osd_scrub_max_interval : ℚ
  osd_scrub_interval_randomize_ratio : ℚ
  osd_scrub_invalid_stats : Bool

/-- A write through a job reference: `r->field = ...`. -/
def JobStore.modify (h : JobStore) (r : ScrubJobRef) (f : ScrubJob → ScrubJob) : JobStore :=
  fun x => if x = r then f (h x) else h x

/-- The loop `std::for_each(group.begin(), group.end(), [](auto& job) { ... })` with a
body that writes to the job it visits. -/
def for_each_job (f : ScrubJob → ScrubJob) (group : ScrubQContainer) (h : JobStore) : JobStore :=
  group.foldl (fun acc r => acc.modify r f) h

/-- What the C++ standard guarantees of `std::partition` and `std::sort` on a vector
of job references: `partition` returns the range split at the returned iterator,
the two halves together a rearrangement of the input, the predicate true on all of
the first and false on all of the second; `sort` returns a rearrangement in which no
element is ordered before an earlier one, for a comparator that is a strict weak
ordering. -/
structure StdAlgorithms where
  partition : (ScrubJobRef → Bool) → ScrubQContainer → ScrubQContainer × ScrubQContainer
  partition_perm : ∀ p l, ((partition p l).1 ++ (partition p l).2).Perm l
  partition_fst : ∀ p l, ∀ x ∈ (partition p l).1, p x = true
  partition_snd : ∀ p l, ∀ x ∈ (partition p l).2, p x = false
  sort : (ScrubJobRef → ScrubJobRef → Bool) → ScrubQContainer → ScrubQContainer
  sort_perm : ∀ lt l, (sort lt l).Perm l
  sort_sorted : ∀ lt l, (∀ a, lt a a = false) →
    (∀ a b c, lt a b = true → lt b c = true → lt a c = true) →
    (∀ a b c, lt a b = false → lt b c = false → lt a c = false) →
    (sort lt l).Pairwise (fun a b => lt b a = false)

/-- Insertion of one element into a sorted list, before the first element it is
ordered before. -/
def ordered_insert (lt : ScrubJobRef → ScrubJobRef → Bool) (a : ScrubJobRef) :
    ScrubQContainer → ScrubQContainer
  | [] => [a]
  | b :: l => if lt a b then a :: b :: l else b :: ordered_insert lt a l

/-- Insertion sort, the sorting procedure of `refAlgo`. -/
def insertion_sort (lt : ScrubJobRef → ScrubJobRef → Bool) : ScrubQContainer → ScrubQContainer
  | [] => []
  | a :: l => ordered_insert lt a (insertion_sort lt l)

/-- An executable implementation of `StdAlgorithms`: the partition keeps the relative
order inside both halves, the sort is an insertion sort. -/
def refAlgo : StdAlgorithms where
  partition p l := (l.filter p, l.filter (fun x => !p x))
  partition_perm p l := by
    simpa using (List.filter_append_perm p l)
  partition_fst p l x hx := by
    simpa using (List.mem_filter.mp hx).2
  partition_snd p l x hx := by
    simpa using (List.mem_filter.mp hx).2
  sort lt l := insertion_sort lt l
  sort_perm lt l := by
    have ins : ∀ (a : ScrubJobRef) (m : ScrubQContainer),
        (ordered_insert lt a m).Perm (a :: m) := by
      intro a m
      induction m with
      | nil => simp [ordered_insert]
      | cons b m ih =>
        by_cases hab : lt a b = true
        · simp [ordered_insert, hab]
        · simp only [ordered_insert, hab]
          exact ((List.Perm.cons b ih).trans (List.Perm.swap a b m))
    induction l with
    | nil => simp [insertion_sort]
    | cons a l ih =>
      simp only [insertion_sort]
      exact (ins a _).trans (List.Perm.cons a ih)
  sort_sorted lt l hirr htr hntr := by
    have asym : ∀ a b, lt a b = true → lt b a = false := by
      intro a b hab
      by_contra hba
      have hba' : lt b a = true := by simpa using hba
      have := htr a b a hab hba'
      rw [hirr a] at this
      exact Bool.false_ne_true this
    have mem_ins : ∀ (a x : ScrubJobRef) (m : ScrubQContainer),
        x ∈ ordered_insert lt a m → x = a ∨ x ∈ m := by
      intro a x m
      induction m with
      | nil => simp [ordered_insert]
      | cons b m ih =>
        by_cases hab : lt a b = true
        · simp [ordered_insert, hab]
        · intro hx
          have hx2 : x ∈ b :: ordered_insert lt a m := by
            simpa [ordered_insert, hab] using hx
          rcases List.mem_cons.mp hx2 with h1 | h1
          · exact Or.inr (List.mem_cons.mpr (Or.inl h1))
          · rcases ih h1 with h2 | h2
            · exact Or.inl h2
            · exact Or.inr (List.mem_cons.mpr (Or.inr h2))
    have ins : ∀ (a : ScrubJobRef) (m : ScrubQContainer),
        m.Pairwise (fun x y => lt y x = false) →
        (ordered_insert lt a m).Pairwise (fun x y => lt y x = false) := by
      intro a m
      induction m with
      | nil => intro _; simp [ordered_insert]
      | cons b m ih =>
        intro hm
        rw [List.pairwise_cons] at hm
        by_cases hab : lt a b = true
        · simp only [ordered_insert, hab, if_true]
          refine List.Pairwise.cons ?_ (List.Pairwise.cons hm.1 hm.2)
          intro y hy
          rcases List.mem_cons.mp hy with h | h
          · subst h; exact asym a y hab
          · by_contra hya
            have hya' : lt y a = true := by simpa using hya
            have := htr y a b hya' hab
            rw [hm.1 y h] at this
            exact Bool.false_ne_true this
        · have hab' : lt a b = false := by simpa using hab
          simp only [ordered_insert, hab]
          refine List.Pairwise.cons ?_ (ih hm.2)
          intro y hy
          rcases mem_ins a y m hy with h | h
          · subst h; exact hab'
          · exact hm.1 y h
    induction l with
    | nil => simp [insertion_sort]
    | cons a l ih =>
      simp only [insertion_sort]
      exact ins a _ ih

end Scrub

open Scrub

/-- The state of a `ScrubQueue` object, together with the job objects its lanes refer
to (`jobs`): the two lanes, `restore_penalized`, the blocked-scrubs counter and the
reserving-now flag. -/
structure ScrubQueue where
  jobs : JobStore
  to_scrub : ScrubQContainer
  penalized : ScrubQContainer
  restore_penalized : Bool
  blocked_scrubs_cnt : Int
  reserving_pg : Option spg_t
  reserving_since : utime_t

namespace ScrubQueue

/-- The lambda `registered_job` of the class. -/
def registered_job (j : ScrubJob) : Bool :=
  decide (j.state = qu_state_t.registered)

/-- The lambda `invalid_state` of the class. -/
def invalid_state (j : ScrubJob) : Bool :=
  decide (j.state = qu_state_t.not_registered)

/-- `ScrubQueue::remove_from_osd_queue`: the compare-exchange
`registered -> unregistering` on the job's state; nothing else is written. -/
def remove_from_osd_queue (q : ScrubQueue) (scrub_job : ScrubJobRef) : ScrubQueue :=
  if (q.jobs scrub_job).state = qu_state_t.registered then
    { q with
      jobs := q.jobs.modify scrub_job (fun j => { j with state := qu_state_t.unregistering }) }
  else q

/-- `ScrubQueue::adjust_target_time`; `r` is the draw `rand() / (double)RAND_MAX`.
The products of `double`s and the additions of a `double` to a `utime_t` are taken
exactly here: the rounding of the products and the truncation to nanoseconds by the
operators of `utime_t` are outside the model, so what is proved of the sums holds of
the source up to that rounding; which branch is taken and which interval is selected
depend on comparisons only and are exact. -/
def adjust_target_time (cf : ScrubConf) (r : ℚ) (times : sched_params_t) : scrub_schedule_t :=
  let sched_n_dead : scrub_schedule_t := ⟨times.proposed_time, times.proposed_time⟩
  if times.is_must = must_scrub_t.not_mandatory then
    let scrub_min_interval : ℚ :=
      if times.min_interval > 0 then times.min_interval else cf.osd_scrub_min_interval
    let scrub_max_interval : ℚ :=
      if times.max_interval > 0 then times.max_interval else cf.osd_scrub_max_interval
    let s1 : utime_t := sched_n_dead.scheduled_at + scrub_min_interval
    let s2 : utime_t := s1 + scrub_min_interval * cf.osd_scrub_interval_randomize_ratio * r
    let d : utime_t :=
      if scrub_max_interval ≤ 0 then 0 else sched_n_dead.deadline + scrub_max_interval
    ⟨s2, d⟩
  else sched_n_dead

/-- Modelled from the spec: `ScrubJob::update_schedule` (scrub_job.cc is not among the
sources): the job's schedule is replaced and the pardon signal `updated` is raised. -/
def update_schedule (j : ScrubJob) (adjusted : scrub_schedule_t) : ScrubJob :=
  { j with schedule := adjusted, updated := true }

/-- `ScrubQueue::update_job`. -/
def update_job (cf : ScrubConf) (r : ℚ) (q : ScrubQueue) (scrub_job : ScrubJobRef)
    (suggested : sched_params_t) : ScrubQueue :=
  { q with
    jobs := q.jobs.modify scrub_job
      (fun j => update_schedule j (adjust_target_time cf r suggested)) }

/-- `ScrubQueue::register_with_osd`.  In the `not_registered` case the re-check
`state_at_entry != scrub_job->state` compares the state with the value loaded at
entry; with calls executed one at a time the two are equal and the retry is not
taken. -/
def register_with_osd (cf : ScrubConf) (r : ℚ) (q : ScrubQueue) (scrub_job : ScrubJobRef)
    (suggested : sched_params_t) : ScrubQueue :=
  match (q.jobs scrub_job).state with
  | qu_state_t.registered => update_job cf r q scrub_job suggested
  | qu_state_t.not_registered =>
    let q1 := update_job cf r q scrub_job suggested
    { q1 with
      to_scrub := q1.to_scrub ++ [scrub_job],
      jobs := q1.jobs.modify scrub_job
        (fun j => { j with in_queues := true, state := qu_state_t.registered }) }
  | qu_state_t.unregistering =>
    let q1 := update_job cf r q scrub_job suggested
    let lane : ScrubQContainer :=
      if (q1.jobs scrub_job).state = qu_state_t.not_registered then
        q1.to_scrub ++ [scrub_job]
      else q1.to_scrub
    { q1 with
      to_scrub := lane,
      jobs := q1.jobs.modify scrub_job
        (fun j => { j with in_queues := true, state := qu_state_t.registered }) }

/-- The body of the `for_each` in `rm_unregistered_jobs`. -/
def rm_mark (j : ScrubJob) : ScrubJob :=
  if j.state = qu_state_t.unregistering then
    { j with in_queues := false, state := qu_state_t.not_registered }
  else if j.state = qu_state_t.not_registered then
    { j with in_queues := false }
  else j

/-- `ScrubQueue::rm_unregistered_jobs`: returns the job store and the group, both as
left by the call. -/
def rm_unregistered_jobs (h : JobStore) (group : ScrubQContainer) :
    JobStore × ScrubQContainer :=
  let h1 := for_each_job rm_mark group h
  (h1, group.filter (fun r => !invalid_state (h1 r)))

/-- `ScrubQueue::scan_penalized`. -/
def scan_penalized (L : StdAlgorithms) (q : ScrubQueue) (forgive_all : Bool)
    (time_now : utime_t) : ScrubQueue :=
  let cleaned := rm_unregistered_jobs q.jobs q.penalized
  if forgive_all then
    { q with jobs := cleaned.1, to_scrub := q.to_scrub ++ cleaned.2, penalized := [] }
  else
    let parts := L.partition
      (fun e => (cleaned.1 e).updated || decide ((cleaned.1 e).penalty_timeout ≤ time_now))
      cleaned.2
    { q with jobs := cleaned.1, to_scrub := q.to_scrub ++ parts.1, penalized := parts.2 }

/-- The writes `move_failed_pgs` makes to a job it moves. -/
def penalize (cf : ScrubConf) (now_is : utime_t) (j : ScrubJob) : ScrubJob :=
  { j with
    penalty_timeout := now_is + (cf.osd_scrub_sleep * 2 + 300),
    resources_failure := false,
    updated := false }

/-- The loop of `move_failed_pgs` over `to_scrub`: the part of `to_scrub` still to be
visited, the job store and `penalized`; returns the visited part of `to_scrub` that
stays, the job store and `penalized`. -/
def move_failed_loop (cf : ScrubConf) (now_is : utime_t) :
    ScrubQContainer → JobStore → ScrubQContainer → ScrubQContainer × JobStore × ScrubQContainer
  | [], h, pen => ([], h, pen)
  | job :: rest, h, pen =>
    if (h job).resources_failure then
      move_failed_loop cf now_is rest (h.modify job (penalize cf now_is)) (pen ++ [job])
    else
      let res := move_failed_loop cf now_is rest h pen
      (job :: res.1, res.2.1, res.2.2)

/-- `ScrubQueue::move_failed_pgs`. -/
def move_failed_pgs (cf : ScrubConf) (q : ScrubQueue) (now_is : utime_t) : ScrubQueue :=
  let res := move_failed_loop cf now_is q.to_scrub q.jobs q.penalized
  { q with to_scrub := res.1, jobs := res.2.1, penalized := res.2.2 }

/-- The comparator `cmp_sched_time_t`, reading the jobs through the store. -/
def cmp_sched_time_t (h : JobStore) (lhs rhs : ScrubJobRef) : Bool :=
  decide ((h lhs).schedule.scheduled_at < (h rhs).schedule.scheduled_at)

/-- The lambda `filtr` of `collect_ripe_jobs`. -/
def filtr (restrictions : OSDRestrictions) (time_now : utime_t) (j : ScrubJob) : Bool :=
  decide (j.schedule.scheduled_at ≤ time_now) &&
    (!restrictions.only_deadlined ||
      (!decide (j.schedule.deadline = 0) && decide (j.schedule.deadline ≤ time_now)))

/-- `ScrubQueue::collect_ripe_jobs`: returns the ripe jobs, sorted, then the job store
and the group as left by the call. -/
def collect_ripe_jobs (L : StdAlgorithms) (h : JobStore) (group : ScrubQContainer)
    (restrictions : OSDRestrictions) (time_now : utime_t) :
    ScrubQContainer × JobStore × ScrubQContainer :=
  let cleaned := rm_unregistered_jobs h group
  let ripes := cleaned.2.filter (fun r => filtr restrictions time_now (cleaned.1 r))
  (L.sort (cmp_sched_time_t cleaned.1) ripes, cleaned.1, cleaned.2)

/-- The part of `ScrubQueue::ready_to_scrub` that runs under `jobs_lock`: returns
`to_scrub_copy`, `penalized_copy` and the queue at `lck.unlock()`. -/
def ready_to_scrub_locked (L : StdAlgorithms) (cf : ScrubConf) (q : ScrubQueue)
    (restrictions : OSDRestrictions) (scrub_tick : utime_t) :
    ScrubQContainer × ScrubQContainer × ScrubQueue :=
  let q1 := scan_penalized L q q.restore_penalized scrub_tick
  let q2 := { q1 with restore_penalized := false }
  let q3 := { q2 with jobs := for_each_job (fun j => { j with updated := false }) q2.to_scrub q2.jobs }
  let q4 := move_failed_pgs cf q3 scrub_tick
  let c1 := collect_ripe_jobs L q4.jobs q4.to_scrub restrictions scrub_tick
  let c2 := collect_ripe_jobs L c1.2.1 q4.penalized restrictions scrub_tick
  (c1.1, c2.1, { q4 with jobs := c2.2.1, to_scrub := c1.2.2, penalized := c2.2.2 })

/-- `ScrubQueue::ready_to_scrub`: the PG ids of `to_scrub_copy` followed by those of
`penalized_copy`, and the queue after the call. -/
def ready_to_scrub (L : StdAlgorithms) (cf : ScrubConf) (q : ScrubQueue)
    (restrictions : OSDRestrictions) (scrub_tick : utime_t) :
    List ScrubTargetId × ScrubQueue :=
  let res := ready_to_scrub_locked L cf q restrictions scrub_tick
  (res.1.map (fun r => (res.2.2.jobs r).pgid) ++ res.2.1.map (fun r => (res.2.2.jobs r).pgid),
    res.2.2)

/-- A job object nobody has registered yet: state `not_registered`, no flag set. -/
def fresh_job (j : ScrubJob) : Prop :=
  j.state = qu_state_t.not_registered ∧ j.in_queues = false ∧
    j.resources_failure = false ∧ j.updated = false

/-- A newly constructed queue: empty lanes, `restore_penalized{false}`, every job
object fresh. -/
def initial (q : ScrubQueue) : Prop :=
  q.to_scrub = [] ∧ q.penalized = [] ∧ q.restore_penalized = false ∧
    ∀ r, fresh_job (q.jobs r)

/-- The scrubber of a PG raising `resources_failure` on its job (replica reservation
was rejected or timed out). -/
def mark_resources_failure (q : ScrubQueue) (scrub_job : ScrubJobRef) : ScrubQueue :=
  { q with jobs := q.jobs.modify scrub_job (fun j => { j with resources_failure := true }) }

/-- The states a queue reaches from a newly constructed one through calls of
`register_with_osd`, `remove_from_osd_queue`, `update_job` and `ready_to_scrub`, and
through a scrubber raising `resources_failure` on its job. -/
inductive Reachable (L : StdAlgorithms) (cf : ScrubConf) : ScrubQueue → Prop where
  | init (q : ScrubQueue) : initial q → Reachable L cf q
  | register (q : ScrubQueue) (j : ScrubJobRef) (suggested : sched_params_t) (r : ℚ) :
      Reachable L cf q → Reachable L cf (register_with_osd cf r q j suggested)
  | remove (q : ScrubQueue) (j : ScrubJobRef) :
      Reachable L cf q → Reachable L cf (remove_from_osd_queue q j)
  | update (q : ScrubQueue) (j : ScrubJobRef) (suggested : sched_params_t) (r : ℚ) :
      Reachable L cf q → Reachable L cf (update_job cf r q j suggested)
  | ready (q : ScrubQueue) (restrictions : OSDRestrictions) (now : utime_t) :
      Reachable L cf q → Reachable L cf (ready_to_scrub L cf q restrictions now).2
  | failed (q : ScrubQueue) (j : ScrubJobRef) :
      Reachable L cf q → Reachable L cf (mark_resources_failure q j)

/-- The scheduled time of the job a reference points to. -/
def sched_of (h : JobStore) (r : ScrubJobRef) : utime_t :=
  (h r).schedule.scheduled_at

/-- A sequence of jobs is in non-decreasing order of `scheduled_at`. -/
def sorted_by_sched (h : JobStore) (l : ScrubQContainer) : Prop :=
  l.Pairwise (fun a b => sched_of h a ≤ sched_of h b)

/-- A job is an element of exactly one of the two lanes. -/
def in_exactly_one_lane (q : ScrubQueue) (r : ScrubJobRef) : Prop :=
  (r ∈ q.to_scrub ∧ r ∉ q.penalized) ∨ (r ∉ q.to_scrub ∧ r ∈ q.penalized)

end ScrubQueue

namespace ScrubQueue

/-- A configuration used in the worked examples: `osd_scrub_sleep` is 5 s. -/
def example_conf : ScrubConf :=
  { osd_scrub_sleep := 5
    osd_scrub_min_interval := 86400
    osd_scrub_max_interval := 604800
    osd_scrub_interval_randomize_ratio := 1 / 2
    osd_scrub_invalid_stats := true }

/-- A newly constructed queue; the job object at address `r` belongs to PG `r`. -/
def example_start : ScrubQueue :=
  { jobs := fun r => ⟨r, ⟨0, 0⟩, qu_state_t.not_registered, false, false, 0, false⟩
    to_scrub := []
    penalized := []
    restore_penalized := false
    blocked_scrubs_cnt := 0
    reserving_pg := none
    reserving_since := 0 }

/-- A must-scrub request for time `t`. -/
def must_at (t : utime_t) : sched_params_t :=
  { proposed_time := t, is_must := must_scrub_t.mandatory }

/-- Jobs 0 and 1 are registered for times 50 and 10; job 1 then fails to reserve its
replicas. -/
def example_failed : ScrubQueue :=
  mark_resources_failure
    (register_with_osd example_conf 0
      (register_with_osd example_conf 0 example_start 0 (must_at 50)) 1 (must_at 10)) 1

/-- The queue `example_failed` after the sweep at tick 100: job 0 is in `to_scrub`,
job 1 is in `penalized` until 410. -/
def example_queue : ScrubQueue :=
  (ready_to_scrub refAlgo example_conf example_failed {} 100).2

end ScrubQueue

namespace ScrubQueue

/-- The invariant of the queue: no job is twice in the lanes (neither twice in one lane
nor in both), a job is `not_registered` exactly when it is in no lane, `in_queues`
holds exactly when the state is not `not_registered`, and `restore_penalized` is
false. -/
def queue_invariant (q : ScrubQueue) : Prop :=
  (q.to_scrub ++ q.penalized).Nodup ∧
  (∀ r, (q.jobs r).state = qu_state_t.not_registered ↔ r ∉ q.to_scrub ++ q.penalized) ∧
  (∀ r, (q.jobs r).in_queues = true ↔ (q.jobs r).state ≠ qu_state_t.not_registered) ∧
  q.restore_penalized = false

/-- Job 0 is registered and then removed with `remove_from_osd_queue`. -/
def example_unregistering : ScrubQueue :=
  remove_from_osd_queue (register_with_osd example_conf 0 example_start 0 (must_at 50)) 0

end ScrubQueue

/-- Modelled from the spec: `requested_scrub_t` is declared in a header that is not among
the sources; of its flags `determine_scrub_time` reads `must_scrub` and `need_auto`. -/
structure requested_scrub_t where
  must_scrub : Bool := false
  need_auto : Bool := false
  deriving DecidableEq

/-- Modelled from the spec: of `pg_info_t` (not among the sources) the two fields
`determine_scrub_time` reads, `stats.stats_invalid` and `history.last_scrub_stamp`. -/
structure pg_info_t where
  stats_invalid : Bool
  last_scrub_stamp : utime_t
  deriving DecidableEq

/-- Modelled from the spec: of `pool_opts_t` (not among the sources) the two options
`determine_scrub_time` reads, each set or not set. -/
structure pool_opts_t where
  SCRUB_MIN_INTERVAL : Option ℚ := none
  SCRUB_MAX_INTERVAL : Option ℚ := none
  deriving DecidableEq

/-- The accessor `pool_opts_t::value_or(key, default)` on one option. -/
def pool_opts_t.value_or (opt : Option ℚ) (dflt : ℚ) : ℚ :=
  match opt with
  | some v => v
  | none => dflt

namespace ScrubQueue

/-- `ScrubQueue::determine_scrub_time`; `scrub_must_stamp` is the value of
`PgScrubber::scrub_must_stamp()` and `time_now` that of `time_now()`. -/
def determine_scrub_time (cf : ScrubConf) (scrub_must_stamp time_now : utime_t)
    (request_flags : requested_scrub_t) (pg_info : pg_info_t) (pool_conf : pool_opts_t) :
    sched_params_t :=
  let res : sched_params_t := {}
  if request_flags.must_scrub || request_flags.need_auto then
    { res with proposed_time := scrub_must_stamp, is_must := must_scrub_t.mandatory }
  else if pg_info.stats_invalid && cf.osd_scrub_invalid_stats then
    { res with proposed_time := time_now, is_must := must_scrub_t.mandatory }
  else
    { res with
      proposed_time := pg_info.last_scrub_stamp,
      min_interval := pool_opts_t.value_or pool_conf.SCRUB_MIN_INTERVAL 0,
      max_interval := pool_opts_t.value_or pool_conf.SCRUB_MAX_INTERVAL 0 }

/-- The local `scrub_min_interval` of `adjust_target_time`. -/
def scrub_min_interval (cf : ScrubConf) (times : sched_params_t) : ℚ :=
  if times.min_interval > 0 then times.min_interval else cf.osd_scrub_min_interval

/-- The local `scrub_max_interval` of `adjust_target_time`. -/
def scrub_max_interval (cf : ScrubConf) (times : sched_params_t) : ℚ :=
  if times.max_interval > 0 then times.max_interval else cf.osd_scrub_max_interval

/-- `ScrubQueue::set_reserving_now`: the value returned and the queue after the call;
`none` when the `ceph_assert` fails (the process aborts). -/
def set_reserving_now (q : ScrubQueue) (reserving_id : spg_t) (now_is : utime_t) :
    Option (Bool × ScrubQueue) :=
  if q.reserving_pg.isNone then
    some (true, { q with reserving_pg := some reserving_id, reserving_since := now_is })
  else if some reserving_id ≠ q.reserving_pg then
    some (false, q)
  else none

/-- A periodic (not mandatory) request: last scrub at 1000, pool `scrub_min_interval`
60. -/
def example_periodic : sched_params_t :=
  { proposed_time := 1000, min_interval := 60 }

/-- The queue `example_queue` after `remove_from_osd_queue` on job 0. -/
def example_removed : ScrubQueue :=
  remove_from_osd_queue example_queue 0

/-- A request with a negative pool interval. -/
def example_negative : sched_params_t :=
  { proposed_time := 1000, min_interval := -60, max_interval := -60 }

/-- A queue in which PG 7 holds the reserving flag since tick 10. -/
def example_reserving : ScrubQueue :=
  { example_start with reserving_pg := some 7, reserving_since := 10 }

end ScrubQueue

namespace ScrubQueue

/-- `ScrubQueue::clear_reserving_now`. -/
def clear_reserving_now (q : ScrubQueue) (was_reserving_id : spg_t) : ScrubQueue :=
  match q.reserving_pg with
  | some holder => if holder = was_reserving_id then { q with reserving_pg := none } else q
  | none => q

/-- `ScrubQueue::is_reserving_now`. -/
def is_reserving_now (q : ScrubQueue) : Bool :=
  q.reserving_pg.isSome

/-- The call `set_reserving_now(p, t)` followed by `clear_reserving_now(p)`; `none` when
the first call fails its assertion. -/
def set_then_clear_reserving (q : ScrubQueue) (p : spg_t) (t : utime_t) : Option ScrubQueue :=
  match set_reserving_now q p t with
  | some res => some (clear_reserving_now res.2 p)
  | none => none

/-- A call on the reserving-now flag. -/
inductive reserving_call where
  | set (pg : spg_t) (now : utime_t)
  | clear (pg : spg_t)
  deriving DecidableEq

/-- One call on the reserving-now flag; `none` when the assertion of
`set_reserving_now` fails. -/
def apply_reserving_call (q : ScrubQueue) : reserving_call → Option ScrubQueue
  | reserving_call.set pg now =>
    match set_reserving_now q pg now with
    | some res => some res.2
    | none => none
  | reserving_call.clear pg => some (clear_reserving_now q pg)

/-- A sequence of calls on the reserving-now flag, in order. -/
def run_reserving_calls (q : ScrubQueue) : List reserving_call → Option ScrubQueue
  | [] => some q
  | c :: rest =>
    match apply_reserving_call q c with
    | some q1 => run_reserving_calls q1 rest
    | none => none

/-- The value an `int_fast16_t` holds after an arithmetic step: two's complement in 16
bits, the width every platform provides for the type (the value is the same for every
wider counter as long as it stays between -32768 and 32767). -/
def int_fast16_wrap (x : Int) : Int :=
  (x + 32768) % 65536 - 32768

/-- `ScrubQueue::mark_pg_scrub_blocked`. -/
def mark_pg_scrub_blocked (q : ScrubQueue) (_blocked_pg : spg_t) : ScrubQueue :=
  { q with blocked_scrubs_cnt := int_fast16_wrap (q.blocked_scrubs_cnt + 1) }

/-- `ScrubQueue::clear_pg_scrub_blocked`; `none` when `ceph_assert(blocked_scrubs_cnt >= 0)`
fails. -/
def clear_pg_scrub_blocked (q : ScrubQueue) (_blocked_pg : spg_t) : Option ScrubQueue :=
  if 0 ≤ int_fast16_wrap (q.blocked_scrubs_cnt - 1) then
    some { q with blocked_scrubs_cnt := int_fast16_wrap (q.blocked_scrubs_cnt - 1) }
  else none

/-- `ScrubQueue::get_blocked_pgs_count`. -/
def get_blocked_pgs_count (q : ScrubQueue) : Int :=
  q.blocked_scrubs_cnt

/-- A call on the blocked-scrubs counter. -/
inductive blocked_call where
  | mark (pg : spg_t)
  | clear (pg : spg_t)
  deriving DecidableEq

/-- One call on the blocked-scrubs counter. -/
def apply_blocked_call (q : ScrubQueue) : blocked_call → Option ScrubQueue
  | blocked_call.mark pg => some (mark_pg_scrub_blocked q pg)
  | blocked_call.clear pg => clear_pg_scrub_blocked q pg

/-- A sequence of calls on the blocked-scrubs counter, in order. -/
def run_blocked_calls (q : ScrubQueue) : List blocked_call → Option ScrubQueue
  | [] => some q
  | c :: rest =>
    match apply_blocked_call q c with
    | some q1 => run_blocked_calls q1 rest
    | none => none

/-- The number of `mark_pg_scrub_blocked` calls in a sequence. -/
def count_marks : List blocked_call → Nat
  | [] => 0
  | blocked_call.mark _ :: rest => count_marks rest + 1
  | blocked_call.clear _ :: rest => count_marks rest

/-- The number of `clear_pg_scrub_blocked` calls in a sequence. -/
def count_clears : List blocked_call → Nat
  | [] => 0
  | blocked_call.mark _ :: rest => count_clears rest
  | blocked_call.clear _ :: rest => count_clears rest + 1

/-- `ScrubQueue::list_registered_jobs` (a `const` member function: the queue is not
written). -/
def list_registered_jobs (q : ScrubQueue) : ScrubQContainer :=
  q.to_scrub.filter (fun r => registered_job (q.jobs r)) ++
    q.penalized.filter (fun r => registered_job (q.jobs r))

end ScrubQueue

namespace ScrubQueue

/-- A history of calls on the reserving-now flag: PG 7 sets it, PG 8 is refused, PG 8
clears (ignored), PG 7 clears, PG 8 sets it. -/
def example_reserving_calls : List reserving_call :=
  [reserving_call.set 7 10, reserving_call.set 8 20, reserving_call.clear 8,
    reserving_call.clear 7, reserving_call.set 8 30]

/-- A history of calls on the blocked-scrubs counter. -/
def example_blocked_calls : List blocked_call :=
  [blocked_call.mark 1, blocked_call.mark 2, blocked_call.clear 1]

end ScrubQueue

namespace ScrubMachine

/-- The cancel token of a queued callback,
`ScrubMachineListener::scrubber_callback_cancel_token_t`, a pointer: `none` is
`nullptr`. -/
abbrev cancel_token_t := Option Nat

/-- `ScrubMachine::scheduled_event_state_t`, the state shared by a scheduled callback and
its token. -/
structure scheduled_event_state_t where
  canceled : Bool := false
  cb_token : cancel_token_t := none
  deriving DecidableEq

/-- `scheduled_event_state_t::operator bool`. -/
def scheduled_event_state_t.to_bool (s : scheduled_event_state_t) : Bool :=
  s.cb_token.isSome

/-- `ScrubMachine::timer_event_token_t`: the pointer to the machine and the shared
pointer to the event state (the address of the state; `none` is an empty pointer). -/
structure timer_event_token_t where
  parent : Option Nat := none
  event_state : Option Nat := none
  deriving DecidableEq

/-- `timer_event_token_t::operator bool`; `none` when its `assert` fails. -/
def timer_event_token_t.to_bool (t : timer_event_token_t) : Option Bool :=
  if t.parent.isSome = t.event_state.isSome then some t.parent.isSome else none

/-- The part of the world the timer events act on: the shared event states by address,
the number of states allocated so far, the arguments of the calls of the listener's
`cancel_callback` in order, and the events passed to `process_event` in order, each
with the value `cb_token` had in its shared state when `process_event` was entered. -/
structure TimerWorld where
  states : Nat → scheduled_event_state_t
  next : Nat
  cancel_log : List cancel_token_t
  delivered : List (Nat × cancel_token_t)

/-- A write to the shared state at an address. -/
def TimerWorld.set_state (w : TimerWorld) (a : Nat) (s : scheduled_event_state_t) :
    TimerWorld :=
  { w with states := fun x => if x = a then s else w.states x }

/-- `ScrubMachine::schedule_timer_event_after`: a new shared state is allocated (at
address `w.next`), the callback is queued at the listener and the token is returned.
Modelled from the spec: the listener's `schedule_callback_after` (not among the sources)
queues the callback and returns its cancel token, the non-null pointer `some tok`.
The queued callback is `timer_callback` at the address of the new state. -/
def schedule_timer_event_after (w : TimerWorld) (machine tok : Nat) :
    TimerWorld × timer_event_token_t :=
  let token := w.next
  let w1 := { w.set_state token {} with next := w.next + 1 }
  let w2 := w1.set_state token { w1.states token with cb_token := some tok }
  (w2, { parent := some machine, event_state := some token })

/-- The callback queued by `schedule_timer_event_after` for the shared state at address
`token` and the event `event`; `none` when the `assert` of the canceled branch fails.
`process_event(event)` is recorded in `delivered`. -/
def timer_callback (w : TimerWorld) (token event : Nat) : Option TimerWorld :=
  if !(w.states token).canceled then
    let w1 := w.set_state token { w.states token with cb_token := none }
    some { w1 with delivered := w1.delivered ++ [(event, (w1.states token).cb_token)] }
  else if (w.states token).cb_token = none then some w
  else none

/-- `timer_event_token_t::release` (also the destructor): the world and the handle after
the call; `none` when the `assert` of `operator bool` fails. -/
def timer_event_token_t.release (w : TimerWorld) (t : timer_event_token_t) :
    Option (TimerWorld × timer_event_token_t) :=
  match t.to_bool with
  | none => none
  | some false => some (w, t)
  | some true =>
    match t.event_state with
    | none => none
    | some a =>
      let w1 :=
        if (w.states a).to_bool then
          { w with cancel_log := w.cancel_log ++ [(w.states a).cb_token] }.set_state a
            { canceled := true, cb_token := none }
        else w
      some (w1, { t with event_state := none, parent := none })

/-- `timer_event_token_t::swap`: the two handles after the call. -/
def timer_event_token_t.swap (self rhs : timer_event_token_t) :
    timer_event_token_t × timer_event_token_t :=
  ({ parent := rhs.parent, event_state := rhs.event_state },
    { parent := self.parent, event_state := self.event_state })

/-- The move constructor `timer_event_token_t(timer_event_token_t &&rhs)`: the new handle
and `rhs` after the call; `none` when the `assert` fails. -/
def timer_event_token_t.move_construct (rhs : timer_event_token_t) :
    Option (timer_event_token_t × timer_event_token_t) :=
  let res := timer_event_token_t.swap {} rhs
  if res.1.parent.isSome = res.1.event_state.isSome then some res else none

/-- The move assignment `operator=(timer_event_token_t &&rhs)`: the assigned handle and
`rhs` after the call; `none` when the `assert` fails. -/
def timer_event_token_t.move_assign (self rhs : timer_event_token_t) :
    Option (timer_event_token_t × timer_event_token_t) :=
  let res := timer_event_token_t.swap self rhs
  if res.1.parent.isSome = res.1.event_state.isSome then some res else none

/-- An action on the timer events of a machine: scheduling an event, releasing (or
destroying) a handle, the listener running the callback queued for a shared state. -/
inductive timer_op where
  | schedule (machine tok : Nat)
  | release (t : timer_event_token_t)
  | fire (token event : Nat)

/-- One action; `none` when an `assert` fails. -/
def apply_timer_op (w : TimerWorld) : timer_op → Option TimerWorld
  | timer_op.schedule machine tok => some (schedule_timer_event_after w machine tok).1
  | timer_op.release t =>
    match timer_event_token_t.release w t with
    | some res => some res.1
    | none => none
  | timer_op.fire token event => timer_callback w token event

/-- A sequence of actions, in order. -/
def run_timer_ops (w : TimerWorld) : List timer_op → Option TimerWorld
  | [] => some w
  | op :: rest =>
    match apply_timer_op w op with
    | some w1 => run_timer_ops w1 rest
    | none => none

/-- Whether an action runs the callback of the shared state at `a` or releases a
handle of it. -/
def timer_op.touches (a : Nat) : timer_op → Bool
  | timer_op.schedule _ _ => false
  | timer_op.release t => decide (t.event_state = some a)
  | timer_op.fire token _ => decide (token = a)

/-- A world with no event scheduled yet. -/
def example_world : TimerWorld :=
  { states := fun _ => {}, next := 0, cancel_log := [], delivered := [] }

/-- Another event is scheduled and its callback runs; the event at address 0 is not
touched. -/
def example_other_ops : List timer_op :=
  [timer_op.schedule 1 41, timer_op.fire 1 7]

end ScrubMachine

namespace Scrub

/-- The events of the scrub state machine (scrub_machine.h); the four reservation events
carry the shard they come from. -/
inductive ScrubEvent where
  | ReplicaGrant (sender : Nat)
  | ReplicaReject (sender : Nat)
  | ReplicaReserveReq (sender : Nat)
  | ReplicaRelease (sender : Nat)
  | RemotesReserved
  | ReservationTimeout
  | StartScrub
  | AfterRepairScrub
  | Unblocked
  | InternalSchedScrub
  | RangeBlockedAlarm
  | SleepComplete
  | SelectedChunkFree
  | ChunkIsBusy
  | ActivePushesUpd
  | UpdatesApplied
  | InternalAllUpdates
  | GotReplicas
  | IntBmPreempted
  | InternalError
  | IntLocalMapDone
  | DigestUpdate
  | ReplicaActivate
  | StartReplica
  | SchedReplica
  | ReplicaPushesUpd
  | IntervalChanged
  | FullReset
  | NextChunk
  | ScrubFinished
  deriving DecidableEq, Repr

/-- The kind of an event: the event without what it carries. -/
def ScrubEvent.kind : ScrubEvent → ScrubEvent
  | ScrubEvent.ReplicaGrant _ => ScrubEvent.ReplicaGrant 0
  | ScrubEvent.ReplicaReject _ => ScrubEvent.ReplicaReject 0
  | ScrubEvent.ReplicaReserveReq _ => ScrubEvent.ReplicaReserveReq 0
  | ScrubEvent.ReplicaRelease _ => ScrubEvent.ReplicaRelease 0
  | e => e

/-- The states of the scrub state machine (scrub_machine.h), composite states
included. -/
inductive ScrubState where
  | NotActive
  | Session
  | ReservingReplicas
  | ActiveScrubbing
  | RangeBlocked
  | PendingTimer
  | NewChunk
  | WaitPushes
  | WaitLastUpdate
  | BuildMap
  | DrainReplMaps
  | WaitReplicas
  | WaitDigestUpdate
  | ReplicaActive
  | ReplicaIdle
  | ReplicaActiveOp
  | ReplicaWaitUpdates
  | ReplicaBuildingMap
  deriving DecidableEq, Repr

/-- The context of a state: the second argument of `sc::state<S, Context, ...>` when it
is a state (`none` when it is the machine). -/
def ScrubState.outer : ScrubState → Option ScrubState
  | ScrubState.NotActive => none
  | ScrubState.Session => none
  | ScrubState.ReservingReplicas => some ScrubState.Session
  | ScrubState.ActiveScrubbing => some ScrubState.Session
  | ScrubState.RangeBlocked => some ScrubState.ActiveScrubbing
  | ScrubState.PendingTimer => some ScrubState.ActiveScrubbing
  | ScrubState.NewChunk => some ScrubState.ActiveScrubbing
  | ScrubState.WaitPushes => some ScrubState.ActiveScrubbing
  | ScrubState.WaitLastUpdate => some ScrubState.ActiveScrubbing
  | ScrubState.BuildMap => some ScrubState.ActiveScrubbing
  | ScrubState.DrainReplMaps => some ScrubState.ActiveScrubbing
  | ScrubState.WaitReplicas => some ScrubState.ActiveScrubbing
  | ScrubState.WaitDigestUpdate => some ScrubState.ActiveScrubbing
  | ScrubState.ReplicaActive => none
  | ScrubState.ReplicaIdle => some ScrubState.ReplicaActive
  | ScrubState.ReplicaActiveOp => some ScrubState.ReplicaActive
  | ScrubState.ReplicaWaitUpdates => some ScrubState.ReplicaActiveOp
  | ScrubState.ReplicaBuildingMap => some ScrubState.ReplicaActiveOp

/-- The initial inner state of a composite state: the third argument of
`sc::state<S, Context, Initial>`. -/
def ScrubState.initial_inner : ScrubState → Option ScrubState
  | ScrubState.Session => some ScrubState.ReservingReplicas
  | ScrubState.ActiveScrubbing => some ScrubState.PendingTimer
  | ScrubState.ReplicaActive => some ScrubState.ReplicaIdle
  | ScrubState.ReplicaActiveOp => some ScrubState.ReplicaWaitUpdates
  | _ => none

/-- The innermost state the machine is in after entering a state: initial inner states
are entered in turn (no state of the chart is nested deeper than three levels). -/
def ScrubState.enter (s : ScrubState) : ScrubState :=
  match s.initial_inner with
  | none => s
  | some s1 =>
    match s1.initial_inner with
    | none => s1
    | some s2 =>
      match s2.initial_inner with
      | none => s2
      | some s3 => s3

/-- A state followed by its contexts, innermost first: the order in which the reactions
to an event are looked up. -/
def ScrubState.context_chain (s : ScrubState) : List ScrubState :=
  s :: match s.outer with
    | none => []
    | some o1 => o1 :: match o1.outer with
      | none => []
      | some o2 => o2 :: match o2.outer with
        | none => []
        | some o3 => [o3]

/-- A reaction of a state's `reactions` list. -/
inductive Reaction where
  | transition (target : ScrubState)
  | custom_reaction
  | in_state_reaction
  deriving DecidableEq, Repr

/-- The `reactions` lists of scrub_machine.h: the reaction of a state to a kind of
event, if it has one. -/
def reactions (s : ScrubState) (e : ScrubEvent) : Option Reaction :=
  match s with
  | ScrubState.NotActive =>
    match e with
    | ScrubEvent.StartScrub => some Reaction.custom_reaction
    | ScrubEvent.AfterRepairScrub => some Reaction.custom_reaction
    | ScrubEvent.ReplicaActivate => some (Reaction.transition ScrubState.ReplicaActive)
    | _ => none
  | ScrubState.Session =>
    match e with
    | ScrubEvent.FullReset => some (Reaction.transition ScrubState.NotActive)
    | ScrubEvent.IntervalChanged => some Reaction.custom_reaction
    | _ => none
  | ScrubState.ReservingReplicas =>
    match e with
    | ScrubEvent.ReplicaGrant _ => some Reaction.custom_reaction
    | ScrubEvent.ReplicaReject _ => some Reaction.custom_reaction
    | ScrubEvent.RemotesReserved => some (Reaction.transition ScrubState.ActiveScrubbing)
    | ScrubEvent.ReservationTimeout => some Reaction.custom_reaction
    | _ => none
  | ScrubState.ActiveScrubbing =>
    match e with
    | ScrubEvent.InternalError => some Reaction.custom_reaction
    | _ => none
  | ScrubState.RangeBlocked =>
    match e with
    | ScrubEvent.RangeBlockedAlarm => some Reaction.custom_reaction
    | ScrubEvent.Unblocked => some (Reaction.transition ScrubState.PendingTimer)
    | _ => none
  | ScrubState.PendingTimer =>
    match e with
    | ScrubEvent.InternalSchedScrub => some (Reaction.transition ScrubState.NewChunk)
    | ScrubEvent.SleepComplete => some Reaction.custom_reaction
    | _ => none
  | ScrubState.NewChunk =>
    match e with
    | ScrubEvent.ChunkIsBusy => some (Reaction.transition ScrubState.RangeBlocked)
    | ScrubEvent.SelectedChunkFree => some Reaction.custom_reaction
    | _ => none
  | ScrubState.WaitPushes =>
    match e with
    | ScrubEvent.ActivePushesUpd => some Reaction.custom_reaction
    | _ => none
  | ScrubState.WaitLastUpdate =>
    match e with
    | ScrubEvent.InternalAllUpdates => some Reaction.custom_reaction
    | ScrubEvent.UpdatesApplied => some Reaction.in_state_reaction
    | _ => none
  | ScrubState.BuildMap =>
    match e with
    | ScrubEvent.IntBmPreempted => some (Reaction.transition ScrubState.DrainReplMaps)
    | ScrubEvent.InternalSchedScrub => some (Reaction.transition ScrubState.BuildMap)
    | ScrubEvent.IntLocalMapDone => some Reaction.custom_reaction
    | _ => none
  | ScrubState.DrainReplMaps =>
    match e with
    | ScrubEvent.GotReplicas => some Reaction.custom_reaction
    | _ => none
  | ScrubState.WaitReplicas =>
    match e with
    | ScrubEvent.GotReplicas => some Reaction.custom_reaction
    | ScrubEvent.DigestUpdate => some Reaction.custom_reaction
    | _ => none
  | ScrubState.WaitDigestUpdate =>
    match e with
    | ScrubEvent.DigestUpdate => some Reaction.custom_reaction
    | ScrubEvent.ScrubFinished => some Reaction.custom_reaction
    | ScrubEvent.NextChunk => some (Reaction.transition ScrubState.PendingTimer)
    | _ => none
  | ScrubState.ReplicaActive =>
    match e with
    | ScrubEvent.ReplicaReserveReq _ => some Reaction.in_state_reaction
    | ScrubEvent.ReplicaRelease _ => some Reaction.in_state_reaction
    | ScrubEvent.IntervalChanged => some (Reaction.transition ScrubState.NotActive)
    | _ => none
  | ScrubState.ReplicaIdle =>
    match e with
    | ScrubEvent.StartReplica => some (Reaction.transition ScrubState.ReplicaWaitUpdates)
    | _ => none
  | ScrubState.ReplicaActiveOp =>
    match e with
    | ScrubEvent.StartReplica => some Reaction.custom_reaction
    | _ => none
  | ScrubState.ReplicaWaitUpdates =>
    match e with
    | ScrubEvent.ReplicaPushesUpd => some Reaction.custom_reaction
    | _ => none
  | ScrubState.ReplicaBuildingMap =>
    match e with
    | ScrubEvent.SchedReplica => some Reaction.custom_reaction
    | _ => none

/-- What a custom reaction returns (`sc::result`): `discard_event()`, `forward_event()` or
`transit<Target>()`. -/
inductive sc_result where
  | discard_event
  | forward_event
  | transit (target : ScrubState)
  deriving DecidableEq, Repr

/-- Modelled from the spec: `ReplicaReservations` (scrub_reservations.h is not among the
sources): the peers whose reservation the session needs and the peers whose
`ReplicaGrant` has been collected. -/
structure ReplicaReservations where
  peers : List Nat
  granted : List Nat
  deriving DecidableEq, Repr

/-- The scrub state machine: the innermost state it is in, `Session::m_reservations`, and
the events posted with `post_event` that are still to be processed. -/
structure Machine where
  state : ScrubState
  m_reservations : Option ReplicaReservations
  posted : List ScrubEvent
  deriving DecidableEq, Repr

/-- What running a custom reaction does: the `sc::result` it returns, the events it
posts, and `Session::m_reservations` as it leaves it. -/
structure CustomOutcome where
  result : sc_result
  posts : List ScrubEvent
  m_reservations : Option ReplicaReservations

/-- Whether a state is `Session` or inside it. -/
def ScrubState.in_session (s : ScrubState) : Bool :=
  decide (ScrubState.Session ∈ s.context_chain)

/-- Whether a state is `ActiveScrubbing` or inside it. -/
def ScrubState.in_active (s : ScrubState) : Bool :=
  decide (ScrubState.ActiveScrubbing ∈ s.context_chain)

/-- A transition of the machine to a target state.  Modelled from the spec: the
constructor and the destructor of `Session` (scrub_machine.cc is not among the
sources): entering `Session` creates the reservations for the peers `peers`, with no
grant collected; leaving it drops them. -/
def Machine.transit (peers : List Nat) (m : Machine) (target : ScrubState) : Machine :=
  { m with
    state := target.enter,
    m_reservations :=
      if target.enter.in_session then
        if m.state.in_session then m.m_reservations
        else some { peers := peers, granted := [] }
      else none }

/-- The lookup of a reaction to an event through a state and its contexts, innermost
first, as `sc::state_machine` does it; `custom` stands for the bodies of the custom
reactions.  An event for which no state has a reaction is dropped. -/
def Machine.dispatch (custom : Machine → ScrubState → ScrubEvent → CustomOutcome)
    (peers : List Nat) (m : Machine) (e : ScrubEvent) : List ScrubState → Machine
  | [] => m
  | s :: rest =>
    match reactions s e with
    | some (Reaction.transition target) => m.transit peers target
    | some Reaction.in_state_reaction => m
    | some Reaction.custom_reaction =>
      let o := custom m s e
      let m1 : Machine :=
        { m with m_reservations := o.m_reservations, posted := m.posted ++ o.posts }
      match o.result with
      | sc_result.discard_event => m1
      | sc_result.transit target => m1.transit peers target
      | sc_result.forward_event => Machine.dispatch custom peers m1 e rest
    | none => Machine.dispatch custom peers m e rest

/-- The processing of one event by the machine in its current state. -/
def Machine.process_event (custom : Machine → ScrubState → ScrubEvent → CustomOutcome)
    (peers : List Nat) (m : Machine) (e : ScrubEvent) : Machine :=
  Machine.dispatch custom peers m e m.state.context_chain

end Scrub

namespace Scrub

/-- Modelled from the spec: the bodies of the custom reactions (scrub_machine.cc is not
among the sources).  `env s e` stands for the condition a reaction waits for (the pushes
have drained, the last map has arrived, the replica's map is complete).
`ReservingReplicas` records every `ReplicaGrant` and posts `RemotesReserved` once every
peer of the reservations has granted; a reject or a timeout posts `FullReset`, as do an
`InternalError` inside `ActiveScrubbing` and the final `ScrubFinished`; the alarm of
`RangeBlocked` posts `InternalError`.  A custom reaction the spec says nothing about
discards its event. -/
def spec_reactions (env : ScrubState → ScrubEvent → Bool) (m : Machine)
    (s : ScrubState) (e : ScrubEvent) : CustomOutcome :=
  match s with
  | ScrubState.NotActive =>
    match e with
    | ScrubEvent.StartScrub => ⟨sc_result.transit ScrubState.Session, [], m.m_reservations⟩
    | ScrubEvent.AfterRepairScrub =>
      ⟨sc_result.transit ScrubState.Session, [], m.m_reservations⟩
    | _ => ⟨sc_result.discard_event, [], m.m_reservations⟩
  | ScrubState.Session =>
    match e with
    | ScrubEvent.IntervalChanged => ⟨sc_result.transit ScrubState.NotActive, [], none⟩
    | _ => ⟨sc_result.discard_event, [], m.m_reservations⟩
  | ScrubState.ReservingReplicas =>
    match e with
    | ScrubEvent.ReplicaGrant p =>
      match m.m_reservations with
      | none => ⟨sc_result.discard_event, [], none⟩
      | some r =>
        ⟨sc_result.discard_event,
          if r.peers.all (fun x => decide (x ∈ p :: r.granted)) then
            [ScrubEvent.RemotesReserved]
          else [],
          some { r with granted := p :: r.granted }⟩
    | ScrubEvent.ReplicaReject _ =>
      ⟨sc_result.discard_event, [ScrubEvent.FullReset], m.m_reservations⟩
    | ScrubEvent.ReservationTimeout =>
      ⟨sc_result.discard_event, [ScrubEvent.FullReset], m.m_reservations⟩
    | _ => ⟨sc_result.discard_event, [], m.m_reservations⟩
  | ScrubState.ActiveScrubbing =>
    match e with
    | ScrubEvent.InternalError =>
      ⟨sc_result.discard_event, [ScrubEvent.FullReset], m.m_reservations⟩
    | _ => ⟨sc_result.discard_event, [], m.m_reservations⟩
  | ScrubState.RangeBlocked =>
    match e with
    | ScrubEvent.RangeBlockedAlarm =>
      ⟨sc_result.discard_event, [ScrubEvent.InternalError], m.m_reservations⟩
    | _ => ⟨sc_result.discard_event, [], m.m_reservations⟩
  | ScrubState.PendingTimer => ⟨sc_result.discard_event, [], m.m_reservations⟩
  | ScrubState.NewChunk =>
    match e with
    | ScrubEvent.SelectedChunkFree =>
      ⟨sc_result.transit ScrubState.WaitPushes, [], m.m_reservations⟩
    | _ => ⟨sc_result.discard_event, [], m.m_reservations⟩
  | ScrubState.WaitPushes =>
    match e with
    | ScrubEvent.ActivePushesUpd =>
      ⟨if env ScrubState.WaitPushes ScrubEvent.ActivePushesUpd then
          sc_result.transit ScrubState.WaitLastUpdate
        else sc_result.discard_event, [], m.m_reservations⟩
    | _ => ⟨sc_result.discard_event, [], m.m_reservations⟩
  | ScrubState.WaitLastUpdate =>
    match e with
    | ScrubEvent.InternalAllUpdates =>
      ⟨sc_result.transit ScrubState.BuildMap, [], m.m_reservations⟩
    | _ => ⟨sc_result.discard_event, [], m.m_reservations⟩
  | ScrubState.BuildMap =>
    match e with
    | ScrubEvent.IntLocalMapDone =>
      ⟨sc_result.transit ScrubState.WaitReplicas, [], m.m_reservations⟩
    | _ => ⟨sc_result.discard_event, [], m.m_reservations⟩
  | ScrubState.DrainReplMaps =>
    match e with
    | ScrubEvent.GotReplicas =>
      ⟨if env ScrubState.DrainReplMaps ScrubEvent.GotReplicas then
          sc_result.transit ScrubState.PendingTimer
        else sc_result.discard_event, [], m.m_reservations⟩
    | _ => ⟨sc_result.discard_event, [], m.m_reservations⟩
  | ScrubState.WaitReplicas =>
    match e with
    | ScrubEvent.GotReplicas =>
      ⟨if env ScrubState.WaitReplicas ScrubEvent.GotReplicas then
          sc_result.transit ScrubState.WaitDigestUpdate
        else sc_result.discard_event, [], m.m_reservations⟩
    | _ => ⟨sc_result.discard_event, [], m.m_reservations⟩
  | ScrubState.WaitDigestUpdate =>
    match e with
    | ScrubEvent.ScrubFinished =>
      ⟨sc_result.discard_event, [ScrubEvent.FullReset], m.m_reservations⟩
    | _ => ⟨sc_result.discard_event, [], m.m_reservations⟩
  | ScrubState.ReplicaActive => ⟨sc_result.discard_event, [], m.m_reservations⟩
  | ScrubState.ReplicaIdle => ⟨sc_result.discard_event, [], m.m_reservations⟩
  | ScrubState.ReplicaActiveOp =>
    match e with
    | ScrubEvent.StartReplica =>
      ⟨sc_result.transit ScrubState.ReplicaActiveOp, [], m.m_reservations⟩
    | _ => ⟨sc_result.discard_event, [], m.m_reservations⟩
  | ScrubState.ReplicaWaitUpdates =>
    match e with
    | ScrubEvent.ReplicaPushesUpd =>
      ⟨if env ScrubState.ReplicaWaitUpdates ScrubEvent.ReplicaPushesUpd then
          sc_result.transit ScrubState.ReplicaBuildingMap
        else sc_result.discard_event, [], m.m_reservations⟩
    | _ => ⟨sc_result.discard_event, [], m.m_reservations⟩
  | ScrubState.ReplicaBuildingMap =>
    match e with
    | ScrubEvent.SchedReplica =>
      ⟨if env ScrubState.ReplicaBuildingMap ScrubEvent.SchedReplica then
          sc_result.transit ScrubState.ReplicaIdle
        else sc_result.discard_event, [], m.m_reservations⟩
    | _ => ⟨sc_result.discard_event, [], m.m_reservations⟩

/-- The machine as `sc::state_machine::initiate` leaves it: in `NotActive`, with no
reservations and no posted event. -/
def Machine.initial : Machine :=
  { state := ScrubState.NotActive, m_reservations := none, posted := [] }

/-- A condition oracle under which every awaited condition holds. -/
def example_env : ScrubState → ScrubEvent → Bool := fun _ _ => true

/-- A machine building its map, holding the reservations of two peers. -/
def example_building : Machine :=
  { state := ScrubState.BuildMap,
    m_reservations := some { peers := [1, 2], granted := [2, 1] },
    posted := [] }

end Scrub

namespace Scrub

end Scrub

namespace Scrub

end Scrub

namespace Scrub

/-- Whether a state is `ReplicaActive` or inside it. -/
def ScrubState.in_replica (s : ScrubState) : Bool :=
  decide (ScrubState.ReplicaActive ∈ s.context_chain)

/-- The machine together with the member `reserved_by_my_primary` of its `ReplicaActive`
state object; `none` while the machine is outside `ReplicaActive`, where no such object
exists. -/
structure ReplicaMachine where
  machine : Machine
  reserved_by_my_primary : Option Bool
  deriving DecidableEq, Repr

/-- Whether an event reaches the in-state reaction of `ReplicaActive` from the state `s`:
no state inside `ReplicaActive` on the way has a reaction to it, and `ReplicaActive`
lists an `sc::in_state_reaction` for it. -/
def reaches_in_state_reaction (s : ScrubState) (e : ScrubEvent) : Bool :=
  s.in_replica &&
    (s.context_chain.takeWhile (fun x => decide (x ≠ ScrubState.ReplicaActive))).all
      (fun x => (reactions x e).isNone) &&
    decide (reactions ScrubState.ReplicaActive e = some Reaction.in_state_reaction)

/-- The processing of one event, with the life of `reserved_by_my_primary`: the member
goes with the `ReplicaActive` object when the machine leaves `ReplicaActive`, is created
by its initialiser `reserved_by_my_primary{false}` when the machine enters it, and is
otherwise changed only by the in-state reactions `on_reserve_req` and `on_release`,
whose effect on the member is `in_state`. -/
def ReplicaMachine.process_event
    (custom : Machine → ScrubState → ScrubEvent → CustomOutcome)
    (in_state : Bool → ScrubEvent → Bool) (peers : List Nat)
    (rm : ReplicaMachine) (e : ScrubEvent) : ReplicaMachine :=
  let m1 := Machine.process_event custom peers rm.machine e
  { machine := m1,
    reserved_by_my_primary :=
      if m1.state.in_replica then
        if rm.machine.state.in_replica then
          if reaches_in_state_reaction rm.machine.state e then
            rm.reserved_by_my_primary.map (fun b => in_state b e)
          else rm.reserved_by_my_primary
        else some false
      else none }

/-- Modelled from the spec: the effect of `on_reserve_req` and `on_release` on
`reserved_by_my_primary` (scrub_machine.cc is not among the sources): a reservation
request sets the flag when the local resource counter grants it (`grant`), a release
clears it. -/
def spec_in_state (grant : Bool) (b : Bool) : ScrubEvent → Bool
  | ScrubEvent.ReplicaReserveReq _ => b || grant
  | ScrubEvent.ReplicaRelease _ => false
  | _ => b

/-- A replica building its map while reserved by its primary. -/
def example_replica : ReplicaMachine :=
  { machine :=
      { state := ScrubState.ReplicaBuildingMap, m_reservations := none, posted := [] },
    reserved_by_my_primary := some true }

end Scrub

namespace mClockScheduler

/-- `mClockScheduler::get_io_prio_cut`: the cutoff priority for the configured
`osd_op_queue_cut_off`.  `random_gen` is the number drawn from `std::mt19937`; the two
message priorities are constants of a header that is not among the sources and are
taken as arguments. -/
def get_io_prio_cut (CEPH_MSG_PRIO_HIGH CEPH_MSG_PRIO_LOW : Nat)
    (osd_op_queue_cut_off : String) (random_gen : Nat) : Nat :=
  if osd_op_queue_cut_off = "debug_random" then
    if random_gen % 2 < 1 then CEPH_MSG_PRIO_HIGH else CEPH_MSG_PRIO_LOW
  else if osd_op_queue_cut_off = "high" then
    CEPH_MSG_PRIO_HIGH
  else
    CEPH_MSG_PRIO_LOW

/-- Modelled from the spec: `mClockScheduler::calc_scaled_cost` (mClockScheduler.cc is
not among the sources): the `int` cost clamped to a minimum of 1, as a `uint32_t`. -/
def calc_scaled_cost (cost : Int) : Nat :=
  (max 1 cost).toNat % 2 ^ 32

/-- The classes of ops; `immediate` is the third, as the size of
`internal_client_infos` in the header has it. -/
inductive op_scheduler_class where
  | background_recovery
  | background_best_effort
  | immediate
  | client
  deriving DecidableEq, Repr

/-- What the scheduler reads of an `OpSchedulerItem`: its class, priority and cost; `id`
stands for the op it carries. -/
structure OpSchedulerItem where
  id : Nat
  scheduler_class : op_scheduler_class
  priority : Nat
  cost : Int
  deriving DecidableEq, Repr

/-- The type `SubQueue`: a `std::map` from priority to a list of items under
`std::greater`, as the list of its entries in the order of iteration, greatest priority
first. -/
abbrev SubQueue := List (Nat × List OpSchedulerItem)

/-- What `dequeue` returns: nothing, an item, or the time at which to try again. -/
inductive WorkItem where
  | monostate
  | item (i : OpSchedulerItem)
  | future (t : ℚ)
  deriving DecidableEq, Repr

/-- The queues of an `mClockScheduler`: the cutoff priority, the high-priority lane and
the requests held by the mClock queue, each with its scaled cost, in the order they
were added. -/
structure State where
  cutoff_priority : Nat
  high_priority : SubQueue
  scheduler : List (OpSchedulerItem × Nat)
  deriving DecidableEq, Repr

/-- Modelled from the spec: `mClockScheduler::enqueue_high` (mClockScheduler.cc is not
among the sources): the item goes to the bucket of its priority, at the head when
`front` is set and at the tail otherwise; the bucket is created when the map has none
for the priority. -/
def enqueue_high (prio : Nat) (item : OpSchedulerItem) (front : Bool) :
    SubQueue → SubQueue
  | [] => [(prio, [item])]
  | (k, b) :: more =>
    if k = prio then (k, if front then item :: b else b ++ [item]) :: more
    else if k < prio then (prio, [item]) :: (k, b) :: more
    else (k, b) :: enqueue_high prio item front more

/-- Whether `enqueue` sends an item to the high-priority lane: its priority is above the
cutoff or its class is `immediate`. -/
def State.bypasses (s : State) (item : OpSchedulerItem) : Bool :=
  decide (item.priority > s.cutoff_priority) ||
    decide (item.scheduler_class = op_scheduler_class.immediate)

/-- Modelled from the spec: `mClockScheduler::enqueue` (mClockScheduler.cc is not among
the sources): an item above the cutoff or of class `immediate` is pushed into the
high-priority lane at its priority; any other item is added to the mClock queue with
the cost `calc_scaled_cost(item.cost)`. -/
def enqueue (s : State) (item : OpSchedulerItem) : State :=
  if s.bypasses item then
    { s with high_priority := enqueue_high item.priority item false s.high_priority }
  else
    { s with scheduler := s.scheduler ++ [(item, calc_scaled_cost item.cost)] }

/-- Modelled from the spec: `mClockScheduler::enqueue_front` (mClockScheduler.cc is not
among the sources): the item is inserted at the head of the bucket of its priority in
the high-priority lane. -/
def enqueue_front (s : State) (item : OpSchedulerItem) : State :=
  { s with high_priority := enqueue_high item.priority item true s.high_priority }

/-- Modelled from the spec: `mClockScheduler::dequeue` (mClockScheduler.cc is not among
the sources): when the high-priority lane is not empty, the head of its first bucket is
popped, and the bucket erased when that empties it; otherwise the mClock queue is
pulled.  `pull` stands for `PullPriorityQueue::pull_request` of the dmclock library: what
it returns and the requests it leaves.  The result is `none` when the first bucket is
empty, against the invariant of `high_priority`. -/
def dequeue (pull : List (OpSchedulerItem × Nat) → WorkItem × List (OpSchedulerItem × Nat))
    (s : State) : Option (WorkItem × State) :=
  match s.high_priority with
  | [] => some ((pull s.scheduler).1, { s with scheduler := (pull s.scheduler).2 })
  | (_, []) :: _ => none
  | (k, x :: rest) :: more =>
    some (WorkItem.item x,
      { s with high_priority := if rest = [] then more else (k, rest) :: more })

/-- A scheduler with nothing queued. -/
def State.empty_queues (cutoff : Nat) : State :=
  { cutoff_priority := cutoff, high_priority := [], scheduler := [] }

/-- The states a scheduler reaches from empty queues by `enqueue`, `enqueue_front` and
`dequeue`. -/
inductive Reachable
    (pull : List (OpSchedulerItem × Nat) → WorkItem × List (OpSchedulerItem × Nat)) :
    State → Prop where
  | init (cutoff : Nat) : Reachable pull (State.empty_queues cutoff)
  | enqueue (s : State) (item : OpSchedulerItem) (h : Reachable pull s) :
      Reachable pull (mClockScheduler.enqueue s item)
  | enqueue_front (s : State) (item : OpSchedulerItem) (h : Reachable pull s) :
      Reachable pull (mClockScheduler.enqueue_front s item)
  | dequeue (s s1 : State) (w : WorkItem) (h : Reachable pull s)
      (hd : mClockScheduler.dequeue pull s = some (w, s1)) : Reachable pull s1

end mClockScheduler

namespace ScrubMachine

/-- The timer events of a machine with what refers to them: the shared event states
(`world`), the `timer_event_token_t` objects by the order of their creation, whether the
callback queued for a shared state (which holds a `shared_ptr` to it) still exists,
whether the callback of a shared state has passed its event to `process_event`, and how
often `cancel_callback` has been called for it. -/
structure TimerSystem where
  world : TimerWorld
  handles : Nat → timer_event_token_t
  next_handle : Nat
  callback : Nat → Bool
  fired : Nat → Bool
  cancels : Nat → Nat

/-- Whether some `timer_event_token_t` object points to the shared state at `a`. -/
def TimerSystem.points_to (s : TimerSystem) (a : Nat) : Bool :=
  (List.range s.next_handle).any (fun i => decide ((s.handles i).event_state = some a))

/-- The destructor `~scheduled_event_state_t` of the shared state at `a`, run when the
last `shared_ptr` to it has gone: no token object points to it and its callback does not
exist any more; `none` when its `assert(!cb_token)` fails. -/
def TimerSystem.destructor (s : TimerSystem) (a : Nat) : Option TimerSystem :=
  if s.points_to a || s.callback a then some s
  else if (s.world.states a).cb_token = none then some s
  else none

/-- An action on the timer events and their tokens: scheduling an event (the returned
token is a new object), `release()` or the destructor of the token object `i`, the move
constructor creating a new object from the object `i`, the move assignment of the
object `j` to the object `i`, the listener running the callback of the shared state
at `a`, and the listener destroying that callback. -/
inductive system_op where
  | schedule (machine tok : Nat)
  | release (i : Nat)
  | move_construct (i : Nat)
  | move_assign (i j : Nat)
  | fire (a event : Nat)
  | drop_callback (a : Nat)
  deriving DecidableEq, Repr

/-- One action; `none` when an `assert` fails.  An action on a token object that does not
exist, or on a callback that does not exist any more, does nothing. -/
def apply_system_op (s : TimerSystem) : system_op → Option TimerSystem
  | system_op.schedule machine tok =>
    let r := schedule_timer_event_after s.world machine tok
    some
      { world := r.1,
        handles := Function.update s.handles s.next_handle r.2,
        next_handle := s.next_handle + 1,
        callback := Function.update s.callback s.world.next true,
        fired := Function.update s.fired s.world.next false,
        cancels := Function.update s.cancels s.world.next 0 }
  | system_op.release i =>
    if i < s.next_handle then
      match timer_event_token_t.release s.world (s.handles i) with
      | none => none
      | some res =>
        match (s.handles i).event_state with
        | none =>
          some { s with world := res.1, handles := Function.update s.handles i res.2 }
        | some a =>
          TimerSystem.destructor
            { s with
              world := res.1,
              handles := Function.update s.handles i res.2,
              cancels := Function.update s.cancels a
                (s.cancels a + (res.1.cancel_log.length - s.world.cancel_log.length)) }
            a
    else some s
  | system_op.move_construct i =>
    if i < s.next_handle then
      match timer_event_token_t.move_construct (s.handles i) with
      | none => none
      | some res =>
        some { s with
          handles := Function.update (Function.update s.handles i res.2) s.next_handle res.1,
          next_handle := s.next_handle + 1 }
    else some s
  | system_op.move_assign i j =>
    if i < s.next_handle ∧ j < s.next_handle then
      match timer_event_token_t.move_assign (s.handles i) (s.handles j) with
      | none => none
      | some res =>
        some { s with handles := Function.update (Function.update s.handles i res.1) j res.2 }
    else some s
  | system_op.fire a event =>
    if s.callback a then
      match timer_callback s.world a event with
      | none => none
      | some w1 =>
        some { s with
          world := w1,
          fired := Function.update s.fired a (s.fired a || !(s.world.states a).canceled) }
    else some s
  | system_op.drop_callback a =>
    if s.callback a then
      TimerSystem.destructor { s with callback := Function.update s.callback a false } a
    else some s

/-- A sequence of actions, in order; `none` when an `assert` fails on the way. -/
def run_system_ops (s : TimerSystem) : List system_op → Option TimerSystem
  | [] => some s
  | op :: rest =>
    match apply_system_op s op with
    | some s1 => run_system_ops s1 rest
    | none => none

/-- A machine that has scheduled no timer event and owns no token object. -/
def TimerSystem.initial : TimerSystem :=
  { world := { states := fun _ => {}, next := 0, cancel_log := [], delivered := [] },
    handles := fun _ => {},
    next_handle := 0,
    callback := fun _ => false,
    fired := fun _ => false,
    cancels := fun _ => 0 }

/-- The invariant of the timer events: every token object is consistent; a shared state
whose `cb_token` is not null is neither canceled nor fired; `cancel_callback` has been
called for a canceled state only, and at most once; an allocated state no token
object points to has a null `cb_token`; a fired state is not canceled; a callback
exists for allocated states only. -/
def TimerSystem.invariant (s : TimerSystem) : Prop :=
  (∀ i, (s.handles i).parent.isSome = (s.handles i).event_state.isSome) ∧
  (∀ a, (s.world.states a).cb_token = none ∨
    (s.fired a = false ∧ (s.world.states a).canceled = false)) ∧
  (∀ a, (s.world.states a).canceled = false → s.cancels a = 0) ∧
  (∀ a, s.cancels a ≤ 1) ∧
  (∀ a, a < s.world.next → s.points_to a = false → (s.world.states a).cb_token = none) ∧
  (∀ a, s.fired a = true → (s.world.states a).canceled = false) ∧
  (∀ a, s.callback a = true → a < s.world.next)

/-- A history of a timer event: it is scheduled, its token is moved to a new object and
then assigned to a third one scheduled meanwhile, the callback runs, the tokens are
released and the callbacks destroyed. -/
def example_system_ops : List system_op :=
  [system_op.schedule 1 40, system_op.move_construct 0, system_op.schedule 1 41,
    system_op.move_assign 2 1, system_op.fire 0 7, system_op.release 2,
    system_op.release 1, system_op.drop_callback 0, system_op.drop_callback 1]

end ScrubMachine

namespace ScrubMachine

/-- The first part of the example history: up to the run of the callback, which delivers
the event; the token is still held. -/
def example_fired_ops : List system_op := example_system_ops.take 5

/-- The timer events after the first part of the example history. -/
def example_fired_system : TimerSystem :=
  (run_system_ops TimerSystem.initial example_fired_ops).get rfl

end ScrubMachine

namespace ScrubQueue

/-- A queue on which a sweep at tick `now` finds nothing to do: every job in the lanes
is registered, the jobs in `to_scrub` have neither `resources_failure` nor `updated`
set, the jobs in `penalized` are not updated and their penalty has not run out, and
`restore_penalized` is off. -/
def settled (now : utime_t) (q : ScrubQueue) : Prop :=
  (∀ x ∈ q.to_scrub ++ q.penalized, (q.jobs x).state = qu_state_t.registered) ∧
  (∀ x ∈ q.to_scrub, (q.jobs x).resources_failure = false ∧ (q.jobs x).updated = false) ∧
  (∀ x ∈ q.penalized, (q.jobs x).updated = false ∧ now < (q.jobs x).penalty_timeout) ∧
  q.restore_penalized = false

end ScrubQueue

namespace Scrub

/-- Another implementation of `StdAlgorithms`: its partition leaves the elements that
do not satisfy the predicate in reverse order, which the standard allows (the order
inside the two parts is unspecified); the sort is the one of `refAlgo`. -/
def revAlgo : StdAlgorithms where
  partition p l := (l.filter p, (l.filter (fun x => !p x)).reverse)
  partition_perm p l := by
    have h1 : (l.filter p ++ (l.filter (fun x => !p x)).reverse).Perm
        (l.filter p ++ l.filter (fun x => !p x)) :=
      List.Perm.append_left _ (List.reverse_perm _)
    exact h1.trans (by simpa using (List.filter_append_perm p l))
  partition_fst p l x hx := by
    simpa using (List.mem_filter.mp hx).2
  partition_snd p l x hx := by
    have hx1 : x ∈ l.filter (fun x => !p x) := List.mem_reverse.mp hx
    simpa using (List.mem_filter.mp hx1).2
  sort := refAlgo.sort
  sort_perm := refAlgo.sort_perm
  sort_sorted := refAlgo.sort_sorted

end Scrub

namespace ScrubQueue

/-- The configuration `example_conf` with `osd_scrub_sleep` at -200 seconds: the penalty
`osd_scrub_sleep * 2 + 300` is then -100 seconds. -/
def example_conf_negative_sleep : ScrubConf :=
  { example_conf with osd_scrub_sleep := -200 }

/-- Jobs 0, 1 and 2 are registered for times 50, 10 and 10; jobs 1 and 2 then fail to
reserve their replicas. -/
def example_two_failed : ScrubQueue :=
  mark_resources_failure
    (mark_resources_failure
      (register_with_osd example_conf 0
        (register_with_osd example_conf 0
          (register_with_osd example_conf 0 example_start 0 (must_at 50)) 1 (must_at 10))
        2 (must_at 10)) 1) 2

end ScrubQueue

/-! ## Job-store writes -/

namespace Scrub

theorem for_each_job_apply (f : ScrubJob → ScrubJob) (hf : ∀ j, f (f j) = f j)
    (group : ScrubQContainer) (h : JobStore) (x : ScrubJobRef) :
    for_each_job f group h x = if x ∈ group then f (h x) else h x := by
  induction group generalizing h with
  | nil => simp [for_each_job]
  | cons r l ih =>
    have step : for_each_job f (r :: l) h = for_each_job f l (h.modify r f) := rfl
    rw [step, ih]
    by_cases hxr : x = r
    · subst hxr
      by_cases hxl : x ∈ l <;> simp [JobStore.modify, hxl, hf]
    · by_cases hxl : x ∈ l <;> simp [JobStore.modify, hxl, hxr]

end Scrub

namespace ScrubQueue

/-! ## `rm_unregistered_jobs` -/

theorem rm_mark_idem (j : ScrubJob) : rm_mark (rm_mark j) = rm_mark j := by
  rcases j with ⟨pg, sc, st, iq, rf, pt, up⟩
  cases st <;> simp [rm_mark]

theorem rm_mark_registered (j : ScrubJob) (hj : j.state = qu_state_t.registered) :
    rm_mark j = j := by
  simp [rm_mark, hj]

theorem rm_mark_state_registered_iff (j : ScrubJob) :
    (rm_mark j).state = qu_state_t.registered ↔ j.state = qu_state_t.registered := by
  rcases j with ⟨pg, sc, st, iq, rf, pt, up⟩
  cases st <;> simp [rm_mark]

theorem rm_mark_state (j : ScrubJob) :
    (rm_mark j).state =
      if j.state = qu_state_t.registered then qu_state_t.registered
      else qu_state_t.not_registered := by
  rcases j with ⟨pg, sc, st, iq, rf, pt, up⟩
  cases st <;> simp [rm_mark]

theorem rm_mark_in_queues (j : ScrubJob) :
    (rm_mark j).in_queues =
      if j.state = qu_state_t.registered then j.in_queues else false := by
  rcases j with ⟨pg, sc, st, iq, rf, pt, up⟩
  cases st <;> simp [rm_mark]

theorem rm_mark_frame (j : ScrubJob) :
    (rm_mark j).pgid = j.pgid ∧ (rm_mark j).schedule = j.schedule ∧
      (rm_mark j).updated = j.updated ∧
      (rm_mark j).resources_failure = j.resources_failure ∧
      (rm_mark j).penalty_timeout = j.penalty_timeout := by
  rcases j with ⟨pg, sc, st, iq, rf, pt, up⟩
  cases st <;> simp [rm_mark]

theorem rm_unregistered_jobs_store (h : JobStore) (group : ScrubQContainer)
    (x : ScrubJobRef) :
    (rm_unregistered_jobs h group).1 x = if x ∈ group then rm_mark (h x) else h x := by
  simp only [rm_unregistered_jobs]
  exact for_each_job_apply rm_mark rm_mark_idem group h x

theorem rm_unregistered_jobs_group (h : JobStore) (group : ScrubQContainer) :
    (rm_unregistered_jobs h group).2 =
      group.filter (fun r => decide ((h r).state = qu_state_t.registered)) := by
  simp only [rm_unregistered_jobs]
  apply List.filter_congr
  intro x hx
  rw [for_each_job_apply rm_mark rm_mark_idem group h x]
  simp only [hx, if_true, invalid_state, rm_mark_state]
  by_cases hreg : (h x).state = qu_state_t.registered <;> simp [hreg]

end ScrubQueue

namespace ScrubQueue

/-! ## `move_failed_pgs` -/

theorem penalize_resources_failure (cf : ScrubConf) (now_is : utime_t) (j : ScrubJob) :
    (penalize cf now_is j).resources_failure = false := rfl

theorem move_failed_loop_cons (cf : ScrubConf) (now_is : utime_t) (r : ScrubJobRef)
    (rest : ScrubQContainer) (h : JobStore) (pen : ScrubQContainer) :
    move_failed_loop cf now_is (r :: rest) h pen =
      if (h r).resources_failure = true then
        move_failed_loop cf now_is rest (h.modify r (penalize cf now_is)) (pen ++ [r])
      else
        (r :: (move_failed_loop cf now_is rest h pen).1,
          (move_failed_loop cf now_is rest h pen).2.1,
          (move_failed_loop cf now_is rest h pen).2.2) := rfl

/-- The job store after the loop: a job is rewritten exactly when it is in the lane
with `resources_failure` set. -/
theorem move_failed_loop_store (cf : ScrubConf) (now_is : utime_t) (l : ScrubQContainer)
    (h : JobStore) (pen : ScrubQContainer) (x : ScrubJobRef) :
    (move_failed_loop cf now_is l h pen).2.1 x =
      if x ∈ l ∧ (h x).resources_failure = true then penalize cf now_is (h x) else h x := by
  induction l generalizing h pen with
  | nil => simp [move_failed_loop]
  | cons r rest ih =>
    by_cases hr : (h r).resources_failure = true
    · rw [move_failed_loop_cons, if_pos hr]
      rw [ih]
      by_cases hxr : x = r
      · subst hxr
        simp [JobStore.modify, hr, penalize_resources_failure]
      · simp [JobStore.modify, hxr]
    · rw [move_failed_loop_cons, if_neg hr]
      rw [ih]
      by_cases hxr : x = r
      · subst hxr
        simp [hr]
      · simp [hxr]

/-- The lanes after the loop: `penalized` grows by the moved jobs, which together with
the jobs that stay are the jobs that were in `to_scrub`; the moved jobs had
`resources_failure` set, and no job without it is moved. -/
theorem move_failed_loop_lanes (cf : ScrubConf) (now_is : utime_t) (l : ScrubQContainer)
    (h : JobStore) (pen : ScrubQContainer) :
    ∃ moved : ScrubQContainer,
      (move_failed_loop cf now_is l h pen).2.2 = pen ++ moved ∧
      ((move_failed_loop cf now_is l h pen).1 ++ moved).Perm l ∧
      (∀ x ∈ moved, (h x).resources_failure = true) ∧
      (∀ x ∈ l, (h x).resources_failure = false →
        x ∈ (move_failed_loop cf now_is l h pen).1) ∧
      (∀ x ∈ l, (h x).resources_failure = true → x ∈ moved) := by
  induction l generalizing h pen with
  | nil => exact ⟨[], by simp [move_failed_loop]⟩
  | cons r rest ih =>
    by_cases hr : (h r).resources_failure = true
    · obtain ⟨m, h1, h2, h3, h4, h5⟩ := ih (h.modify r (penalize cf now_is)) (pen ++ [r])
      have hne : ∀ x, ((h.modify r (penalize cf now_is)) x).resources_failure = true →
          x ≠ r ∧ (h x).resources_failure = true := by
        intro x hx
        by_cases hxr : x = r
        · subst hxr
          simp [JobStore.modify, penalize_resources_failure] at hx
        · refine ⟨hxr, ?_⟩
          simpa [JobStore.modify, hxr] using hx
      refine ⟨r :: m, ?_, ?_, ?_, ?_, ?_⟩
      · rw [move_failed_loop_cons, if_pos hr]
        rw [h1]; simp
      · rw [move_failed_loop_cons, if_pos hr]
        exact List.perm_middle.trans (List.Perm.cons r h2)
      · intro x hx
        rcases List.mem_cons.mp hx with hx1 | hx1
        · subst hx1; exact hr
        · exact (hne x (h3 x hx1)).2
      · intro x hx hxf
        rw [move_failed_loop_cons, if_pos hr]
        rcases List.mem_cons.mp hx with hx1 | hx1
        · subst hx1; rw [hxf] at hr; exact absurd hr (by decide)
        · apply h4 x hx1
          have hxr : x ≠ r := by
            intro e; subst e; rw [hxf] at hr; exact absurd hr (by decide)
          simpa [JobStore.modify, hxr] using hxf
      · intro x hx hxt
        by_cases hxr : x = r
        · exact List.mem_cons.mpr (Or.inl hxr)
        · rcases List.mem_cons.mp hx with hx1 | hx1
          · exact absurd hx1 hxr
          · exact List.mem_cons_of_mem _
              (h5 x hx1 (by simpa [JobStore.modify, hxr] using hxt))
    · obtain ⟨m, h1, h2, h3, h4, h5⟩ := ih h pen
      refine ⟨m, ?_, ?_, h3, ?_, ?_⟩
      · rw [move_failed_loop_cons, if_neg hr]
        exact h1
      · rw [move_failed_loop_cons, if_neg hr]
        exact List.Perm.cons r h2
      · intro x hx hxf
        rw [move_failed_loop_cons, if_neg hr]
        rcases List.mem_cons.mp hx with hx1 | hx1
        · subst hx1; simp
        · exact List.mem_cons_of_mem _ (h4 x hx1 hxf)
      · intro x hx hxt
        rcases List.mem_cons.mp hx with hx1 | hx1
        · subst hx1; exact absurd hxt hr
        · exact h5 x hx1 hxt

end ScrubQueue

namespace ScrubQueue

/-! ## `scan_penalized` -/

theorem scan_penalized_jobs (L : StdAlgorithms) (q : ScrubQueue) (forgive_all : Bool)
    (time_now : utime_t) :
    (scan_penalized L q forgive_all time_now).jobs =
      (rm_unregistered_jobs q.jobs q.penalized).1 := by
  cases forgive_all <;> simp [scan_penalized]

theorem scan_penalized_restore (L : StdAlgorithms) (q : ScrubQueue) (forgive_all : Bool)
    (time_now : utime_t) :
    (scan_penalized L q forgive_all time_now).restore_penalized = q.restore_penalized := by
  cases forgive_all <;> simp [scan_penalized]

/-- The lanes after `scan_penalized`: the forgiven jobs `F` are appended to `to_scrub`;
with the jobs left in `penalized` they are the live jobs that were in `penalized`. -/
theorem scan_penalized_lanes (L : StdAlgorithms) (q : ScrubQueue) (forgive_all : Bool)
    (time_now : utime_t) :
    ∃ F : ScrubQContainer,
      (scan_penalized L q forgive_all time_now).to_scrub = q.to_scrub ++ F ∧
      (F ++ (scan_penalized L q forgive_all time_now).penalized).Perm
        (q.penalized.filter (fun r => decide ((q.jobs r).state = qu_state_t.registered))) ∧
      (forgive_all = false →
        (∀ x ∈ F, (q.jobs x).updated = true ∨ (q.jobs x).penalty_timeout ≤ time_now) ∧
        (∀ x ∈ (scan_penalized L q forgive_all time_now).penalized,
          (q.jobs x).updated = false ∧ time_now < (q.jobs x).penalty_timeout)) ∧
      (forgive_all = true → (scan_penalized L q forgive_all time_now).penalized = []) := by
  have hpred : ∀ x,
      (((rm_unregistered_jobs q.jobs q.penalized).1 x).updated ||
        decide (((rm_unregistered_jobs q.jobs q.penalized).1 x).penalty_timeout ≤ time_now)) =
      ((q.jobs x).updated || decide ((q.jobs x).penalty_timeout ≤ time_now)) := by
    intro x
    rw [rm_unregistered_jobs_store]
    by_cases hx : x ∈ q.penalized
    · simp only [hx, if_true]
      rw [(rm_mark_frame (q.jobs x)).2.2.1, (rm_mark_frame (q.jobs x)).2.2.2.2]
    · simp only [hx, if_false]
  cases forgive_all with
  | true =>
    refine ⟨(rm_unregistered_jobs q.jobs q.penalized).2, ?_, ?_, ?_, ?_⟩
    · simp [scan_penalized]
    · simp only [scan_penalized, if_true, List.append_nil]
      rw [rm_unregistered_jobs_group]
    · intro hc; exact absurd hc (by decide)
    · intro _; simp [scan_penalized]
  | false =>
    refine ⟨(L.partition
      (fun e => ((rm_unregistered_jobs q.jobs q.penalized).1 e).updated ||
        decide (((rm_unregistered_jobs q.jobs q.penalized).1 e).penalty_timeout ≤ time_now))
      (rm_unregistered_jobs q.jobs q.penalized).2).1, ?_, ?_, ?_, ?_⟩
    · simp [scan_penalized]
    · have hp := L.partition_perm
        (fun e => ((rm_unregistered_jobs q.jobs q.penalized).1 e).updated ||
          decide (((rm_unregistered_jobs q.jobs q.penalized).1 e).penalty_timeout ≤ time_now))
        (rm_unregistered_jobs q.jobs q.penalized).2
      rw [rm_unregistered_jobs_group] at hp
      simpa [scan_penalized, rm_unregistered_jobs_group] using hp
    · intro _
      constructor
      · intro x hx
        have h1 := L.partition_fst _ _ x hx
        simp only [] at h1
        rw [hpred x] at h1
        simpa using h1
      · intro x hx
        have hx2 : x ∈ (L.partition
            (fun e => ((rm_unregistered_jobs q.jobs q.penalized).1 e).updated ||
              decide (((rm_unregistered_jobs q.jobs q.penalized).1 e).penalty_timeout
                ≤ time_now))
            (rm_unregistered_jobs q.jobs q.penalized).2).2 := by
          simpa [scan_penalized] using hx
        have h1 := L.partition_snd _ _ x hx2
        simp only [] at h1
        rw [hpred x] at h1
        simpa using h1
    · intro hc; exact absurd hc (by decide)

end ScrubQueue

namespace ScrubQueue

/-! ## `ready_to_scrub`: the sweep under the lock -/

theorem clear_updated_idem (j : ScrubJob) :
    (fun j : ScrubJob => { j with updated := false })
      ((fun j : ScrubJob => { j with updated := false }) j) =
    (fun j : ScrubJob => { j with updated := false }) j := rfl

/-- The job store at the point where ripe jobs are collected (after `scan_penalized`,
the clearing of `updated` and `move_failed_pgs`), job by job. -/
theorem sweep_store (L : StdAlgorithms) (cf : ScrubConf) (q : ScrubQueue)
    (scrub_tick : utime_t) (x : ScrubJobRef) :
    (move_failed_loop cf scrub_tick (scan_penalized L q q.restore_penalized scrub_tick).to_scrub
      (for_each_job (fun j => { j with updated := false })
        (scan_penalized L q q.restore_penalized scrub_tick).to_scrub
        (scan_penalized L q q.restore_penalized scrub_tick).jobs)
      (scan_penalized L q q.restore_penalized scrub_tick).penalized).2.1 x =
    (if x ∈ (scan_penalized L q q.restore_penalized scrub_tick).to_scrub ∧
        (q.jobs x).resources_failure = true then
      penalize cf scrub_tick
        { (if x ∈ q.penalized then rm_mark (q.jobs x) else q.jobs x) with updated := false }
    else if x ∈ (scan_penalized L q q.restore_penalized scrub_tick).to_scrub then
      { (if x ∈ q.penalized then rm_mark (q.jobs x) else q.jobs x) with updated := false }
    else (if x ∈ q.penalized then rm_mark (q.jobs x) else q.jobs x)) := by
  rw [move_failed_loop_store, for_each_job_apply _ clear_updated_idem, scan_penalized_jobs,
    rm_unregistered_jobs_store]
  by_cases hT : x ∈ (scan_penalized L q q.restore_penalized scrub_tick).to_scrub
  · by_cases hP : x ∈ q.penalized
    · by_cases hrf : (q.jobs x).resources_failure = true
      · simp [hT, hP, hrf, (rm_mark_frame (q.jobs x)).2.2.2.1]
      · simp [hT, hP, hrf, (rm_mark_frame (q.jobs x)).2.2.2.1]
    · by_cases hrf : (q.jobs x).resources_failure = true
      · simp [hT, hP, hrf]
      · simp [hT, hP, hrf]
  · simp [hT]

end ScrubQueue

namespace ScrubQueue

/-- What one sweep does to the lanes and to each job: `F` are the penalized jobs that
are forgiven, `R` those that are not, `M` the jobs moved to `penalized` by
`move_failed_pgs` and `T4` the jobs it leaves in `to_scrub`. -/
theorem ready_to_scrub_locked_anatomy (L : StdAlgorithms) (cf : ScrubConf) (q : ScrubQueue)
    (restrictions : OSDRestrictions) (scrub_tick : utime_t) :
    ∃ F R M T4 : ScrubQContainer,
      (F ++ R).Perm
        (q.penalized.filter (fun r => decide ((q.jobs r).state = qu_state_t.registered))) ∧
      (q.restore_penalized = false →
        (∀ x ∈ F, (q.jobs x).updated = true ∨ (q.jobs x).penalty_timeout ≤ scrub_tick) ∧
        (∀ x ∈ R, (q.jobs x).updated = false ∧ scrub_tick < (q.jobs x).penalty_timeout)) ∧
      (q.restore_penalized = true → R = []) ∧
      (T4 ++ M).Perm (q.to_scrub ++ F) ∧
      (∀ x ∈ M, (q.jobs x).resources_failure = true) ∧
      (∀ x ∈ q.to_scrub ++ F, (q.jobs x).resources_failure = false → x ∈ T4) ∧
      (∀ x ∈ q.to_scrub ++ F, (q.jobs x).resources_failure = true → x ∈ M) ∧
      (ready_to_scrub_locked L cf q restrictions scrub_tick).2.2.to_scrub =
        T4.filter (fun r => decide ((q.jobs r).state = qu_state_t.registered)) ∧
      (ready_to_scrub_locked L cf q restrictions scrub_tick).2.2.penalized =
        (R ++ M).filter (fun r => decide ((q.jobs r).state = qu_state_t.registered)) ∧
      (∀ x, (ready_to_scrub_locked L cf q restrictions scrub_tick).2.2.jobs x =
        if x ∈ q.to_scrub ++ q.penalized then
          rm_mark
            (if x ∈ q.to_scrub ++ F ∧ (q.jobs x).resources_failure = true then
              penalize cf scrub_tick (q.jobs x)
            else if x ∈ q.to_scrub ++ F then { q.jobs x with updated := false }
            else q.jobs x)
        else q.jobs x) := by
  obtain ⟨F, hT2, hFR, hpred, hall⟩ :=
    scan_penalized_lanes L q q.restore_penalized scrub_tick
  obtain ⟨M, hP4, hTM, hM, hkeep, hmove⟩ :=
    move_failed_loop_lanes cf scrub_tick
      (scan_penalized L q q.restore_penalized scrub_tick).to_scrub
      (for_each_job (fun j => { j with updated := false })
        (scan_penalized L q q.restore_penalized scrub_tick).to_scrub
        (scan_penalized L q q.restore_penalized scrub_tick).jobs)
      (scan_penalized L q q.restore_penalized scrub_tick).penalized
  have hstore := sweep_store L cf q scrub_tick
  -- `resources_failure` at the start of the loop is the one at the call
  have hrf : ∀ x, ((for_each_job (fun j => { j with updated := false })
        (scan_penalized L q q.restore_penalized scrub_tick).to_scrub
        (scan_penalized L q q.restore_penalized scrub_tick).jobs) x).resources_failure =
      (q.jobs x).resources_failure := by
    intro x
    rw [for_each_job_apply _ clear_updated_idem, scan_penalized_jobs,
      rm_unregistered_jobs_store]
    by_cases h1 : x ∈ (scan_penalized L q q.restore_penalized scrub_tick).to_scrub <;>
      by_cases h2 : x ∈ q.penalized <;>
      simp [h1, h2, (rm_mark_frame (q.jobs x)).2.2.2.1]
  -- the state at the point of collection is registered iff it was at the call
  have hreg : ∀ x, ((move_failed_loop cf scrub_tick
        (scan_penalized L q q.restore_penalized scrub_tick).to_scrub
        (for_each_job (fun j => { j with updated := false })
          (scan_penalized L q q.restore_penalized scrub_tick).to_scrub
          (scan_penalized L q q.restore_penalized scrub_tick).jobs)
        (scan_penalized L q q.restore_penalized scrub_tick).penalized).2.1 x).state =
        qu_state_t.registered ↔ (q.jobs x).state = qu_state_t.registered := by
    intro x
    rw [hstore x]
    by_cases h1 : x ∈ (scan_penalized L q q.restore_penalized scrub_tick).to_scrub <;>
      by_cases h2 : x ∈ q.penalized <;>
      by_cases h3 : (q.jobs x).resources_failure = true <;>
      simp [h1, h2, h3, penalize, rm_mark_state_registered_iff]
  refine ⟨F, (scan_penalized L q q.restore_penalized scrub_tick).penalized, M,
    (move_failed_loop cf scrub_tick
      (scan_penalized L q q.restore_penalized scrub_tick).to_scrub
      (for_each_job (fun j => { j with updated := false })
        (scan_penalized L q q.restore_penalized scrub_tick).to_scrub
        (scan_penalized L q q.restore_penalized scrub_tick).jobs)
      (scan_penalized L q q.restore_penalized scrub_tick).penalized).1,
    hFR, hpred, hall, ?_, ?_, ?_, ?_, ?_, ?_, ?_⟩
  · rw [← hT2]; exact hTM
  · intro x hx
    rw [← hrf x]; exact hM x hx
  · intro x hx hxf
    rw [← hT2] at hx
    exact hkeep x hx (by rw [hrf x]; exact hxf)
  · intro x hx hxt
    rw [← hT2] at hx
    exact hmove x hx (by rw [hrf x]; exact hxt)
  · simp only [ready_to_scrub_locked, collect_ripe_jobs, move_failed_pgs]
    rw [rm_unregistered_jobs_group]
    apply List.filter_congr
    intro x _
    simp only [hreg x]
  · simp only [ready_to_scrub_locked, collect_ripe_jobs, move_failed_pgs]
    rw [rm_unregistered_jobs_group, hP4]
    apply List.filter_congr
    intro x _
    rw [rm_unregistered_jobs_store]
    split
    · simp only [rm_mark_state_registered_iff, hreg x]
    · simp only [hreg x]
  · intro x
    simp only [ready_to_scrub_locked, collect_ripe_jobs, move_failed_pgs]
    rw [rm_unregistered_jobs_store, rm_unregistered_jobs_store, hP4, hstore x]
    have hFRmem : ∀ y, (y ∈ F ∨ y ∈ (scan_penalized L q q.restore_penalized scrub_tick).penalized) ↔
        (y ∈ q.penalized ∧ (q.jobs y).state = qu_state_t.registered) := by
      intro y
      have := hFR.mem_iff (a := y)
      simpa [List.mem_filter] using this
    have hTMmem : ∀ y, (y ∈ (move_failed_loop cf scrub_tick
          (scan_penalized L q q.restore_penalized scrub_tick).to_scrub
          (for_each_job (fun j => { j with updated := false })
            (scan_penalized L q q.restore_penalized scrub_tick).to_scrub
            (scan_penalized L q q.restore_penalized scrub_tick).jobs)
          (scan_penalized L q q.restore_penalized scrub_tick).penalized).1 ∨ y ∈ M) ↔
        (y ∈ q.to_scrub ∨ y ∈ F) := by
      intro y
      have h0 := hTM.mem_iff (a := y)
      rw [List.mem_append] at h0
      rw [h0, hT2, List.mem_append]
    have h1 := hFRmem x
    have h2 := hTMmem x
    generalize (move_failed_loop cf scrub_tick
          (scan_penalized L q q.restore_penalized scrub_tick).to_scrub
          (for_each_job (fun j => { j with updated := false })
            (scan_penalized L q q.restore_penalized scrub_tick).to_scrub
            (scan_penalized L q q.restore_penalized scrub_tick).jobs)
          (scan_penalized L q q.restore_penalized scrub_tick).penalized).1 = T4 at h1 h2 ⊢
    generalize (scan_penalized L q q.restore_penalized scrub_tick).penalized = R at h1 h2 ⊢
    rw [hT2]
    simp only [List.mem_append]
    rcases hj : q.jobs x with ⟨pg, sc, st, iq, rf, pt, up⟩
    rw [hj] at h1
    simp only [] at h1
    by_cases a1 : x ∈ q.to_scrub <;> by_cases a2 : x ∈ q.penalized <;>
      by_cases a3 : x ∈ F <;> by_cases a4 : x ∈ R <;> by_cases a5 : x ∈ M <;>
      by_cases a6 : x ∈ T4 <;> cases st <;> cases rf <;>
      simp [a1, a2, a3, a4, a5, a6, rm_mark, penalize] at h1 h2 ⊢
end ScrubQueue

namespace ScrubQueue

/-- No step of the sweep writes a job's PG id or its schedule. -/
theorem ready_to_scrub_locked_frame (L : StdAlgorithms) (cf : ScrubConf) (q : ScrubQueue)
    (restrictions : OSDRestrictions) (scrub_tick : utime_t) (x : ScrubJobRef) :
    ((ready_to_scrub_locked L cf q restrictions scrub_tick).2.2.jobs x).pgid = (q.jobs x).pgid ∧
    ((ready_to_scrub_locked L cf q restrictions scrub_tick).2.2.jobs x).schedule =
      (q.jobs x).schedule := by
  obtain ⟨F, R, M, T4, -, -, -, -, -, -, -, -, -, hstore⟩ :=
    ready_to_scrub_locked_anatomy L cf q restrictions scrub_tick
  rw [hstore x]
  split
  · rw [(rm_mark_frame _).1, (rm_mark_frame _).2.1]
    split
    · exact ⟨rfl, rfl⟩
    · split <;> exact ⟨rfl, rfl⟩
  · exact ⟨rfl, rfl⟩

theorem filtr_congr (restrictions : OSDRestrictions) (time_now : utime_t) (j1 j2 : ScrubJob)
    (hs : j1.schedule = j2.schedule) :
    filtr restrictions time_now j1 = filtr restrictions time_now j2 := by
  simp [filtr, hs]

theorem cmp_sched_time_t_congr (h1 h2 : JobStore)
    (hs : ∀ x, (h1 x).schedule = (h2 x).schedule) :
    cmp_sched_time_t h1 = cmp_sched_time_t h2 := by
  funext a b
  simp [cmp_sched_time_t, hs]

/-- The sort by `cmp_sched_time_t` leaves a rearrangement in non-decreasing order of
`scheduled_at`. -/
theorem sort_cmp_sched_time (L : StdAlgorithms) (h : JobStore) (l : ScrubQContainer) :
    (L.sort (cmp_sched_time_t h) l).Perm l ∧
      sorted_by_sched h (L.sort (cmp_sched_time_t h) l) := by
  refine ⟨L.sort_perm _ _, ?_⟩
  have hs := L.sort_sorted (cmp_sched_time_t h) l
    (by intro a; simp [cmp_sched_time_t])
    (by
      intro a b c hab hbc
      simp only [cmp_sched_time_t, decide_eq_true_eq] at hab hbc ⊢
      exact lt_trans hab hbc)
    (by
      intro a b c hab hbc
      simp only [cmp_sched_time_t, decide_eq_false_iff_not, not_lt] at hab hbc ⊢
      exact le_trans hbc hab)
  unfold sorted_by_sched
  refine hs.imp ?_
  intro a b hba
  simpa [cmp_sched_time_t, sched_of] using hba

/-- The store from which `collect_ripe_jobs` reads has the schedules of the call. -/
theorem sweep_store_schedule (L : StdAlgorithms) (cf : ScrubConf) (q : ScrubQueue)
    (scrub_tick : utime_t) (x : ScrubJobRef) :
    ((move_failed_loop cf scrub_tick
      (scan_penalized L q q.restore_penalized scrub_tick).to_scrub
      (for_each_job (fun j => { j with updated := false })
        (scan_penalized L q q.restore_penalized scrub_tick).to_scrub
        (scan_penalized L q q.restore_penalized scrub_tick).jobs)
      (scan_penalized L q q.restore_penalized scrub_tick).penalized).2.1 x).schedule =
    (q.jobs x).schedule := by
  rw [sweep_store]
  by_cases h1 : x ∈ (scan_penalized L q q.restore_penalized scrub_tick).to_scrub <;>
    by_cases h2 : x ∈ q.penalized <;>
    by_cases h3 : (q.jobs x).resources_failure = true <;>
    simp [h1, h2, h3, penalize, (rm_mark_frame (q.jobs x)).2.1]

theorem rm_unregistered_jobs_schedule (h : JobStore) (group : ScrubQContainer)
    (x : ScrubJobRef) :
    ((rm_unregistered_jobs h group).1 x).schedule = (h x).schedule := by
  rw [rm_unregistered_jobs_store]
  split
  · exact (rm_mark_frame _).2.1
  · rfl

/-- The two copies made under the lock: each is a rearrangement of the ripe jobs of its
lane (as the lane is left by the call) and is in non-decreasing order of
`scheduled_at`. -/
theorem ready_to_scrub_locked_copies (L : StdAlgorithms) (cf : ScrubConf) (q : ScrubQueue)
    (restrictions : OSDRestrictions) (scrub_tick : utime_t) :
    (ready_to_scrub_locked L cf q restrictions scrub_tick).1.Perm
      ((ready_to_scrub_locked L cf q restrictions scrub_tick).2.2.to_scrub.filter
        (fun r => filtr restrictions scrub_tick (q.jobs r))) ∧
    sorted_by_sched q.jobs (ready_to_scrub_locked L cf q restrictions scrub_tick).1 ∧
    (ready_to_scrub_locked L cf q restrictions scrub_tick).2.1.Perm
      ((ready_to_scrub_locked L cf q restrictions scrub_tick).2.2.penalized.filter
        (fun r => filtr restrictions scrub_tick (q.jobs r))) ∧
    sorted_by_sched q.jobs (ready_to_scrub_locked L cf q restrictions scrub_tick).2.1 := by
  have hs4 := sweep_store_schedule L cf q scrub_tick
  simp only [ready_to_scrub_locked, collect_ripe_jobs, move_failed_pgs]
  generalize (move_failed_loop cf scrub_tick
      (scan_penalized L q q.restore_penalized scrub_tick).to_scrub
      (for_each_job (fun j => { j with updated := false })
        (scan_penalized L q q.restore_penalized scrub_tick).to_scrub
        (scan_penalized L q q.restore_penalized scrub_tick).jobs)
      (scan_penalized L q q.restore_penalized scrub_tick).penalized) = lp at hs4 ⊢
  have hs5 : ∀ x, ((rm_unregistered_jobs lp.2.1 lp.1).1 x).schedule = (q.jobs x).schedule := by
    intro x; rw [rm_unregistered_jobs_schedule, hs4]
  have hs6 : ∀ x, ((rm_unregistered_jobs (rm_unregistered_jobs lp.2.1 lp.1).1 lp.2.2).1
      x).schedule = (q.jobs x).schedule := by
    intro x; rw [rm_unregistered_jobs_schedule, hs5]
  rw [cmp_sched_time_t_congr _ _ hs5, cmp_sched_time_t_congr _ _ hs6]
  have e5 : (fun r => filtr restrictions scrub_tick ((rm_unregistered_jobs lp.2.1 lp.1).1 r)) =
      (fun r => filtr restrictions scrub_tick (q.jobs r)) := by
    funext r; exact filtr_congr _ _ _ _ (hs5 r)
  have e6 : (fun r => filtr restrictions scrub_tick
        ((rm_unregistered_jobs (rm_unregistered_jobs lp.2.1 lp.1).1 lp.2.2).1 r)) =
      (fun r => filtr restrictions scrub_tick (q.jobs r)) := by
    funext r; exact filtr_congr _ _ _ _ (hs6 r)
  rw [e5, e6]
  exact ⟨(sort_cmp_sched_time L _ _).1, (sort_cmp_sched_time L _ _).2,
    (sort_cmp_sched_time L _ _).1, (sort_cmp_sched_time L _ _).2⟩

end ScrubQueue

namespace ScrubQueue

/-! ## `ready_to_scrub`: what is returned -/

/-- C1: every PG id returned by `ready_to_scrub(restrictions, now)` is the pgid of a job
that is in one of the lanes after the call and whose `scheduled_at` is at most `now`. -/
theorem ready_to_scrub_ids_ripe (L : StdAlgorithms) (cf : ScrubConf) (q : ScrubQueue)
    (restrictions : OSDRestrictions) (now : utime_t) (p : ScrubTargetId)
    (hp : p ∈ (ready_to_scrub L cf q restrictions now).1) :
    ∃ r : ScrubJobRef,
      (r ∈ (ready_to_scrub L cf q restrictions now).2.to_scrub ∨
        r ∈ (ready_to_scrub L cf q restrictions now).2.penalized) ∧
      ((ready_to_scrub L cf q restrictions now).2.jobs r).pgid = p ∧
      ((ready_to_scrub L cf q restrictions now).2.jobs r).schedule.scheduled_at ≤ now := by
  obtain ⟨hA, -, hB, -⟩ := ready_to_scrub_locked_copies L cf q restrictions now
  have hfr := ready_to_scrub_locked_frame L cf q restrictions now
  simp only [ready_to_scrub, List.mem_append, List.mem_map] at hp ⊢
  rcases hp with ⟨r, hr, hpg⟩ | ⟨r, hr, hpg⟩
  · have hr2 := (List.mem_filter.mp (hA.mem_iff.mp hr))
    refine ⟨r, Or.inl hr2.1, hpg, ?_⟩
    rw [(hfr r).2]
    have := hr2.2
    simp only [filtr, Bool.and_eq_true, decide_eq_true_eq] at this
    exact this.1
  · have hr2 := (List.mem_filter.mp (hB.mem_iff.mp hr))
    refine ⟨r, Or.inr hr2.1, hpg, ?_⟩
    rw [(hfr r).2]
    have := hr2.2
    simp only [filtr, Bool.and_eq_true, decide_eq_true_eq] at this
    exact this.1

/-- Witness of C1: in `example_queue` at tick 200 PG 1 is returned, and it is the pgid
of a job in a lane scheduled no later than 200. -/
theorem ready_to_scrub_ids_ripe_witness :
    (1 ∈ (ready_to_scrub refAlgo example_conf example_queue {} 200).1) ∧
    ∃ r : ScrubJobRef,
      (r ∈ (ready_to_scrub refAlgo example_conf example_queue {} 200).2.to_scrub ∨
        r ∈ (ready_to_scrub refAlgo example_conf example_queue {} 200).2.penalized) ∧
      ((ready_to_scrub refAlgo example_conf example_queue {} 200).2.jobs r).pgid = 1 ∧
      ((ready_to_scrub refAlgo example_conf example_queue {} 200).2.jobs r).schedule.scheduled_at
        ≤ 200 :=
  ⟨by decide!,
    ready_to_scrub_ids_ripe refAlgo example_conf example_queue {} 200 1 (by decide!)⟩

/-- C2, as stated, fails: in `example_queue` at tick 200 the call returns PG 0 (job 0,
scheduled at 50, from `to_scrub`) before PG 1 (job 1, scheduled at 10, from
`penalized`). -/
theorem ready_to_scrub_whole_not_sorted :
    (ready_to_scrub refAlgo example_conf example_queue {} 200).1 = [0, 1] ∧
    (ready_to_scrub_locked refAlgo example_conf example_queue {} 200).1 ++
      (ready_to_scrub_locked refAlgo example_conf example_queue {} 200).2.1 = [0, 1] ∧
    sched_of (ready_to_scrub refAlgo example_conf example_queue {} 200).2.jobs 0 = 50 ∧
    sched_of (ready_to_scrub refAlgo example_conf example_queue {} 200).2.jobs 1 = 10 ∧
    ¬ sorted_by_sched (ready_to_scrub refAlgo example_conf example_queue {} 200).2.jobs
      ((ready_to_scrub_locked refAlgo example_conf example_queue {} 200).1 ++
        (ready_to_scrub_locked refAlgo example_conf example_queue {} 200).2.1) := by
  refine ⟨by decide!, by decide!, by decide!, by decide!, ?_⟩
  unfold sorted_by_sched sched_of
  decide!

/-- C2, amended: the sequence returned is the `to_scrub` part followed by the
`penalized` part, each in non-decreasing order of `scheduled_at`; the whole sequence is
in non-decreasing order exactly when no job of the `to_scrub` part is scheduled later
than a job of the `penalized` part. -/
theorem ready_to_scrub_sorted_parts (L : StdAlgorithms) (cf : ScrubConf) (q : ScrubQueue)
    (restrictions : OSDRestrictions) (now : utime_t) :
    (ready_to_scrub L cf q restrictions now).1 =
      (ready_to_scrub_locked L cf q restrictions now).1.map
          (fun r => ((ready_to_scrub L cf q restrictions now).2.jobs r).pgid) ++
        (ready_to_scrub_locked L cf q restrictions now).2.1.map
          (fun r => ((ready_to_scrub L cf q restrictions now).2.jobs r).pgid) ∧
    sorted_by_sched (ready_to_scrub L cf q restrictions now).2.jobs
      (ready_to_scrub_locked L cf q restrictions now).1 ∧
    sorted_by_sched (ready_to_scrub L cf q restrictions now).2.jobs
      (ready_to_scrub_locked L cf q restrictions now).2.1 ∧
    (sorted_by_sched (ready_to_scrub L cf q restrictions now).2.jobs
        ((ready_to_scrub_locked L cf q restrictions now).1 ++
          (ready_to_scrub_locked L cf q restrictions now).2.1) ↔
      ∀ a ∈ (ready_to_scrub_locked L cf q restrictions now).1,
        ∀ b ∈ (ready_to_scrub_locked L cf q restrictions now).2.1,
          sched_of (ready_to_scrub L cf q restrictions now).2.jobs a ≤
            sched_of (ready_to_scrub L cf q restrictions now).2.jobs b) := by
  obtain ⟨-, hA, -, hB⟩ := ready_to_scrub_locked_copies L cf q restrictions now
  have hfr := ready_to_scrub_locked_frame L cf q restrictions now
  have hsame : sched_of (ready_to_scrub L cf q restrictions now).2.jobs = sched_of q.jobs := by
    funext x
    simp only [sched_of, ready_to_scrub]
    rw [(hfr x).2]
  unfold sorted_by_sched at hA hB ⊢
  rw [hsame]
  refine ⟨rfl, hA, hB, ?_⟩
  rw [List.pairwise_append]
  constructor
  · intro h; exact h.2.2
  · intro h; exact ⟨hA, hB, h⟩


/-- A sweep keeps the lanes free of repetitions. -/
theorem ready_to_scrub_locked_nodup (L : StdAlgorithms) (cf : ScrubConf) (q : ScrubQueue)
    (restrictions : OSDRestrictions) (now : utime_t)
    (hnd : (q.to_scrub ++ q.penalized).Nodup) :
    ((ready_to_scrub_locked L cf q restrictions now).2.2.to_scrub ++
      (ready_to_scrub_locked L cf q restrictions now).2.2.penalized).Nodup := by
  obtain ⟨F, R, M, T4, hFR, -, -, hTM, -, -, -, hT, hP, -⟩ :=
    ready_to_scrub_locked_anatomy L cf q restrictions now
  rw [hT, hP, ← List.filter_append]
  apply List.Nodup.sublist (List.filter_sublist _)
  have e1 : (T4 ++ (R ++ M)).Perm (q.to_scrub ++ (F ++ R)) := by
    have a1 : (T4 ++ (R ++ M)).Perm ((T4 ++ M) ++ R) := by
      rw [List.append_assoc]
      exact List.Perm.append_left T4 List.perm_append_comm
    have a2 : ((T4 ++ M) ++ R).Perm ((q.to_scrub ++ F) ++ R) := List.Perm.append_right R hTM
    have a3 : (q.to_scrub ++ F) ++ R = q.to_scrub ++ (F ++ R) := List.append_assoc _ _ _
    rw [a3] at a2
    exact a1.trans a2
  rw [e1.nodup_iff]
  have e2 : (q.to_scrub ++ (F ++ R)).Perm
      (q.to_scrub ++
        q.penalized.filter (fun r => decide ((q.jobs r).state = qu_state_t.registered))) :=
    List.Perm.append_left _ hFR
  rw [e2.nodup_iff]
  exact List.Nodup.sublist
    (List.Sublist.append (List.Sublist.refl _) (List.filter_sublist _)) hnd

/-- C3: `ready_to_scrub` returns the PG ids of a sequence `A` followed by those of a
sequence `B`, where `A` holds the ripe jobs of the `to_scrub` lane and `B` the ripe jobs
of the `penalized` lane, each in non-decreasing order of `scheduled_at`. -/
theorem ready_to_scrub_to_scrub_first (L : StdAlgorithms) (cf : ScrubConf) (q : ScrubQueue)
    (restrictions : OSDRestrictions) (now : utime_t) :
    ∃ A B : ScrubQContainer,
      (ready_to_scrub L cf q restrictions now).1 =
        A.map (fun r => ((ready_to_scrub L cf q restrictions now).2.jobs r).pgid) ++
          B.map (fun r => ((ready_to_scrub L cf q restrictions now).2.jobs r).pgid) ∧
      A.Perm ((ready_to_scrub L cf q restrictions now).2.to_scrub.filter
        (fun r => filtr restrictions now ((ready_to_scrub L cf q restrictions now).2.jobs r))) ∧
      A.Pairwise (fun a b =>
        ((ready_to_scrub L cf q restrictions now).2.jobs a).schedule.scheduled_at ≤
          ((ready_to_scrub L cf q restrictions now).2.jobs b).schedule.scheduled_at) ∧
      B.Perm ((ready_to_scrub L cf q restrictions now).2.penalized.filter
        (fun r => filtr restrictions now ((ready_to_scrub L cf q restrictions now).2.jobs r))) ∧
      B.Pairwise (fun a b =>
        ((ready_to_scrub L cf q restrictions now).2.jobs a).schedule.scheduled_at ≤
          ((ready_to_scrub L cf q restrictions now).2.jobs b).schedule.scheduled_at) := by
  obtain ⟨hA, hAs, hB, hBs⟩ := ready_to_scrub_locked_copies L cf q restrictions now
  have hfr := ready_to_scrub_locked_frame L cf q restrictions now
  have hflt : (fun r => filtr restrictions now ((ready_to_scrub L cf q restrictions now).2.jobs r))
      = (fun r => filtr restrictions now (q.jobs r)) := by
    funext r
    exact filtr_congr _ _ _ _ (hfr r).2
  refine ⟨(ready_to_scrub_locked L cf q restrictions now).1,
    (ready_to_scrub_locked L cf q restrictions now).2.1, rfl, ?_, ?_, ?_, ?_⟩
  · rw [hflt]; exact hA
  · refine hAs.imp ?_
    intro a b hab
    simp only [ready_to_scrub]
    rw [(hfr a).2, (hfr b).2]; exact hab
  · rw [hflt]; exact hB
  · refine hBs.imp ?_
    intro a b hab
    simp only [ready_to_scrub]
    rw [(hfr a).2, (hfr b).2]; exact hab

end ScrubQueue

namespace ScrubQueue

/-- What `filtr` tests, spelled out. -/
theorem filtr_eq_true_iff (restrictions : OSDRestrictions) (now : utime_t) (j : ScrubJob) :
    filtr restrictions now j = true ↔
      (j.schedule.scheduled_at ≤ now ∧
        (restrictions.only_deadlined = true →
          j.schedule.deadline ≠ 0 ∧ j.schedule.deadline ≤ now)) := by
  cases hod : restrictions.only_deadlined <;> simp [filtr, hod]

/-- C4: the ids returned by `ready_to_scrub` are, with multiplicity, the pgids of the
jobs that are in one of the two lanes when the call returns and have
`scheduled_at <= now` and, under `only_deadlined`, a non-zero deadline that is `<= now`;
in a queue whose lanes hold no job twice no job is returned twice; and under
`only_deadlined` no returned job has a zero deadline. -/
theorem ready_to_scrub_exactly_ripe (L : StdAlgorithms) (cf : ScrubConf) (q : ScrubQueue)
    (restrictions : OSDRestrictions) (now : utime_t) :
    (ready_to_scrub L cf q restrictions now).1.Perm
      ((((ready_to_scrub L cf q restrictions now).2.to_scrub ++
          (ready_to_scrub L cf q restrictions now).2.penalized).filter
        (fun r => decide
          (((ready_to_scrub L cf q restrictions now).2.jobs r).schedule.scheduled_at ≤ now ∧
            (restrictions.only_deadlined = true →
              ((ready_to_scrub L cf q restrictions now).2.jobs r).schedule.deadline ≠ 0 ∧
              ((ready_to_scrub L cf q restrictions now).2.jobs r).schedule.deadline ≤ now)))).map
        (fun r => ((ready_to_scrub L cf q restrictions now).2.jobs r).pgid)) ∧
    ((q.to_scrub ++ q.penalized).Nodup →
      ((ready_to_scrub_locked L cf q restrictions now).1 ++
        (ready_to_scrub_locked L cf q restrictions now).2.1).Nodup) ∧
    (restrictions.only_deadlined = true →
      ∀ r ∈ (ready_to_scrub_locked L cf q restrictions now).1 ++
          (ready_to_scrub_locked L cf q restrictions now).2.1,
        ((ready_to_scrub L cf q restrictions now).2.jobs r).schedule.deadline ≠ 0) := by
  obtain ⟨hA, -, hB, -⟩ := ready_to_scrub_locked_copies L cf q restrictions now
  have hfr := ready_to_scrub_locked_frame L cf q restrictions now
  have hAB : ((ready_to_scrub_locked L cf q restrictions now).1 ++
      (ready_to_scrub_locked L cf q restrictions now).2.1).Perm
      (((ready_to_scrub_locked L cf q restrictions now).2.2.to_scrub ++
        (ready_to_scrub_locked L cf q restrictions now).2.2.penalized).filter
          (fun r => filtr restrictions now (q.jobs r))) := by
    rw [List.filter_append]
    exact List.Perm.append hA hB
  have hflt : (fun r => decide
      (((ready_to_scrub L cf q restrictions now).2.jobs r).schedule.scheduled_at ≤ now ∧
        (restrictions.only_deadlined = true →
          ((ready_to_scrub L cf q restrictions now).2.jobs r).schedule.deadline ≠ 0 ∧
          ((ready_to_scrub L cf q restrictions now).2.jobs r).schedule.deadline ≤ now))) =
      (fun r => filtr restrictions now (q.jobs r)) := by
    funext r
    simp only [ready_to_scrub]
    rw [Bool.eq_iff_iff, filtr_eq_true_iff, decide_eq_true_eq, (hfr r).2]
  refine ⟨?_, ?_, ?_⟩
  · rw [hflt]
    have e : (ready_to_scrub L cf q restrictions now).1 =
        ((ready_to_scrub_locked L cf q restrictions now).1 ++
          (ready_to_scrub_locked L cf q restrictions now).2.1).map
          (fun r => ((ready_to_scrub L cf q restrictions now).2.jobs r).pgid) := by
      simp [ready_to_scrub]
    rw [e]
    exact List.Perm.map _ hAB
  · intro hnd
    rw [hAB.nodup_iff]
    exact List.Nodup.sublist (List.filter_sublist _)
      (ready_to_scrub_locked_nodup L cf q restrictions now hnd)
  · intro hod r hr
    have h1 := (List.mem_filter.mp (hAB.mem_iff.mp hr)).2
    rw [filtr_eq_true_iff] at h1
    simp only [ready_to_scrub]
    rw [(hfr r).2]
    exact (h1.2 hod).1

/-- C10: after `ready_to_scrub` every job in either lane has `updated` false. -/
theorem ready_to_scrub_clears_updated (L : StdAlgorithms) (cf : ScrubConf) (q : ScrubQueue)
    (restrictions : OSDRestrictions) (now : utime_t) (r : ScrubJobRef)
    (hr : r ∈ (ready_to_scrub L cf q restrictions now).2.to_scrub ∨
      r ∈ (ready_to_scrub L cf q restrictions now).2.penalized) :
    ((ready_to_scrub L cf q restrictions now).2.jobs r).updated = false := by
  obtain ⟨F, R, M, T4, hFR, hpred, hall, hTM, -, -, -, hT, hP, hstore⟩ :=
    ready_to_scrub_locked_anatomy L cf q restrictions now
  simp only [ready_to_scrub] at hr ⊢
  rw [hT, hP] at hr
  have hFP : ∀ y, y ∈ F ∨ y ∈ R → y ∈ q.penalized := by
    intro y hy
    have := hFR.mem_iff (a := y)
    rw [List.mem_append, List.mem_filter] at this
    exact (this.mp hy).1
  have hTMm : ∀ y, y ∈ T4 ∨ y ∈ M → y ∈ q.to_scrub ∨ y ∈ F := by
    intro y hy
    have := hTM.mem_iff (a := y)
    rw [List.mem_append, List.mem_append] at this
    exact this.mp hy
  -- the job is in `to_scrub ++ F` (its flag is cleared there) or in `R`
  have hcase : (r ∈ q.to_scrub ∨ r ∈ F) ∨ r ∈ R := by
    rcases hr with h | h
    · exact Or.inl (hTMm r (Or.inl (List.mem_filter.mp h).1))
    · rcases List.mem_append.mp (List.mem_filter.mp h).1 with h2 | h2
      · exact Or.inr h2
      · exact Or.inl (hTMm r (Or.inr h2))
  have hlane : r ∈ q.to_scrub ++ q.penalized := by
    rw [List.mem_append]
    rcases hcase with (h | h) | h
    · exact Or.inl h
    · exact Or.inr (hFP r (Or.inl h))
    · exact Or.inr (hFP r (Or.inr h))
  rw [hstore r, if_pos hlane, (rm_mark_frame _).2.2.1]
  by_cases hin : r ∈ q.to_scrub ++ F
  · by_cases hrf : (q.jobs r).resources_failure = true
    · simp [hin, hrf, penalize]
    · simp [hin, hrf]
  · have hR : r ∈ R := by
      rcases hcase with h | h
      · exact absurd (List.mem_append.mpr h) hin
      · exact h
    have hrp : q.restore_penalized = false := by
      by_contra hne
      have : q.restore_penalized = true := by simpa using hne
      rw [hall this] at hR
      exact absurd hR (List.not_mem_nil r)
    simp only [hin, false_and, if_false]
    exact ((hpred hrp).2 r hR).1

/-- Witness of C10: job 0 of `example_queue`, re-scheduled by `update_job` (which raises
`updated`), is in `to_scrub` after the sweep at tick 200 and has `updated` false. -/
theorem ready_to_scrub_clears_updated_witness :
    ((update_job example_conf 0 example_queue 0 (must_at 60)).jobs 0).updated = true ∧
    ((ready_to_scrub refAlgo example_conf
      (update_job example_conf 0 example_queue 0 (must_at 60)) {} 200).2.jobs 0).updated
        = false :=
  ⟨by decide!,
    ready_to_scrub_clears_updated refAlgo example_conf
      (update_job example_conf 0 example_queue 0 (must_at 60)) {} 200 0
      (Or.inl (by decide!))⟩

end ScrubQueue

namespace ScrubQueue

/-! ## `ready_to_scrub`: the penalty cycle -/

/-- In a queue whose lanes hold no job twice, the groups a sweep handles (the jobs that
stay in `to_scrub`, the jobs moved to `penalized`, the penalized jobs not forgiven) hold
no job twice either. -/
theorem sweep_groups_nodup (T0 P0 F R M T4 : ScrubQContainer) (p : ScrubJobRef → Bool)
    (hFR : (F ++ R).Perm (P0.filter p)) (hTM : (T4 ++ M).Perm (T0 ++ F))
    (hnd : (T0 ++ P0).Nodup) :
    (T0 ++ (F ++ R)).Nodup ∧ (T4 ++ (M ++ R)).Nodup := by
  have h1 : (T0 ++ (F ++ R)).Nodup := by
    rw [(List.Perm.append_left T0 hFR).nodup_iff]
    exact List.Nodup.sublist
      (List.Sublist.append (List.Sublist.refl _) (List.filter_sublist _)) hnd
  refine ⟨h1, ?_⟩
  have h2 : (T4 ++ (M ++ R)).Perm (T0 ++ (F ++ R)) := by
    have a2 : ((T4 ++ M) ++ R).Perm ((T0 ++ F) ++ R) := List.Perm.append_right R hTM
    have a3 : (T0 ++ F) ++ R = T0 ++ (F ++ R) := List.append_assoc _ _ _
    have a4 : (T4 ++ M) ++ R = T4 ++ (M ++ R) := List.append_assoc _ _ _
    rw [a3, a4] at a2
    exact a2
  rw [h2.nodup_iff]
  exact h1

/-- C8: a registered job that is in `to_scrub` with `resources_failure` set when
`ready_to_scrub(restrictions, now)` is called is, after the call, in `penalized` and not
in `to_scrub`, with `penalty_timeout = now + 2 * osd_scrub_sleep + 300` and with
`resources_failure` and `updated` false.  (The lanes hold no job twice: the queue
invariant.) -/
theorem ready_to_scrub_penalizes_failed (L : StdAlgorithms) (cf : ScrubConf) (q : ScrubQueue)
    (restrictions : OSDRestrictions) (now : utime_t) (J : ScrubJobRef)
    (hJ : J ∈ q.to_scrub)
    (hreg : (q.jobs J).state = qu_state_t.registered)
    (hrf : (q.jobs J).resources_failure = true)
    (hnd : (q.to_scrub ++ q.penalized).Nodup) :
    J ∈ (ready_to_scrub L cf q restrictions now).2.penalized ∧
    J ∉ (ready_to_scrub L cf q restrictions now).2.to_scrub ∧
    ((ready_to_scrub L cf q restrictions now).2.jobs J).penalty_timeout =
      now + 2 * cf.osd_scrub_sleep + 300 ∧
    ((ready_to_scrub L cf q restrictions now).2.jobs J).resources_failure = false ∧
    ((ready_to_scrub L cf q restrictions now).2.jobs J).updated = false := by
  obtain ⟨F, R, M, T4, hFR, -, -, hTM, -, -, hmove, hT, hP, hstore⟩ :=
    ready_to_scrub_locked_anatomy L cf q restrictions now
  obtain ⟨-, hnd2⟩ := sweep_groups_nodup _ _ F R M T4 _ hFR hTM hnd
  have hJ2 : J ∈ q.to_scrub ++ F := List.mem_append.mpr (Or.inl hJ)
  have hJM : J ∈ M := hmove J hJ2 hrf
  have hJT4 : J ∉ T4 := by
    intro hc
    exact (List.nodup_append.mp hnd2).2.2 hc (List.mem_append.mpr (Or.inl hJM))
  have hlane : J ∈ q.to_scrub ++ q.penalized := List.mem_append.mpr (Or.inl hJ)
  have hjob : (ready_to_scrub L cf q restrictions now).2.jobs J =
      penalize cf now (q.jobs J) := by
    simp only [ready_to_scrub]
    rw [hstore J, if_pos hlane, if_pos ⟨hJ2, hrf⟩]
    exact rm_mark_registered _ hreg
  refine ⟨?_, ?_, ?_, ?_, ?_⟩
  · simp only [ready_to_scrub]
    rw [hP, List.mem_filter]
    exact ⟨List.mem_append.mpr (Or.inr hJM), by simpa using hreg⟩
  · simp only [ready_to_scrub]
    rw [hT, List.mem_filter]
    intro hc
    exact hJT4 hc.1
  · rw [hjob]
    simp only [penalize]
    ring
  · rw [hjob]; rfl
  · rw [hjob]; rfl

/-- Witness of C8 (`now = 100`, `osd_scrub_sleep = 5`): job 1 of `example_failed` ends in
`penalized` with `penalty_timeout = 410`. -/
theorem ready_to_scrub_penalizes_failed_witness :
    (1 ∈ example_failed.to_scrub ∧
      (example_failed.jobs 1).state = qu_state_t.registered ∧
      (example_failed.jobs 1).resources_failure = true) ∧
    (1 ∈ (ready_to_scrub refAlgo example_conf example_failed {} 100).2.penalized ∧
      1 ∉ (ready_to_scrub refAlgo example_conf example_failed {} 100).2.to_scrub ∧
      ((ready_to_scrub refAlgo example_conf example_failed {} 100).2.jobs 1).penalty_timeout =
        100 + 2 * example_conf.osd_scrub_sleep + 300 ∧
      ((ready_to_scrub refAlgo example_conf example_failed {} 100).2.jobs 1).resources_failure
        = false ∧
      ((ready_to_scrub refAlgo example_conf example_failed {} 100).2.jobs 1).updated = false) ∧
    ((ready_to_scrub refAlgo example_conf example_failed {} 100).2.jobs 1).penalty_timeout
      = 410 :=
  ⟨by decide!,
    ready_to_scrub_penalizes_failed refAlgo example_conf example_failed {} 100 1
      (by decide!) (by decide!) (by decide!) (by decide!),
    by decide!⟩

/-- C9: for a registered job in `penalized` with `resources_failure` false, a call of
`ready_to_scrub(restrictions, now)` leaves it in `penalized` when `updated` is false
and `penalty_timeout > now`, and moves it to `to_scrub` when `updated` is true or
`penalty_timeout <= now`.  (The lanes hold no job twice and `restore_penalized` is
false, as in every state of the queue.) -/
theorem ready_to_scrub_pardon (L : StdAlgorithms) (cf : ScrubConf) (q : ScrubQueue)
    (restrictions : OSDRestrictions) (now : utime_t) (J : ScrubJobRef)
    (hJ : J ∈ q.penalized)
    (hreg : (q.jobs J).state = qu_state_t.registered)
    (hrf : (q.jobs J).resources_failure = false)
    (hrp : q.restore_penalized = false)
    (hnd : (q.to_scrub ++ q.penalized).Nodup) :
    (((q.jobs J).updated = false ∧ now < (q.jobs J).penalty_timeout) →
      J ∈ (ready_to_scrub L cf q restrictions now).2.penalized ∧
      J ∉ (ready_to_scrub L cf q restrictions now).2.to_scrub) ∧
    (((q.jobs J).updated = true ∨ (q.jobs J).penalty_timeout ≤ now) →
      J ∈ (ready_to_scrub L cf q restrictions now).2.to_scrub ∧
      J ∉ (ready_to_scrub L cf q restrictions now).2.penalized) := by
  obtain ⟨F, R, M, T4, hFR, hpred, -, hTM, hM, hkeep, -, hT, hP, -⟩ :=
    ready_to_scrub_locked_anatomy L cf q restrictions now
  obtain ⟨hnd1, hnd2⟩ := sweep_groups_nodup _ _ F R M T4 _ hFR hTM hnd
  have hregd : decide ((q.jobs J).state = qu_state_t.registered) = true := by simpa using hreg
  have hFRJ : J ∈ F ∨ J ∈ R := by
    have := hFR.mem_iff (a := J)
    rw [List.mem_append, List.mem_filter] at this
    exact this.mpr ⟨hJ, hregd⟩
  have hJM : J ∉ M := by
    intro hc
    have := hM J hc
    rw [hrf] at this
    exact absurd this (by decide)
  simp only [ready_to_scrub]
  rw [hT, hP]
  constructor
  · rintro ⟨hu, hpt⟩
    have hJF : J ∉ F := by
      intro hc
      rcases (hpred hrp).1 J hc with h | h
      · rw [hu] at h; exact absurd h (by decide)
      · exact absurd hpt (not_lt.mpr h)
    have hJR : J ∈ R := by
      rcases hFRJ with h | h
      · exact absurd h hJF
      · exact h
    refine ⟨List.mem_filter.mpr ⟨List.mem_append.mpr (Or.inl hJR), hregd⟩, ?_⟩
    intro hc
    have hJT4 := (List.mem_filter.mp hc).1
    exact (List.nodup_append.mp hnd2).2.2 hJT4 (List.mem_append.mpr (Or.inr hJR))
  · intro hcond
    have hJR : J ∉ R := by
      intro hc
      have h2 := (hpred hrp).2 J hc
      rcases hcond with h | h
      · rw [h2.1] at h; exact absurd h (by decide)
      · exact absurd h2.2 (not_lt.mpr h)
    have hJF : J ∈ F := by
      rcases hFRJ with h | h
      · exact h
      · exact absurd h hJR
    have hJT4 : J ∈ T4 := hkeep J (List.mem_append.mpr (Or.inr hJF)) hrf
    refine ⟨List.mem_filter.mpr ⟨hJT4, hregd⟩, ?_⟩
    intro hc
    rcases List.mem_append.mp (List.mem_filter.mp hc).1 with h | h
    · exact hJR h
    · exact hJM h

/-- Witness of C9, the boundary: job 1 of `example_queue` is penalized until 410; the
sweep at tick 409 leaves it in `penalized`, the sweep at tick 410 moves it to
`to_scrub`. -/
theorem ready_to_scrub_pardon_witness :
    ((example_queue.jobs 1).penalty_timeout = 410 ∧
      (example_queue.jobs 1).updated = false) ∧
    (1 ∈ (ready_to_scrub refAlgo example_conf example_queue {} 409).2.penalized ∧
      1 ∉ (ready_to_scrub refAlgo example_conf example_queue {} 409).2.to_scrub) ∧
    (1 ∈ (ready_to_scrub refAlgo example_conf example_queue {} 410).2.to_scrub ∧
      1 ∉ (ready_to_scrub refAlgo example_conf example_queue {} 410).2.penalized) :=
  ⟨by decide!,
    (ready_to_scrub_pardon refAlgo example_conf example_queue {} 409 1
      (by decide!) (by decide!) (by decide!) (by decide!) (by decide!)).1 (by decide!),
    (ready_to_scrub_pardon refAlgo example_conf example_queue {} 410 1
      (by decide!) (by decide!) (by decide!) (by decide!) (by decide!)).2
      (Or.inr (by decide!))⟩

end ScrubQueue

namespace ScrubQueue

/-! ## The invariant of the queue -/

/-- The state and `in_queues` of each job after a sweep: a job that was in a lane and
not `registered` becomes `not_registered` with `in_queues` false; nothing else
changes. -/
theorem ready_to_scrub_locked_state (L : StdAlgorithms) (cf : ScrubConf) (q : ScrubQueue)
    (restrictions : OSDRestrictions) (now : utime_t) (x : ScrubJobRef) :
    ((ready_to_scrub_locked L cf q restrictions now).2.2.jobs x).state =
      (if x ∈ q.to_scrub ++ q.penalized then
        (if (q.jobs x).state = qu_state_t.registered then qu_state_t.registered
          else qu_state_t.not_registered)
      else (q.jobs x).state) ∧
    ((ready_to_scrub_locked L cf q restrictions now).2.2.jobs x).in_queues =
      (if x ∈ q.to_scrub ++ q.penalized then
        (if (q.jobs x).state = qu_state_t.registered then (q.jobs x).in_queues else false)
      else (q.jobs x).in_queues) := by
  obtain ⟨F, R, M, T4, -, -, -, -, -, -, -, -, -, hstore⟩ :=
    ready_to_scrub_locked_anatomy L cf q restrictions now
  rw [hstore x]
  by_cases hl : x ∈ q.to_scrub ++ q.penalized
  · rw [if_pos hl, if_pos hl, if_pos hl, rm_mark_state, rm_mark_in_queues]
    by_cases h1 : x ∈ q.to_scrub ++ F ∧ (q.jobs x).resources_failure = true
    · rw [if_pos h1]; exact ⟨rfl, rfl⟩
    · rw [if_neg h1]
      by_cases h2 : x ∈ q.to_scrub ++ F
      · rw [if_pos h2]; exact ⟨rfl, rfl⟩
      · rw [if_neg h2]; exact ⟨rfl, rfl⟩
  · rw [if_neg hl, if_neg hl, if_neg hl]; exact ⟨rfl, rfl⟩

/-- The jobs in the lanes after a sweep are the jobs that were in the lanes in state
`registered`. -/
theorem ready_to_scrub_locked_mem (L : StdAlgorithms) (cf : ScrubConf) (q : ScrubQueue)
    (restrictions : OSDRestrictions) (now : utime_t) (x : ScrubJobRef) :
    x ∈ (ready_to_scrub_locked L cf q restrictions now).2.2.to_scrub ++
        (ready_to_scrub_locked L cf q restrictions now).2.2.penalized ↔
      (x ∈ q.to_scrub ++ q.penalized ∧ (q.jobs x).state = qu_state_t.registered) := by
  obtain ⟨F, R, M, T4, hFR, -, -, hTM, -, -, -, hT, hP, -⟩ :=
    ready_to_scrub_locked_anatomy L cf q restrictions now
  have h1 := hFR.mem_iff (a := x)
  have h2 := hTM.mem_iff (a := x)
  rw [hT, hP]
  simp only [List.mem_append, List.mem_filter, decide_eq_true_eq] at h1 h2 ⊢
  constructor
  · rintro (⟨h, hreg⟩ | ⟨h | h, hreg⟩)
    · rcases h2.mp (Or.inl h) with h3 | h3
      · exact ⟨Or.inl h3, hreg⟩
      · exact ⟨Or.inr (h1.mp (Or.inl h3)).1, hreg⟩
    · exact ⟨Or.inr (h1.mp (Or.inr h)).1, hreg⟩
    · rcases h2.mp (Or.inr h) with h3 | h3
      · exact ⟨Or.inl h3, hreg⟩
      · exact ⟨Or.inr (h1.mp (Or.inl h3)).1, hreg⟩
  · rintro ⟨h | h, hreg⟩
    · rcases h2.mpr (Or.inl h) with h3 | h3
      · exact Or.inl ⟨h3, hreg⟩
      · exact Or.inr ⟨Or.inr h3, hreg⟩
    · rcases h1.mpr ⟨h, hreg⟩ with h3 | h3
      · rcases h2.mpr (Or.inr h3) with h4 | h4
        · exact Or.inl ⟨h4, hreg⟩
        · exact Or.inr ⟨Or.inr h4, hreg⟩
      · exact Or.inr ⟨Or.inl h3, hreg⟩

theorem ready_to_scrub_locked_restore (L : StdAlgorithms) (cf : ScrubConf) (q : ScrubQueue)
    (restrictions : OSDRestrictions) (now : utime_t) :
    (ready_to_scrub_locked L cf q restrictions now).2.2.restore_penalized = false := by
  simp [ready_to_scrub_locked, move_failed_pgs]

theorem queue_invariant_initial (q : ScrubQueue) (h : initial q) : queue_invariant q := by
  obtain ⟨hT, hP, hR, hfresh⟩ := h
  refine ⟨by simp [hT, hP], ?_, ?_, hR⟩
  · intro r
    simp [hT, hP, (hfresh r).1]
  · intro r
    simp [(hfresh r).1, (hfresh r).2.1]

theorem queue_invariant_update_job (cf : ScrubConf) (rnd : ℚ) (q : ScrubQueue)
    (j : ScrubJobRef) (suggested : sched_params_t) (h : queue_invariant q) :
    queue_invariant (update_job cf rnd q j suggested) := by
  obtain ⟨h1, h2, h3, h4⟩ := h
  refine ⟨h1, ?_, ?_, h4⟩
  · intro r
    have := h2 r
    by_cases hr : r = j
    · subst hr; simpa [update_job, JobStore.modify, update_schedule] using this
    · simpa [update_job, JobStore.modify, hr] using this
  · intro r
    have := h3 r
    by_cases hr : r = j
    · subst hr; simpa [update_job, JobStore.modify, update_schedule] using this
    · simpa [update_job, JobStore.modify, hr] using this

theorem queue_invariant_mark_resources_failure (q : ScrubQueue) (j : ScrubJobRef)
    (h : queue_invariant q) : queue_invariant (mark_resources_failure q j) := by
  obtain ⟨h1, h2, h3, h4⟩ := h
  refine ⟨h1, ?_, ?_, h4⟩
  · intro r
    have := h2 r
    by_cases hr : r = j
    · subst hr; simpa [mark_resources_failure, JobStore.modify] using this
    · simpa [mark_resources_failure, JobStore.modify, hr] using this
  · intro r
    have := h3 r
    by_cases hr : r = j
    · subst hr; simpa [mark_resources_failure, JobStore.modify] using this
    · simpa [mark_resources_failure, JobStore.modify, hr] using this

theorem queue_invariant_remove (q : ScrubQueue) (j : ScrubJobRef)
    (h : queue_invariant q) : queue_invariant (remove_from_osd_queue q j) := by
  obtain ⟨h1, h2, h3, h4⟩ := h
  unfold remove_from_osd_queue
  by_cases hreg : (q.jobs j).state = qu_state_t.registered
  · rw [if_pos hreg]
    have hjin : j ∈ q.to_scrub ++ q.penalized := by
      by_contra hc
      have := (h2 j).mpr hc
      rw [hreg] at this
      exact absurd this (by decide)
    have hjq : (q.jobs j).in_queues = true := (h3 j).mpr (by rw [hreg]; decide)
    refine ⟨h1, ?_, ?_, h4⟩
    · intro r
      by_cases hr : r = j
      · subst hr
        simp only [JobStore.modify, if_true]
        constructor
        · intro hc; exact absurd hc (by decide)
        · intro hc; exact absurd hjin hc
      · simpa [JobStore.modify, hr] using h2 r
    · intro r
      by_cases hr : r = j
      · subst hr
        simp only [JobStore.modify, if_true]
        constructor
        · intro _; decide
        · intro _; exact hjq
      · simpa [JobStore.modify, hr] using h3 r
  · rw [if_neg hreg]
    exact ⟨h1, h2, h3, h4⟩

end ScrubQueue

namespace ScrubQueue

theorem queue_invariant_register (cf : ScrubConf) (rnd : ℚ) (q : ScrubQueue)
    (j : ScrubJobRef) (suggested : sched_params_t) (h : queue_invariant q) :
    queue_invariant (register_with_osd cf rnd q j suggested) := by
  unfold register_with_osd
  cases hst : (q.jobs j).state with
  | registered => exact queue_invariant_update_job cf rnd q j suggested h
  | not_registered =>
    obtain ⟨h1, h2, h3, h4⟩ := h
    have hjout : j ∉ q.to_scrub ++ q.penalized := (h2 j).mp hst
    simp only []
    refine ⟨?_, ?_, ?_, h4⟩
    · show ((q.to_scrub ++ [j]) ++ q.penalized).Nodup
      have hp : ((q.to_scrub ++ [j]) ++ q.penalized).Perm (j :: (q.to_scrub ++ q.penalized)) := by
        rw [List.append_assoc]
        exact List.perm_middle
      rw [hp.nodup_iff]
      exact List.nodup_cons.mpr ⟨hjout, h1⟩
    · intro r
      show ((update_job cf rnd q j suggested).jobs.modify j _ r).state =
          qu_state_t.not_registered ↔ r ∉ (q.to_scrub ++ [j]) ++ q.penalized
      by_cases hr : r = j
      · subst hr
        simp [JobStore.modify]
      · have := h2 r
        simp only [List.mem_append, not_or] at this
        simp [JobStore.modify, update_job, hr, this]
    · intro r
      show ((update_job cf rnd q j suggested).jobs.modify j _ r).in_queues = true ↔
          ((update_job cf rnd q j suggested).jobs.modify j _ r).state ≠
            qu_state_t.not_registered
      by_cases hr : r = j
      · subst hr
        simp [JobStore.modify]
      · simpa [JobStore.modify, update_job, hr] using h3 r
  | unregistering =>
    obtain ⟨h1, h2, h3, h4⟩ := h
    have hjin : j ∈ q.to_scrub ++ q.penalized := by
      by_contra hc
      have := (h2 j).mpr hc
      rw [hst] at this
      exact absurd this (by decide)
    have hne : ¬ ((update_job cf rnd q j suggested).jobs j).state =
        qu_state_t.not_registered := by
      simp [update_job, JobStore.modify, update_schedule, hst]
    simp only [hne, if_false]
    refine ⟨h1, ?_, ?_, h4⟩
    · intro r
      show ((update_job cf rnd q j suggested).jobs.modify j _ r).state =
          qu_state_t.not_registered ↔ r ∉ q.to_scrub ++ q.penalized
      by_cases hr : r = j
      · subst hr
        simp only [JobStore.modify, if_true]
        constructor
        · intro hc; exact absurd hc (by decide)
        · intro hc; exact absurd hjin hc
      · simpa [JobStore.modify, update_job, hr] using h2 r
    · intro r
      show ((update_job cf rnd q j suggested).jobs.modify j _ r).in_queues = true ↔
          ((update_job cf rnd q j suggested).jobs.modify j _ r).state ≠
            qu_state_t.not_registered
      by_cases hr : r = j
      · subst hr
        simp [JobStore.modify]
      · simpa [JobStore.modify, update_job, hr] using h3 r

theorem queue_invariant_ready (L : StdAlgorithms) (cf : ScrubConf) (q : ScrubQueue)
    (restrictions : OSDRestrictions) (now : utime_t) (h : queue_invariant q) :
    queue_invariant (ready_to_scrub L cf q restrictions now).2 := by
  obtain ⟨h1, h2, h3, h4⟩ := h
  have hmem := ready_to_scrub_locked_mem L cf q restrictions now
  have hst := ready_to_scrub_locked_state L cf q restrictions now
  refine ⟨ready_to_scrub_locked_nodup L cf q restrictions now h1, ?_, ?_,
    ready_to_scrub_locked_restore L cf q restrictions now⟩
  · intro r
    show ((ready_to_scrub_locked L cf q restrictions now).2.2.jobs r).state =
        qu_state_t.not_registered ↔
      r ∉ (ready_to_scrub_locked L cf q restrictions now).2.2.to_scrub ++
        (ready_to_scrub_locked L cf q restrictions now).2.2.penalized
    rw [hmem r, (hst r).1]
    by_cases hl : r ∈ q.to_scrub ++ q.penalized
    · by_cases hreg : (q.jobs r).state = qu_state_t.registered
      · simp [hl, hreg]
      · simp [hl, hreg]
    · have := (h2 r).mpr hl
      simp [hl, this]
  · intro r
    show ((ready_to_scrub_locked L cf q restrictions now).2.2.jobs r).in_queues = true ↔
      ((ready_to_scrub_locked L cf q restrictions now).2.2.jobs r).state ≠
        qu_state_t.not_registered
    rw [(hst r).1, (hst r).2]
    by_cases hl : r ∈ q.to_scrub ++ q.penalized
    · by_cases hreg : (q.jobs r).state = qu_state_t.registered
      · have := h3 r
        rw [hreg] at this
        simp [hl, hreg, this]
      · simp [hl, hreg]
    · simpa [hl] using h3 r

/-- Every reachable state of the queue satisfies the invariant. -/
theorem reachable_invariant (L : StdAlgorithms) (cf : ScrubConf) (q : ScrubQueue)
    (h : Reachable L cf q) : queue_invariant q := by
  induction h with
  | init q hq => exact queue_invariant_initial q hq
  | register q j s r _ ih => exact queue_invariant_register cf r q j s ih
  | remove q j _ ih => exact queue_invariant_remove q j ih
  | update q j s r _ ih => exact queue_invariant_update_job cf r q j s ih
  | ready q restr now _ ih => exact queue_invariant_ready L cf q restr now ih
  | failed q j _ ih => exact queue_invariant_mark_resources_failure q j ih

theorem example_start_initial : initial example_start :=
  ⟨rfl, rfl, rfl, fun _ => ⟨rfl, rfl, rfl, rfl⟩⟩

theorem example_queue_reachable : Reachable refAlgo example_conf example_queue :=
  Reachable.ready _ _ _
    (Reachable.failed _ _
      (Reachable.register _ _ _ _
        (Reachable.register _ _ _ _ (Reachable.init _ example_start_initial))))

theorem example_unregistering_reachable :
    Reachable refAlgo example_conf example_unregistering :=
  Reachable.remove _ _ (Reachable.register _ _ _ _ (Reachable.init _ example_start_initial))

end ScrubQueue

namespace ScrubQueue

/-- C5, as stated, fails: after `register_with_osd` and `remove_from_osd_queue` job 0 is
in state `unregistering`, not `registered`, and is an element of exactly one lane
(`to_scrub`). -/
theorem registered_iff_one_lane_fails :
    Reachable refAlgo example_conf example_unregistering ∧
    (example_unregistering.jobs 0).state = qu_state_t.unregistering ∧
    ¬ ((example_unregistering.jobs 0).state = qu_state_t.registered ↔
      in_exactly_one_lane example_unregistering 0) := by
  refine ⟨example_unregistering_reachable, by decide, ?_⟩
  unfold in_exactly_one_lane
  decide

/-- C5, amended: in every reachable state a job in state `registered` is an element of
exactly one of the two lanes, and a job is an element of exactly one of the two lanes
if and only if its state is `registered` or `unregistering`. -/
theorem reachable_registered_one_lane (L : StdAlgorithms) (cf : ScrubConf) (q : ScrubQueue)
    (h : Reachable L cf q) (r : ScrubJobRef) :
    ((q.jobs r).state = qu_state_t.registered → in_exactly_one_lane q r) ∧
    (in_exactly_one_lane q r ↔
      ((q.jobs r).state = qu_state_t.registered ∨
        (q.jobs r).state = qu_state_t.unregistering)) := by
  obtain ⟨h1, h2, -, -⟩ := reachable_invariant L cf q h
  have hdisj := (List.nodup_append.mp h1).2.2
  have hiff : in_exactly_one_lane q r ↔ (q.jobs r).state ≠ qu_state_t.not_registered := by
    have h2r := h2 r
    unfold in_exactly_one_lane
    constructor
    · rintro (⟨ha, -⟩ | ⟨-, hb⟩) hc
      · exact (h2r.mp hc) (List.mem_append.mpr (Or.inl ha))
      · exact (h2r.mp hc) (List.mem_append.mpr (Or.inr hb))
    · intro hne
      have hin : r ∈ q.to_scrub ++ q.penalized := by
        by_contra hc
        exact hne (h2r.mpr hc)
      rcases List.mem_append.mp hin with ha | hb
      · exact Or.inl ⟨ha, fun hb => hdisj ha hb⟩
      · exact Or.inr ⟨fun ha => hdisj ha hb, hb⟩
  constructor
  · intro hreg
    rw [hiff, hreg]
    decide
  · rw [hiff]
    cases (q.jobs r).state <;> simp

/-- Witness of C5 (amended): job 1 of the reachable `example_queue` is registered and in
exactly one lane. -/
theorem reachable_registered_one_lane_witness :
    (example_queue.jobs 1).state = qu_state_t.registered ∧
    in_exactly_one_lane example_queue 1 :=
  ⟨by decide!,
    (reachable_registered_one_lane refAlgo example_conf example_queue
      example_queue_reachable 1).1 (by decide!)⟩

/-- C6: in every reachable state no job is an element of both `to_scrub` and
`penalized`, and no job occurs twice in a lane. -/
theorem reachable_lanes_disjoint (L : StdAlgorithms) (cf : ScrubConf) (q : ScrubQueue)
    (h : Reachable L cf q) :
    (∀ r, ¬ (r ∈ q.to_scrub ∧ r ∈ q.penalized)) ∧ q.to_scrub.Nodup ∧ q.penalized.Nodup := by
  obtain ⟨h1, -, -, -⟩ := reachable_invariant L cf q h
  obtain ⟨ha, hb, hd⟩ := List.nodup_append.mp h1
  exact ⟨fun r hr => hd hr.1 hr.2, ha, hb⟩

/-- Witness of C6: the reachable `example_queue`, with job 0 in `to_scrub` and job 1 in
`penalized`. -/
theorem reachable_lanes_disjoint_witness :
    (example_queue.to_scrub = [0] ∧ example_queue.penalized = [1]) ∧
    ((∀ r, ¬ (r ∈ example_queue.to_scrub ∧ r ∈ example_queue.penalized)) ∧
      example_queue.to_scrub.Nodup ∧ example_queue.penalized.Nodup) :=
  ⟨by decide!,
    reachable_lanes_disjoint refAlgo example_conf example_queue example_queue_reachable⟩

/-- C7: in every reachable state every job has
`in_queues == (state != not_registered)`. -/
theorem reachable_in_queues (L : StdAlgorithms) (cf : ScrubConf) (q : ScrubQueue)
    (h : Reachable L cf q) (r : ScrubJobRef) :
    (q.jobs r).in_queues = decide ((q.jobs r).state ≠ qu_state_t.not_registered) := by
  obtain ⟨-, -, h3, -⟩ := reachable_invariant L cf q h
  rw [Bool.eq_iff_iff, decide_eq_true_eq]
  exact h3 r

/-- Witness of C7: in the reachable `example_unregistering` job 0 is `unregistering`
with `in_queues` true, and job 1 is `not_registered` with `in_queues` false. -/
theorem reachable_in_queues_witness :
    ((example_unregistering.jobs 0).state = qu_state_t.unregistering ∧
      (example_unregistering.jobs 1).state = qu_state_t.not_registered) ∧
    (example_unregistering.jobs 0).in_queues =
      decide ((example_unregistering.jobs 0).state ≠ qu_state_t.not_registered) ∧
    (example_unregistering.jobs 1).in_queues =
      decide ((example_unregistering.jobs 1).state ≠ qu_state_t.not_registered) :=
  ⟨by decide,
    reachable_in_queues refAlgo example_conf example_unregistering
      example_unregistering_reachable 0,
    reachable_in_queues refAlgo example_conf example_unregistering
      example_unregistering_reachable 1⟩

end ScrubQueue

namespace ScrubQueue

/-! ## `register_with_osd` and `remove_from_osd_queue` -/

/-- C11: for a job in state `not_registered`, `register_with_osd(job, suggested)` appends
the job at the back of `to_scrub`, sets `in_queues` and state `registered`, sets the
schedule to `adjust_target_time(suggested)`, and leaves `penalized`, the other elements
of `to_scrub` with their order, the job's PG id and every other job unchanged. -/
theorem register_with_osd_not_registered (cf : ScrubConf) (r : ℚ) (q : ScrubQueue)
    (j : ScrubJobRef) (suggested : sched_params_t)
    (hst : (q.jobs j).state = qu_state_t.not_registered) :
    (register_with_osd cf r q j suggested).to_scrub = q.to_scrub ++ [j] ∧
    (register_with_osd cf r q j suggested).penalized = q.penalized ∧
    ((register_with_osd cf r q j suggested).jobs j).in_queues = true ∧
    ((register_with_osd cf r q j suggested).jobs j).state = qu_state_t.registered ∧
    ((register_with_osd cf r q j suggested).jobs j).schedule =
      adjust_target_time cf r suggested ∧
    ((register_with_osd cf r q j suggested).jobs j).pgid = (q.jobs j).pgid ∧
    (∀ x, x ≠ j → (register_with_osd cf r q j suggested).jobs x = q.jobs x) := by
  unfold register_with_osd
  rw [hst]
  refine ⟨rfl, rfl, ?_, ?_, ?_, ?_, ?_⟩
  · simp [JobStore.modify]
  · simp [JobStore.modify]
  · simp [JobStore.modify, update_job, update_schedule]
  · simp [JobStore.modify, update_job, update_schedule]
  · intro x hx
    simp [JobStore.modify, update_job, hx]

/-- Witness of C11: job 2 of `example_queue` is not registered; registering it puts it
at the back of `to_scrub`. -/
theorem register_with_osd_not_registered_witness :
    (example_queue.jobs 2).state = qu_state_t.not_registered ∧
    (register_with_osd example_conf 0 example_queue 2 (must_at 70)).to_scrub = [0, 2] ∧
    (register_with_osd example_conf 0 example_queue 2 (must_at 70)).to_scrub =
      example_queue.to_scrub ++ [2] ∧
    ((register_with_osd example_conf 0 example_queue 2 (must_at 70)).jobs 2).state =
      qu_state_t.registered :=
  ⟨by decide!, by decide!,
    (register_with_osd_not_registered example_conf 0 example_queue 2 (must_at 70)
      (by decide!)).1,
    (register_with_osd_not_registered example_conf 0 example_queue 2 (must_at 70)
      (by decide!)).2.2.2.1⟩

/-- C12: for a job in state `registered` or `unregistering`, `register_with_osd(job,
suggested)` leaves both lanes unchanged, sets the schedule to
`adjust_target_time(suggested)` and ends with state `registered`; every other job is
unchanged. -/
theorem register_with_osd_in_lane (cf : ScrubConf) (r : ℚ) (q : ScrubQueue)
    (j : ScrubJobRef) (suggested : sched_params_t)
    (hst : (q.jobs j).state = qu_state_t.registered ∨
      (q.jobs j).state = qu_state_t.unregistering) :
    (register_with_osd cf r q j suggested).to_scrub = q.to_scrub ∧
    (register_with_osd cf r q j suggested).penalized = q.penalized ∧
    ((register_with_osd cf r q j suggested).jobs j).schedule =
      adjust_target_time cf r suggested ∧
    ((register_with_osd cf r q j suggested).jobs j).state = qu_state_t.registered ∧
    (∀ x, x ≠ j → (register_with_osd cf r q j suggested).jobs x = q.jobs x) := by
  unfold register_with_osd
  rcases hst with hst | hst
  · rw [hst]
    refine ⟨rfl, rfl, ?_, ?_, ?_⟩
    · simp [JobStore.modify, update_job, update_schedule]
    · simp [JobStore.modify, update_job, update_schedule, hst]
    · intro x hx
      simp [JobStore.modify, update_job, hx]
  · rw [hst]
    have hne : ¬ ((update_job cf r q j suggested).jobs j).state =
        qu_state_t.not_registered := by
      simp [update_job, JobStore.modify, update_schedule, hst]
    simp only [hne, if_false]
    refine ⟨rfl, rfl, ?_, ?_, ?_⟩
    · simp [JobStore.modify, update_job, update_schedule]
    · simp [JobStore.modify]
    · intro x hx
      simp [JobStore.modify, update_job, hx]

/-- Witness of C12: job 0 of `example_removed` is `unregistering` in `to_scrub`;
registering it again leaves the lanes as they are and the state `registered`. -/
theorem register_with_osd_in_lane_witness :
    ((example_removed.jobs 0).state = qu_state_t.unregistering ∧
      example_removed.to_scrub = [0]) ∧
    (register_with_osd example_conf 0 example_removed 0 (must_at 70)).to_scrub =
      example_removed.to_scrub ∧
    ((register_with_osd example_conf 0 example_removed 0 (must_at 70)).jobs 0).state =
      qu_state_t.registered :=
  ⟨by decide!,
    (register_with_osd_in_lane example_conf 0 example_removed 0 (must_at 70)
      (Or.inr (by decide!))).1,
    (register_with_osd_in_lane example_conf 0 example_removed 0 (must_at 70)
      (Or.inr (by decide!))).2.2.2.1⟩

/-- The state after `register_with_osd` is `registered`, whatever it was. -/
theorem register_with_osd_state (cf : ScrubConf) (r : ℚ) (q : ScrubQueue)
    (j : ScrubJobRef) (suggested : sched_params_t) :
    ((register_with_osd cf r q j suggested).jobs j).state = qu_state_t.registered := by
  unfold register_with_osd
  cases hst : (q.jobs j).state with
  | not_registered => simp [JobStore.modify]
  | registered => simp [JobStore.modify, update_job, update_schedule, hst]
  | unregistering => simp [JobStore.modify]

/-- The schedule after `register_with_osd` is `adjust_target_time(suggested)`. -/
theorem register_with_osd_schedule (cf : ScrubConf) (r : ℚ) (q : ScrubQueue)
    (j : ScrubJobRef) (suggested : sched_params_t) :
    ((register_with_osd cf r q j suggested).jobs j).schedule =
      adjust_target_time cf r suggested := by
  unfold register_with_osd
  cases hst : (q.jobs j).state with
  | not_registered => simp [JobStore.modify, update_job, update_schedule]
  | registered => simp [JobStore.modify, update_job, update_schedule]
  | unregistering => simp [JobStore.modify, update_job, update_schedule]

end ScrubQueue

namespace ScrubQueue

/-- The deadline computed by `adjust_target_time` does not depend on the random draw. -/
theorem adjust_target_time_deadline_draw (cf : ScrubConf) (r1 r2 : ℚ)
    (times : sched_params_t) :
    (adjust_target_time cf r1 times).deadline = (adjust_target_time cf r2 times).deadline := by
  unfold adjust_target_time
  by_cases hm : times.is_must = must_scrub_t.not_mandatory
  · simp only [hm, if_true]
  · simp only [hm, if_false]

/-- For a mandatory request `adjust_target_time` does not depend on the random draw. -/
theorem adjust_target_time_mandatory_draw (cf : ScrubConf) (r1 r2 : ℚ)
    (times : sched_params_t) (hm : times.is_must = must_scrub_t.mandatory) :
    adjust_target_time cf r1 times = adjust_target_time cf r2 times := by
  unfold adjust_target_time
  simp [hm]

/-- C13, as stated, fails: registering job 0 twice with the same periodic request
(`example_periodic`: last scrub 1000, interval 60, ratio 1/2) and random draws 0 and 1
gives `scheduled_at = 1060` after the first call and `1090` after the second. -/
theorem register_with_osd_twice_differs :
    ((register_with_osd example_conf 0 example_start 0 example_periodic).jobs
      0).schedule.scheduled_at = 1060 ∧
    ((register_with_osd example_conf 1
      (register_with_osd example_conf 0 example_start 0 example_periodic) 0
      example_periodic).jobs 0).schedule.scheduled_at = 1090 ∧
    ((register_with_osd example_conf 1
      (register_with_osd example_conf 0 example_start 0 example_periodic) 0
      example_periodic).jobs 0).schedule ≠
    ((register_with_osd example_conf 0 example_start 0 example_periodic).jobs 0).schedule := by
  refine ⟨by decide!, by decide!, by decide!⟩

/-- C13, amended: a second `register_with_osd(job, suggested)` right after a first leaves
the job's state (`registered`) and its deadline as they were after the first call; the
whole schedule is as it was when the request is mandatory or both calls make the same
random draw. -/
theorem register_with_osd_twice (cf : ScrubConf) (r1 r2 : ℚ) (q : ScrubQueue)
    (j : ScrubJobRef) (suggested : sched_params_t) :
    ((register_with_osd cf r2 (register_with_osd cf r1 q j suggested) j suggested).jobs
        j).state =
      ((register_with_osd cf r1 q j suggested).jobs j).state ∧
    ((register_with_osd cf r2 (register_with_osd cf r1 q j suggested) j suggested).jobs
        j).schedule.deadline =
      ((register_with_osd cf r1 q j suggested).jobs j).schedule.deadline ∧
    ((suggested.is_must = must_scrub_t.mandatory ∨ r1 = r2) →
      ((register_with_osd cf r2 (register_with_osd cf r1 q j suggested) j suggested).jobs
          j).schedule =
        ((register_with_osd cf r1 q j suggested).jobs j).schedule) := by
  refine ⟨?_, ?_, ?_⟩
  · rw [register_with_osd_state, register_with_osd_state]
  · rw [register_with_osd_schedule, register_with_osd_schedule]
    exact adjust_target_time_deadline_draw cf r2 r1 suggested
  · intro h
    rw [register_with_osd_schedule, register_with_osd_schedule]
    rcases h with h | h
    · exact adjust_target_time_mandatory_draw cf r2 r1 suggested h
    · rw [h]

/-- C14: `remove_from_osd_queue(job)` takes a job in state `registered` to
`unregistering` and changes nothing when the job is in another state; in every case the
lanes, the job's `in_queues`, schedule and PG id, and every other job are unchanged. -/
theorem remove_from_osd_queue_effect (q : ScrubQueue) (j : ScrubJobRef) :
    ((q.jobs j).state = qu_state_t.registered →
      ((remove_from_osd_queue q j).jobs j).state = qu_state_t.unregistering) ∧
    ((q.jobs j).state ≠ qu_state_t.registered → remove_from_osd_queue q j = q) ∧
    (remove_from_osd_queue q j).to_scrub = q.to_scrub ∧
    (remove_from_osd_queue q j).penalized = q.penalized ∧
    ((remove_from_osd_queue q j).jobs j).in_queues = (q.jobs j).in_queues ∧
    ((remove_from_osd_queue q j).jobs j).schedule = (q.jobs j).schedule ∧
    ((remove_from_osd_queue q j).jobs j).pgid = (q.jobs j).pgid ∧
    (∀ x, x ≠ j → (remove_from_osd_queue q j).jobs x = q.jobs x) := by
  unfold remove_from_osd_queue
  by_cases hreg : (q.jobs j).state = qu_state_t.registered
  · rw [if_pos hreg]
    refine ⟨?_, ?_, rfl, rfl, ?_, ?_, ?_, ?_⟩
    · intro _; simp [JobStore.modify]
    · intro hc; exact absurd hreg hc
    · simp [JobStore.modify]
    · simp [JobStore.modify]
    · simp [JobStore.modify]
    · intro x hx; simp [JobStore.modify, hx]
  · rw [if_neg hreg]
    exact ⟨fun hc => absurd hc hreg, fun _ => rfl, rfl, rfl, rfl, rfl, rfl, fun _ _ => rfl⟩

/-- C15: a job that is in a lane in state `unregistering` or `not_registered` when
`ready_to_scrub` is called is in neither lane after the call, with state
`not_registered` and `in_queues` false; and every job in a lane after the call has
state `registered`. -/
theorem ready_to_scrub_erases_unregistered (L : StdAlgorithms) (cf : ScrubConf)
    (q : ScrubQueue) (restrictions : OSDRestrictions) (now : utime_t) (x : ScrubJobRef)
    (hx : x ∈ q.to_scrub ∨ x ∈ q.penalized)
    (hst : (q.jobs x).state = qu_state_t.unregistering ∨
      (q.jobs x).state = qu_state_t.not_registered) :
    (x ∉ (ready_to_scrub L cf q restrictions now).2.to_scrub ∧
      x ∉ (ready_to_scrub L cf q restrictions now).2.penalized ∧
      ((ready_to_scrub L cf q restrictions now).2.jobs x).state =
        qu_state_t.not_registered ∧
      ((ready_to_scrub L cf q restrictions now).2.jobs x).in_queues = false) ∧
    (∀ y, (y ∈ (ready_to_scrub L cf q restrictions now).2.to_scrub ∨
        y ∈ (ready_to_scrub L cf q restrictions now).2.penalized) →
      ((ready_to_scrub L cf q restrictions now).2.jobs y).state = qu_state_t.registered) := by
  have hmem := ready_to_scrub_locked_mem L cf q restrictions now
  have hstate := ready_to_scrub_locked_state L cf q restrictions now
  have hxl : x ∈ q.to_scrub ++ q.penalized := List.mem_append.mpr hx
  have hnreg : (q.jobs x).state ≠ qu_state_t.registered := by
    rcases hst with h | h <;> rw [h] <;> decide
  have hout : x ∉ (ready_to_scrub_locked L cf q restrictions now).2.2.to_scrub ++
      (ready_to_scrub_locked L cf q restrictions now).2.2.penalized := by
    rw [hmem x]
    exact fun hc => hnreg hc.2
  simp only [ready_to_scrub]
  refine ⟨⟨fun hc => hout (List.mem_append.mpr (Or.inl hc)),
    fun hc => hout (List.mem_append.mpr (Or.inr hc)), ?_, ?_⟩, ?_⟩
  · rw [(hstate x).1, if_pos hxl, if_neg hnreg]
  · rw [(hstate x).2, if_pos hxl, if_neg hnreg]
  · intro y hy
    have hy2 := (hmem y).mp (List.mem_append.mpr hy)
    rw [(hstate y).1, if_pos hy2.1, if_pos hy2.2]

/-- Witness of C15: job 0 of `example_removed` is `unregistering` in `to_scrub`; the
sweep at tick 200 erases it and leaves it `not_registered`. -/
theorem ready_to_scrub_erases_unregistered_witness :
    (0 ∈ example_removed.to_scrub ∧
      (example_removed.jobs 0).state = qu_state_t.unregistering) ∧
    (0 ∉ (ready_to_scrub refAlgo example_conf example_removed {} 200).2.to_scrub ∧
      0 ∉ (ready_to_scrub refAlgo example_conf example_removed {} 200).2.penalized ∧
      ((ready_to_scrub refAlgo example_conf example_removed {} 200).2.jobs 0).state =
        qu_state_t.not_registered ∧
      ((ready_to_scrub refAlgo example_conf example_removed {} 200).2.jobs 0).in_queues =
        false) :=
  ⟨by decide!,
    (ready_to_scrub_erases_unregistered refAlgo example_conf example_removed {} 200 0
      (Or.inl (by decide!)) (Or.inl (by decide!))).1⟩

end ScrubQueue

namespace ScrubQueue

/-! ## `adjust_target_time` and `determine_scrub_time` -/

/-- The schedule `adjust_target_time` computes for a request that is not mandatory, in
terms of the two intervals it selects. -/
theorem adjust_target_time_periodic (cf : ScrubConf) (r : ℚ) (times : sched_params_t)
    (hm : times.is_must = must_scrub_t.not_mandatory) :
    adjust_target_time cf r times =
      ⟨times.proposed_time + scrub_min_interval cf times +
          scrub_min_interval cf times * cf.osd_scrub_interval_randomize_ratio * r,
        if scrub_max_interval cf times ≤ 0 then 0
        else times.proposed_time + scrub_max_interval cf times⟩ := by
  unfold adjust_target_time scrub_min_interval scrub_max_interval
  simp only [hm, if_true]

/-- C16: for a request with `is_must = mandatory`, whatever its intervals, the
configuration and the random draw, `adjust_target_time` returns
`scheduled_at = deadline = proposed_time`; so a request produced by
`determine_scrub_time` for `must_scrub` or `need_auto` is scheduled at the must stamp,
with the must stamp as deadline. -/
theorem adjust_target_time_mandatory (cf : ScrubConf) (r : ℚ) (times : sched_params_t)
    (hm : times.is_must = must_scrub_t.mandatory) :
    ((adjust_target_time cf r times).scheduled_at = times.proposed_time ∧
      (adjust_target_time cf r times).deadline = times.proposed_time) ∧
    (∀ (stamp now : utime_t) (flags : requested_scrub_t) (info : pg_info_t)
        (pool : pool_opts_t),
      (flags.must_scrub = true ∨ flags.need_auto = true) →
      adjust_target_time cf r (determine_scrub_time cf stamp now flags info pool) =
        ⟨stamp, stamp⟩) := by
  constructor
  · unfold adjust_target_time
    simp [hm]
  · intro stamp now flags info pool hf
    have hc : (flags.must_scrub || flags.need_auto) = true := by
      rcases hf with h | h <;> simp [h]
    unfold determine_scrub_time adjust_target_time
    simp [hc]

/-- Witness of C16: the must-scrub request for time 50, with a configuration whose
intervals are 86400 and 604800, is scheduled at 50 with deadline 50. -/
theorem adjust_target_time_mandatory_witness :
    (must_at 50).is_must = must_scrub_t.mandatory ∧
    (adjust_target_time example_conf 1 (must_at 50)).scheduled_at = (must_at 50).proposed_time ∧
    (adjust_target_time example_conf 1 (must_at 50)).deadline = (must_at 50).proposed_time :=
  ⟨rfl, (adjust_target_time_mandatory example_conf 1 (must_at 50) rfl).1⟩

/-- C18, as stated, fails: with the pool-supplied intervals `-60` (non-zero) the
intervals used are the configured 86400 and 604800, not `-60`: the request
`example_negative` (proposed time 1000) is scheduled at 87400 with deadline 605800. -/
theorem adjust_target_time_negative_pool_value :
    (example_negative.is_must = must_scrub_t.not_mandatory ∧
      example_negative.min_interval ≠ 0 ∧ example_negative.max_interval ≠ 0) ∧
    scrub_min_interval example_conf example_negative ≠ example_negative.min_interval ∧
    scrub_max_interval example_conf example_negative ≠ example_negative.max_interval ∧
    (adjust_target_time example_conf 0 example_negative).scheduled_at = 1000 + 86400 ∧
    (adjust_target_time example_conf 0 example_negative).scheduled_at ≠
      example_negative.proposed_time + example_negative.min_interval ∧
    (adjust_target_time example_conf 0 example_negative).deadline = 1000 + 604800 := by
  refine ⟨by decide!, by decide!, by decide!, by decide!, by decide!, by decide!⟩

/-- C18, amended: for a request that is not mandatory the min (resp. max) interval used
is the pool-supplied value when that value is greater than 0 and the configured
`osd_scrub_min_interval` (resp. `osd_scrub_max_interval`) when it is 0 or negative. -/
theorem adjust_target_time_interval_choice (cf : ScrubConf) (r : ℚ) (times : sched_params_t)
    (hm : times.is_must = must_scrub_t.not_mandatory) :
    (0 < times.min_interval →
      (adjust_target_time cf r times).scheduled_at =
        times.proposed_time +
          times.min_interval * (1 + cf.osd_scrub_interval_randomize_ratio * r)) ∧
    (times.min_interval ≤ 0 →
      (adjust_target_time cf r times).scheduled_at =
        times.proposed_time +
          cf.osd_scrub_min_interval * (1 + cf.osd_scrub_interval_randomize_ratio * r)) ∧
    (0 < times.max_interval →
      (adjust_target_time cf r times).deadline = times.proposed_time + times.max_interval) ∧
    (times.max_interval ≤ 0 →
      (adjust_target_time cf r times).deadline =
        if cf.osd_scrub_max_interval ≤ 0 then 0
        else times.proposed_time + cf.osd_scrub_max_interval) := by
  rw [adjust_target_time_periodic cf r times hm]
  refine ⟨?_, ?_, ?_, ?_⟩
  · intro h
    have e : scrub_min_interval cf times = times.min_interval := by
      unfold scrub_min_interval; rw [if_pos h]
    rw [e]
    show times.proposed_time + times.min_interval +
        times.min_interval * cf.osd_scrub_interval_randomize_ratio * r = _
    ring
  · intro h
    have e : scrub_min_interval cf times = cf.osd_scrub_min_interval := by
      unfold scrub_min_interval; rw [if_neg (not_lt.mpr h)]
    rw [e]
    show times.proposed_time + cf.osd_scrub_min_interval +
        cf.osd_scrub_min_interval * cf.osd_scrub_interval_randomize_ratio * r = _
    ring
  · intro h
    have e : scrub_max_interval cf times = times.max_interval := by
      unfold scrub_max_interval; rw [if_pos h]
    rw [e]
    show (if times.max_interval ≤ 0 then 0 else times.proposed_time + times.max_interval) = _
    rw [if_neg (not_le.mpr h)]
  · intro h
    have e : scrub_max_interval cf times = cf.osd_scrub_max_interval := by
      unfold scrub_max_interval; rw [if_neg (not_lt.mpr h)]
    rw [e]

/-- Witness of C18 (amended): the pool value 60 of `example_periodic` is used for the
min interval, its pool value 0 for the max interval is replaced by the configured
604800. -/
theorem adjust_target_time_interval_choice_witness :
    (example_periodic.is_must = must_scrub_t.not_mandatory ∧
      (0 : ℚ) < example_periodic.min_interval ∧ example_periodic.max_interval ≤ 0) ∧
    (adjust_target_time example_conf 1 example_periodic).scheduled_at =
      example_periodic.proposed_time +
        example_periodic.min_interval *
          (1 + example_conf.osd_scrub_interval_randomize_ratio * 1) ∧
    (adjust_target_time example_conf 1 example_periodic).deadline =
      if example_conf.osd_scrub_max_interval ≤ 0 then 0
      else example_periodic.proposed_time + example_conf.osd_scrub_max_interval :=
  ⟨by decide!,
    (adjust_target_time_interval_choice example_conf 1 example_periodic rfl).1 (by decide!),
    (adjust_target_time_interval_choice example_conf 1 example_periodic rfl).2.2.2
      (by decide!)⟩

end ScrubQueue

namespace ScrubQueue

/-- C19: `determine_scrub_time` returns the must stamp with `is_must = mandatory` when
`must_scrub` or `need_auto` is set, whatever the stats validity; otherwise the current
time with `is_must = mandatory` when the stats are invalid and `osd_scrub_invalid_stats`
is set; otherwise `last_scrub_stamp` with `is_must = not_mandatory` and the intervals of
the pool options, 0 for an option the pool does not set. -/
theorem determine_scrub_time_cases (cf : ScrubConf) (stamp now : utime_t)
    (flags : requested_scrub_t) (info : pg_info_t) (pool : pool_opts_t) :
    ((flags.must_scrub = true ∨ flags.need_auto = true) →
      (determine_scrub_time cf stamp now flags info pool).proposed_time = stamp ∧
      (determine_scrub_time cf stamp now flags info pool).is_must = must_scrub_t.mandatory) ∧
    ((flags.must_scrub = false ∧ flags.need_auto = false) →
      (info.stats_invalid = true ∧ cf.osd_scrub_invalid_stats = true) →
      (determine_scrub_time cf stamp now flags info pool).proposed_time = now ∧
      (determine_scrub_time cf stamp now flags info pool).is_must = must_scrub_t.mandatory) ∧
    ((flags.must_scrub = false ∧ flags.need_auto = false) →
      ¬ (info.stats_invalid = true ∧ cf.osd_scrub_invalid_stats = true) →
      (determine_scrub_time cf stamp now flags info pool).proposed_time =
        info.last_scrub_stamp ∧
      (determine_scrub_time cf stamp now flags info pool).is_must =
        must_scrub_t.not_mandatory ∧
      (pool.SCRUB_MIN_INTERVAL = none →
        (determine_scrub_time cf stamp now flags info pool).min_interval = 0) ∧
      (∀ v, pool.SCRUB_MIN_INTERVAL = some v →
        (determine_scrub_time cf stamp now flags info pool).min_interval = v) ∧
      (pool.SCRUB_MAX_INTERVAL = none →
        (determine_scrub_time cf stamp now flags info pool).max_interval = 0) ∧
      (∀ v, pool.SCRUB_MAX_INTERVAL = some v →
        (determine_scrub_time cf stamp now flags info pool).max_interval = v)) := by
  refine ⟨?_, ?_, ?_⟩
  · intro hf
    have hc : (flags.must_scrub || flags.need_auto) = true := by
      rcases hf with h | h <;> simp [h]
    unfold determine_scrub_time
    simp [hc]
  · rintro ⟨h1, h2⟩ ⟨h3, h4⟩
    unfold determine_scrub_time
    simp [h1, h2, h3, h4]
  · rintro ⟨h1, h2⟩ h3
    have hc : (info.stats_invalid && cf.osd_scrub_invalid_stats) = false := by
      cases hi : info.stats_invalid <;> cases hv : cf.osd_scrub_invalid_stats <;>
        simp_all
    unfold determine_scrub_time
    simp only [h1, h2, hc, Bool.or_self, Bool.false_eq_true, if_false]
    refine ⟨trivial, trivial, ?_, ?_, ?_, ?_⟩
    · intro h; simp [h, pool_opts_t.value_or]
    · intro v h; simp [h, pool_opts_t.value_or]
    · intro h; simp [h, pool_opts_t.value_or]
    · intro v h; simp [h, pool_opts_t.value_or]

/-! ## The reserving-now flag -/

/-- C20: `set_reserving_now(pg, now)` returns true exactly when no PG holds the flag;
returning true it records `reserving_pg = pg` and `reserving_since = now`; returning
false (the flag is held by another PG) it changes nothing; called by the PG that holds
the flag it fails the assertion and does not return. -/
theorem set_reserving_now_cases (q : ScrubQueue) (pg : spg_t) (now : utime_t) :
    (q.reserving_pg = none →
      set_reserving_now q pg now =
        some (true, { q with reserving_pg := some pg, reserving_since := now })) ∧
    (∀ holder, q.reserving_pg = some holder → holder ≠ pg →
      set_reserving_now q pg now = some (false, q)) ∧
    (q.reserving_pg = some pg → set_reserving_now q pg now = none) ∧
    (∀ b q', set_reserving_now q pg now = some (b, q') →
      (b = true ↔ q.reserving_pg = none)) := by
  refine ⟨?_, ?_, ?_, ?_⟩
  · intro h
    simp [set_reserving_now, h]
  · intro holder h hne
    have hne2 : ¬ pg = holder := fun e => hne e.symm
    simp [set_reserving_now, h, hne2]
  · intro h
    simp [set_reserving_now, h]
  · intro b q' h
    cases hr : q.reserving_pg with
    | none =>
      simp [set_reserving_now, hr] at h
      simp [h.1]
    | some holder =>
      by_cases hp : pg = holder
      · simp [set_reserving_now, hr, hp] at h
      · simp [set_reserving_now, hr, hp] at h
        simp [h.1]

end ScrubQueue

namespace ScrubQueue

/-- C21: `clear_reserving_now(pg)` empties `reserving_pg` when the holder is `pg`, and
leaves the queue as it is when the flag is not set or is held by another PG; in every
case nothing but `reserving_pg` is written. -/
theorem clear_reserving_now_effect (q : ScrubQueue) (pg : spg_t) :
    (q.reserving_pg = some pg → (clear_reserving_now q pg).reserving_pg = none) ∧
    (q.reserving_pg ≠ some pg → clear_reserving_now q pg = q) ∧
    (clear_reserving_now q pg).reserving_since = q.reserving_since ∧
    (clear_reserving_now q pg).to_scrub = q.to_scrub ∧
    (clear_reserving_now q pg).penalized = q.penalized ∧
    (clear_reserving_now q pg).jobs = q.jobs ∧
    (clear_reserving_now q pg).blocked_scrubs_cnt = q.blocked_scrubs_cnt := by
  unfold clear_reserving_now
  cases hr : q.reserving_pg with
  | none => simp
  | some holder =>
    by_cases hh : holder = pg
    · simp [hh]
    · simp [hh]

/-- C22, as stated, fails: on a queue with the flag unset and `reserving_since = 0`,
`set_reserving_now(7, 10)` followed by `clear_reserving_now(7)` leaves
`reserving_since = 10`. -/
theorem set_then_clear_keeps_since :
    example_start.reserving_pg ≠ some 7 ∧
    example_start.reserving_since = 0 ∧
    (set_then_clear_reserving example_start 7 10).map (fun q => q.reserving_since) =
      some 10 ∧
    (set_then_clear_reserving example_start 7 10).map (fun q => q.reserving_since) ≠
      some example_start.reserving_since := by
  refine ⟨by decide!, by decide!, by decide!, by decide!⟩

/-- C22, amended: when PG `p` does not hold the flag, `set_reserving_now(p, t)` followed by
`clear_reserving_now(p)` returns, and `reserving_pg`, both lanes, the jobs and the
blocked counter are as before the two calls; `reserving_since` is as before when the
flag was held (by another PG) and is `t` when the flag was not set. -/
theorem set_then_clear_restores (q : ScrubQueue) (p : spg_t) (t : utime_t)
    (hp : q.reserving_pg ≠ some p) :
    ∃ q', set_then_clear_reserving q p t = some q' ∧
      q'.reserving_pg = q.reserving_pg ∧
      q'.to_scrub = q.to_scrub ∧ q'.penalized = q.penalized ∧ q'.jobs = q.jobs ∧
      q'.restore_penalized = q.restore_penalized ∧
      q'.blocked_scrubs_cnt = q.blocked_scrubs_cnt ∧
      (q.reserving_pg ≠ none → q' = q) ∧
      (q.reserving_pg = none → q'.reserving_since = t) := by
  cases hr : q.reserving_pg with
  | none =>
    refine ⟨{ q with reserving_pg := none, reserving_since := t }, ?_, ?_⟩
    · simp [set_then_clear_reserving, set_reserving_now, clear_reserving_now, hr]
    · simp [hr]
  | some holder =>
    have hne : ¬ p = holder := by
      intro e; apply hp; rw [hr, e]
    have hne2 : ¬ holder = p := fun e => hne e.symm
    refine ⟨q, ?_, ?_⟩
    · simp [set_then_clear_reserving, set_reserving_now, clear_reserving_now, hr, hne, hne2]
    · simp [hr]

/-- Witness of C22 (amended): on `example_reserving` (flag held by PG 7 since 10) the two
calls by PG 8 leave the queue as it was. -/
theorem set_then_clear_restores_witness :
    example_reserving.reserving_pg ≠ some 8 ∧
    ∃ q', set_then_clear_reserving example_reserving 8 20 = some q' ∧
      q'.reserving_pg = example_reserving.reserving_pg ∧
      q'.to_scrub = example_reserving.to_scrub ∧
      q'.penalized = example_reserving.penalized ∧
      q'.jobs = example_reserving.jobs ∧
      q'.restore_penalized = example_reserving.restore_penalized ∧
      q'.blocked_scrubs_cnt = example_reserving.blocked_scrubs_cnt ∧
      (example_reserving.reserving_pg ≠ none → q' = example_reserving) ∧
      (example_reserving.reserving_pg = none → q'.reserving_since = 20) :=
  ⟨by decide, set_then_clear_restores example_reserving 8 20 (by decide)⟩

end ScrubQueue

namespace ScrubQueue

theorem run_reserving_calls_cons (q : ScrubQueue) (c : reserving_call)
    (rest : List reserving_call) :
    run_reserving_calls q (c :: rest) =
      match apply_reserving_call q c with
      | some q1 => run_reserving_calls q1 rest
      | none => none := rfl

/-- One call of `set_reserving_now`, by cases on what it returns. -/
theorem set_reserving_now_some (q : ScrubQueue) (pg : spg_t) (now : utime_t) (b : Bool)
    (q1 : ScrubQueue) (h : set_reserving_now q pg now = some (b, q1)) :
    (b = true ∧ q.reserving_pg = none ∧ q1.reserving_pg = some pg) ∨
    (b = false ∧ q1 = q ∧ ∃ holder, q.reserving_pg = some holder ∧ holder ≠ pg) := by
  cases hr : q.reserving_pg with
  | none =>
    simp [set_reserving_now, hr] at h
    left
    refine ⟨h.1, ?_⟩
    rw [← h.2]
    exact ⟨rfl, rfl⟩
  | some holder =>
    by_cases hp : pg = holder
    · simp [set_reserving_now, hr, hp] at h
    · simp [set_reserving_now, hr, hp] at h
      right
      exact ⟨h.1, h.2.symm, holder, rfl, fun e => hp e.symm⟩

/-- One call of `clear_reserving_now`: who holds the flag afterwards. -/
theorem clear_reserving_now_holder (q : ScrubQueue) (pg p : spg_t) :
    (clear_reserving_now q pg).reserving_pg = some p ↔
      (q.reserving_pg = some p ∧ pg ≠ p) := by
  unfold clear_reserving_now
  split
  · rename_i holder hr
    by_cases hh : holder = pg
    · subst hh
      rw [if_pos rfl, hr]
      constructor
      · intro h; exact absurd h (by simp)
      · rintro ⟨h1, h2⟩
        exact absurd (Option.some.inj h1) h2
    · rw [if_neg hh, hr]
      constructor
      · intro h
        refine ⟨h, ?_⟩
        intro e
        apply hh
        rw [e]
        exact (Option.some.inj h)
      · intro h; exact h.1
  · rename_i hr
    rw [hr]
    constructor
    · intro h; exact absurd h (by simp)
    · intro h; exact absurd h.1 (by simp)

/-- Who holds the flag after a sequence of calls: PG `p` holds it exactly when it held it
at the start and no `clear_reserving_now(p)` was made, or when some
`set_reserving_now(p, _)` of the sequence returned true and no `clear_reserving_now(p)`
came after it. -/
theorem run_reserving_calls_holder (calls : List reserving_call) (q q' : ScrubQueue)
    (hrun : run_reserving_calls q calls = some q') (p : spg_t) :
    q'.reserving_pg = some p ↔
      ((q.reserving_pg = some p ∧ reserving_call.clear p ∉ calls) ∨
        (∃ t pre post q1 q2, calls = pre ++ reserving_call.set p t :: post ∧
          run_reserving_calls q pre = some q1 ∧
          set_reserving_now q1 p t = some (true, q2) ∧
          reserving_call.clear p ∉ post)) := by
  induction calls generalizing q with
  | nil =>
    simp only [run_reserving_calls, Option.some.injEq] at hrun
    subst hrun
    constructor
    · intro h; exact Or.inl ⟨h, List.not_mem_nil _⟩
    · rintro (⟨h, -⟩ | ⟨t, pre, post, q1, q2, hc, -⟩)
      · exact h
      · exact absurd hc (by simp)
  | cons c rest ih =>
    rw [run_reserving_calls_cons] at hrun
    cases hap : apply_reserving_call q c with
    | none => rw [hap] at hrun; exact absurd hrun (by simp)
    | some qm =>
      rw [hap] at hrun
      simp only [] at hrun
      rw [ih qm hrun]
      constructor
      · rintro (⟨hh, hnc⟩ | ⟨t, pre, post, q1, q2, hc, hr1, hs, hnc⟩)
        · -- the holder after the first call is `p`
          cases c with
          | set pg now =>
            simp only [apply_reserving_call] at hap
            cases hset : set_reserving_now q pg now with
            | none => rw [hset] at hap; exact absurd hap (by simp)
            | some res =>
              rw [hset] at hap
              simp only [Option.some.injEq] at hap
              obtain ⟨b, qx⟩ := res
              simp only [] at hap
              subst hap
              rcases set_reserving_now_some q pg now b qx hset with
                ⟨hb, hq, hq1⟩ | ⟨hb, hq1, holder, hq, hne⟩
              · right
                have hpp : pg = p := by
                  rw [hq1] at hh; exact Option.some.inj hh
                subst hpp
                subst hb
                exact ⟨now, [], rest, q, qx, rfl, rfl, hset, hnc⟩
              · left
                subst hq1
                refine ⟨hh, ?_⟩
                intro hmem
                rcases List.mem_cons.mp hmem with h1 | h1
                · exact absurd h1 (by simp)
                · exact hnc h1
          | clear pg =>
            simp only [apply_reserving_call, Option.some.injEq] at hap
            subst hap
            have := (clear_reserving_now_holder q pg p).mp hh
            left
            refine ⟨this.1, ?_⟩
            intro hmem
            rcases List.mem_cons.mp hmem with h1 | h1
            · injection h1 with h2
              exact this.2 h2.symm
            · exact hnc h1
        · right
          refine ⟨t, c :: pre, post, q1, q2, by rw [hc]; rfl, ?_, hs, hnc⟩
          rw [run_reserving_calls_cons, hap]
          exact hr1
      · rintro (⟨hh, hnc⟩ | ⟨t, pre, post, q1, q2, hc, hr1, hs, hnc⟩)
        · left
          have hnc2 : reserving_call.clear p ∉ rest :=
            fun hmem => hnc (List.mem_cons_of_mem _ hmem)
          refine ⟨?_, hnc2⟩
          cases c with
          | set pg now =>
            simp only [apply_reserving_call] at hap
            cases hset : set_reserving_now q pg now with
            | none => rw [hset] at hap; exact absurd hap (by simp)
            | some res =>
              rw [hset] at hap
              simp only [Option.some.injEq] at hap
              obtain ⟨b, qx⟩ := res
              simp only [] at hap
              subst hap
              rcases set_reserving_now_some q pg now b qx hset with
                ⟨hb, hq, hq1⟩ | ⟨hb, hq1, holder, hq, hne⟩
              · rw [hq] at hh; exact absurd hh (by simp)
              · subst hq1; exact hh
          | clear pg =>
            simp only [apply_reserving_call, Option.some.injEq] at hap
            subst hap
            rw [clear_reserving_now_holder]
            refine ⟨hh, ?_⟩
            intro e
            subst e
            exact hnc (List.mem_cons_self _ _)
        · cases pre with
          | nil =>
            simp only [List.nil_append, List.cons.injEq] at hc
            obtain ⟨hc1, hc2⟩ := hc
            subst hc1
            subst hc2
            simp only [run_reserving_calls, Option.some.injEq] at hr1
            subst hr1
            simp only [apply_reserving_call, hs, Option.some.injEq] at hap
            subst hap
            left
            rcases set_reserving_now_some q p t true q2 hs with
              ⟨-, -, hq1⟩ | ⟨hb, -⟩
            · exact ⟨hq1, hnc⟩
            · exact absurd hb (by simp)
          | cons c0 pre0 =>
            simp only [List.cons_append, List.cons.injEq] at hc
            obtain ⟨hc1, hc2⟩ := hc
            subst hc1
            right
            rw [run_reserving_calls_cons, hap] at hr1
            exact ⟨t, pre0, post, q1, q2, hc2, hr1, hs, hnc⟩

end ScrubQueue

namespace ScrubQueue

theorem run_reserving_calls_append (pre post : List reserving_call) (q : ScrubQueue) :
    run_reserving_calls q (pre ++ post) =
      match run_reserving_calls q pre with
      | some q1 => run_reserving_calls q1 post
      | none => none := by
  induction pre generalizing q with
  | nil => rfl
  | cons c rest ih =>
    rw [List.cons_append, run_reserving_calls_cons, run_reserving_calls_cons]
    cases apply_reserving_call q c with
    | none => rfl
    | some q1 => exact ih q1

/-- C23: after a sequence of `set_reserving_now` and `clear_reserving_now` calls that
starts with the flag unset and in which no call fails the assertion,
`is_reserving_now()` is true exactly when some `set_reserving_now(p, _)` of the sequence
returned true and no `clear_reserving_now(p)` came after it; and at every point of the
sequence at most one PG holds the flag. -/
theorem reserving_flag_history (q0 : ScrubQueue) (h0 : q0.reserving_pg = none)
    (calls : List reserving_call) (q' : ScrubQueue)
    (hrun : run_reserving_calls q0 calls = some q') :
    (is_reserving_now q' = true ↔
      ∃ p t pre post q1 q2, calls = pre ++ reserving_call.set p t :: post ∧
        run_reserving_calls q0 pre = some q1 ∧
        set_reserving_now q1 p t = some (true, q2) ∧
        reserving_call.clear p ∉ post) ∧
    (∀ pre, pre <+: calls →
      ∃ q1, run_reserving_calls q0 pre = some q1 ∧
        ∀ p1 p2, q1.reserving_pg = some p1 → q1.reserving_pg = some p2 → p1 = p2) := by
  have hh := run_reserving_calls_holder calls q0 q' hrun
  constructor
  · constructor
    · intro hres
      unfold is_reserving_now at hres
      obtain ⟨p, hp⟩ := Option.isSome_iff_exists.mp hres
      rcases (hh p).mp hp with ⟨hc, -⟩ | ⟨t, pre, post, q1, q2, h1, h2, h3, h4⟩
      · rw [h0] at hc; exact absurd hc (by simp)
      · exact ⟨p, t, pre, post, q1, q2, h1, h2, h3, h4⟩
    · rintro ⟨p, t, pre, post, q1, q2, h1, h2, h3, h4⟩
      have := (hh p).mpr (Or.inr ⟨t, pre, post, q1, q2, h1, h2, h3, h4⟩)
      unfold is_reserving_now
      rw [this]
      rfl
  · rintro pre ⟨post, hpost⟩
    rw [← hpost, run_reserving_calls_append] at hrun
    cases hpre : run_reserving_calls q0 pre with
    | none => rw [hpre] at hrun; exact absurd hrun (by simp)
    | some q1 =>
      refine ⟨q1, rfl, ?_⟩
      intro p1 p2 e1 e2
      rw [e1] at e2
      exact Option.some.inj e2

/-- Witness of C23: after `example_reserving_calls` the flag is held (by PG 8, whose
last `set_reserving_now` returned true and was not followed by a clear). -/
theorem reserving_flag_history_witness :
    example_start.reserving_pg = none ∧
    run_reserving_calls example_start example_reserving_calls =
      some { example_start with reserving_pg := some 8, reserving_since := 30 } ∧
    (is_reserving_now { example_start with reserving_pg := some 8, reserving_since := 30 } =
        true ↔
      ∃ p t pre post q1 q2, example_reserving_calls = pre ++ reserving_call.set p t :: post ∧
        run_reserving_calls example_start pre = some q1 ∧
        set_reserving_now q1 p t = some (true, q2) ∧
        reserving_call.clear p ∉ post) :=
  ⟨rfl, rfl,
    (reserving_flag_history example_start rfl example_reserving_calls
      { example_start with reserving_pg := some 8, reserving_since := 30 } rfl).1⟩

end ScrubQueue

namespace ScrubQueue

/-! ## The blocked-scrubs counter -/

theorem int_fast16_wrap_of_range (x : Int) (h1 : -32768 ≤ x) (h2 : x < 32768) :
    int_fast16_wrap x = x := by
  unfold int_fast16_wrap
  omega

theorem run_blocked_calls_cons (q : ScrubQueue) (c : blocked_call)
    (rest : List blocked_call) :
    run_blocked_calls q (c :: rest) =
      match apply_blocked_call q c with
      | some q1 => run_blocked_calls q1 rest
      | none => none := rfl

/-- A sequence of calls that keeps the running count between 0 and 32767 runs through
without a failed assertion, and the counter ends at the start value plus the marks
minus the clears. -/
theorem run_blocked_calls_count (calls : List blocked_call) (q : ScrubQueue)
    (h : ∀ pre, pre <+: calls →
      0 ≤ q.blocked_scrubs_cnt + count_marks pre - count_clears pre ∧
      q.blocked_scrubs_cnt + count_marks pre - count_clears pre < 32768) :
    ∃ q1, run_blocked_calls q calls = some q1 ∧
      q1.blocked_scrubs_cnt = q.blocked_scrubs_cnt + count_marks calls - count_clears calls := by
  induction calls generalizing q with
  | nil => exact ⟨q, rfl, by simp [count_marks, count_clears]⟩
  | cons c rest ih =>
    have h0 := h [] (List.nil_prefix)
    have h1 := h [c] (by simp)
    simp only [count_marks, count_clears, Nat.cast_zero, add_zero, sub_zero] at h0
    cases c with
    | mark pg =>
      simp only [count_marks, count_clears, Nat.cast_add, Nat.cast_one, Nat.cast_zero,
        zero_add, sub_zero] at h1
      have hw : int_fast16_wrap (q.blocked_scrubs_cnt + 1) = q.blocked_scrubs_cnt + 1 :=
        int_fast16_wrap_of_range _ (by omega) (by omega)
      have hrest : ∀ pre, pre <+: rest →
          0 ≤ (mark_pg_scrub_blocked q pg).blocked_scrubs_cnt + count_marks pre -
            count_clears pre ∧
          (mark_pg_scrub_blocked q pg).blocked_scrubs_cnt + count_marks pre -
            count_clears pre < 32768 := by
        intro pre hpre
        have := h (blocked_call.mark pg :: pre) ((List.prefix_cons_inj _).mpr hpre)
        simp only [count_marks, count_clears, Nat.cast_add, Nat.cast_one] at this
        simp only [mark_pg_scrub_blocked, hw]
        omega
      obtain ⟨q1, hq1, hc⟩ := ih (mark_pg_scrub_blocked q pg) hrest
      refine ⟨q1, ?_, ?_⟩
      · rw [run_blocked_calls_cons]
        exact hq1
      · rw [hc]
        simp only [mark_pg_scrub_blocked, hw, count_marks, count_clears, Nat.cast_add,
          Nat.cast_one]
        omega
    | clear pg =>
      simp only [count_marks, count_clears, Nat.cast_add, Nat.cast_one, Nat.cast_zero,
        zero_add, add_zero] at h1
      have hw : int_fast16_wrap (q.blocked_scrubs_cnt - 1) = q.blocked_scrubs_cnt - 1 :=
        int_fast16_wrap_of_range _ (by omega) (by omega)
      have hap : clear_pg_scrub_blocked q pg =
          some { q with blocked_scrubs_cnt := q.blocked_scrubs_cnt - 1 } := by
        unfold clear_pg_scrub_blocked
        rw [hw, if_pos (by omega)]
      have hrest : ∀ pre, pre <+: rest →
          0 ≤ ({ q with blocked_scrubs_cnt := q.blocked_scrubs_cnt - 1 } :
              ScrubQueue).blocked_scrubs_cnt + count_marks pre - count_clears pre ∧
          ({ q with blocked_scrubs_cnt := q.blocked_scrubs_cnt - 1 } :
              ScrubQueue).blocked_scrubs_cnt + count_marks pre - count_clears pre < 32768 := by
        intro pre hpre
        have := h (blocked_call.clear pg :: pre) ((List.prefix_cons_inj _).mpr hpre)
        simp only [count_marks, count_clears, Nat.cast_add, Nat.cast_one] at this
        simp only []
        omega
      obtain ⟨q1, hq1, hc⟩ := ih _ hrest
      refine ⟨q1, ?_, ?_⟩
      · rw [run_blocked_calls_cons]
        simp only [apply_blocked_call, hap]
        exact hq1
      · rw [hc]
        simp only [count_marks, count_clears, Nat.cast_add, Nat.cast_one]
        omega

/-- C24: for a sequence of `mark_pg_scrub_blocked` and `clear_pg_scrub_blocked` calls on
a counter that starts at 0, in which no prefix has more clears than marks and the
count stays below 32768, after every prefix the calls have returned without a failed
assertion and `get_blocked_pgs_count()` is the number of marks minus the number of
clears, not negative; a `clear_pg_scrub_blocked` on a count of 0 fails the assertion. -/
theorem blocked_count_history (q0 : ScrubQueue) (h0 : q0.blocked_scrubs_cnt = 0)
    (calls : List blocked_call)
    (hbal : ∀ pre, pre <+: calls →
      count_clears pre ≤ count_marks pre ∧
      (count_marks pre : Int) - count_clears pre < 32768) :
    (∀ pre, pre <+: calls →
      ∃ q1, run_blocked_calls q0 pre = some q1 ∧
        get_blocked_pgs_count q1 = (count_marks pre : Int) - count_clears pre ∧
        0 ≤ get_blocked_pgs_count q1) ∧
    (∀ (q : ScrubQueue) (pg : spg_t), q.blocked_scrubs_cnt = 0 →
      clear_pg_scrub_blocked q pg = none) := by
  constructor
  · intro pre hpre
    have hq : ∀ pre2, pre2 <+: pre →
        0 ≤ q0.blocked_scrubs_cnt + count_marks pre2 - count_clears pre2 ∧
        q0.blocked_scrubs_cnt + count_marks pre2 - count_clears pre2 < 32768 := by
      intro pre2 hpre2
      have := hbal pre2 (hpre2.trans hpre)
      rw [h0]
      omega
    obtain ⟨q1, hq1, hc⟩ := run_blocked_calls_count pre q0 hq
    refine ⟨q1, hq1, ?_, ?_⟩
    · unfold get_blocked_pgs_count
      rw [hc, h0]; omega
    · unfold get_blocked_pgs_count
      have := hbal pre hpre
      rw [hc, h0]; omega
  · intro q pg hq
    have hneg : ¬ (0 ≤ int_fast16_wrap (q.blocked_scrubs_cnt - 1)) := by
      rw [hq]; decide
    unfold clear_pg_scrub_blocked
    rw [if_neg hneg]

/-- Witness of C24: two marks and a clear leave the count at 1. -/
theorem blocked_count_history_witness :
    example_start.blocked_scrubs_cnt = 0 ∧
    ∃ q1, run_blocked_calls example_start example_blocked_calls = some q1 ∧
      get_blocked_pgs_count q1 =
        (count_marks example_blocked_calls : Int) - count_clears example_blocked_calls ∧
      0 ≤ get_blocked_pgs_count q1 :=
  ⟨rfl,
    (blocked_count_history example_start rfl example_blocked_calls
      (by
        intro pre hpre
        have hlen : pre.length ≤ 3 := hpre.length_le
        have hm : count_marks pre ≤ pre.length := by
          clear hpre hlen
          induction pre with
          | nil => simp [count_marks]
          | cons c rest ih => cases c <;> simp [count_marks] <;> omega
        refine ⟨?_, by omega⟩
        rcases hpre with ⟨post, hpost⟩
        match pre, hpost with
        | [], _ => simp [count_marks, count_clears]
        | [a], hp =>
          simp [example_blocked_calls] at hp
          rw [hp.1]; simp [count_marks, count_clears]
        | [a, b], hp =>
          simp [example_blocked_calls] at hp
          rw [hp.1, hp.2.1]; simp [count_marks, count_clears]
        | [a, b, c], hp =>
          simp [example_blocked_calls] at hp
          rw [hp.1, hp.2.1, hp.2.2.1]; simp [count_marks, count_clears]
        | a :: b :: c :: d :: rest, hp =>
          simp [example_blocked_calls] at hp)).1
      example_blocked_calls (List.prefix_refl _)⟩

end ScrubQueue

namespace ScrubQueue

/-! ## `list_registered_jobs` -/

/-- C25: `list_registered_jobs` returns the jobs of `to_scrub` in state `registered`, in
lane order, followed by those of `penalized`, in lane order: a job is returned exactly
when it is in a lane in state `registered` (jobs in state `unregistering` or
`not_registered` are left out), as many times as it is in the lanes.  The function is
`const`: it returns the list and writes nothing. -/
theorem list_registered_jobs_spec (q : ScrubQueue) :
    list_registered_jobs q =
      (q.to_scrub ++ q.penalized).filter
        (fun r => decide ((q.jobs r).state = qu_state_t.registered)) ∧
    (∃ A B, list_registered_jobs q = A ++ B ∧ A.Sublist q.to_scrub ∧ B.Sublist q.penalized ∧
      (∀ x, x ∈ A ↔ x ∈ q.to_scrub ∧ (q.jobs x).state = qu_state_t.registered) ∧
      (∀ x, x ∈ B ↔ x ∈ q.penalized ∧ (q.jobs x).state = qu_state_t.registered)) ∧
    (∀ x, x ∈ list_registered_jobs q ↔
      ((x ∈ q.to_scrub ∨ x ∈ q.penalized) ∧ (q.jobs x).state = qu_state_t.registered)) ∧
    (∀ x, (q.jobs x).state = qu_state_t.registered →
      (list_registered_jobs q).count x = (q.to_scrub ++ q.penalized).count x) ∧
    (∀ x, (q.jobs x).state ≠ qu_state_t.registered → x ∉ list_registered_jobs q) := by
  have hdef : list_registered_jobs q =
      (q.to_scrub ++ q.penalized).filter
        (fun r => decide ((q.jobs r).state = qu_state_t.registered)) := by
    unfold list_registered_jobs registered_job
    rw [List.filter_append]
  refine ⟨hdef, ?_, ?_, ?_, ?_⟩
  · refine ⟨q.to_scrub.filter (fun r => registered_job (q.jobs r)),
      q.penalized.filter (fun r => registered_job (q.jobs r)), rfl,
      List.filter_sublist _, List.filter_sublist _, ?_, ?_⟩
    · intro x; simp [List.mem_filter, registered_job]
    · intro x; simp [List.mem_filter, registered_job]
  · intro x
    rw [hdef]
    simp only [List.mem_filter, List.mem_append, decide_eq_true_eq]
  · intro x hx
    rw [hdef, List.count_filter]
    simpa using hx
  · intro x hx hmem
    rw [hdef] at hmem
    have := (List.mem_filter.mp hmem).2
    simp only [decide_eq_true_eq] at this
    exact hx this

end ScrubQueue

namespace ScrubMachine

/-! ## Timer events and their tokens -/

theorem set_state_apply (w : TimerWorld) (a : Nat) (s : scheduled_event_state_t) (x : Nat) :
    (w.set_state a s).states x = if x = a then s else w.states x := rfl

theorem run_timer_ops_cons (w : TimerWorld) (op : timer_op) (rest : List timer_op) :
    run_timer_ops w (op :: rest) =
      match apply_timer_op w op with
      | some w1 => run_timer_ops w1 rest
      | none => none := rfl

/-- What `schedule_timer_event_after` leaves: the new shared state, at the address
`w.next`, is not canceled and holds the cancel token; the handle points to it; the logs
are as before. -/
theorem schedule_timer_event_after_spec (w : TimerWorld) (machine tok : Nat) :
    (schedule_timer_event_after w machine tok).1.states w.next = ⟨false, some tok⟩ ∧
    (schedule_timer_event_after w machine tok).1.next = w.next + 1 ∧
    (schedule_timer_event_after w machine tok).2 = ⟨some machine, some w.next⟩ ∧
    (schedule_timer_event_after w machine tok).1.cancel_log = w.cancel_log ∧
    (schedule_timer_event_after w machine tok).1.delivered = w.delivered ∧
    (∀ x, x ≠ w.next → (schedule_timer_event_after w machine tok).1.states x = w.states x) := by
  refine ⟨?_, rfl, rfl, rfl, rfl, ?_⟩
  · simp [schedule_timer_event_after, TimerWorld.set_state]
  · intro x hx
    simp [schedule_timer_event_after, TimerWorld.set_state, hx]

/-- One action leaves alone the shared state of an allocated event it does not touch,
leaves a canceled state with a null token as it is, and frees no address. -/
theorem apply_timer_op_frame (w w' : TimerWorld) (op : timer_op) (a : Nat)
    (hap : apply_timer_op w op = some w') (ha : a < w.next) :
    w.next ≤ w'.next ∧
    (op.touches a = false → w'.states a = w.states a) ∧
    (w.states a = ⟨true, none⟩ → w'.states a = ⟨true, none⟩) := by
  cases op with
  | schedule machine tok =>
    simp only [apply_timer_op, Option.some.injEq] at hap
    subst hap
    have hs := schedule_timer_event_after_spec w machine tok
    have hne : a ≠ w.next := Nat.ne_of_lt ha
    refine ⟨by rw [hs.2.1]; exact Nat.le_succ _, ?_, ?_⟩
    · intro _; exact hs.2.2.2.2.2 a hne
    · intro h; rw [hs.2.2.2.2.2 a hne]; exact h
  | release t =>
    simp only [apply_timer_op] at hap
    cases hrel : timer_event_token_t.release w t with
    | none => rw [hrel] at hap; exact absurd hap (by simp)
    | some res =>
      rw [hrel] at hap
      simp only [Option.some.injEq] at hap
      subst hap
      unfold timer_event_token_t.release at hrel
      cases hb : t.to_bool with
      | none => rw [hb] at hrel; exact absurd hrel (by simp)
      | some b =>
        rw [hb] at hrel
        cases b with
        | false =>
          simp only [Option.some.injEq] at hrel
          subst hrel
          exact ⟨le_refl _, fun _ => rfl, fun h => h⟩
        | true =>
          simp only [] at hrel
          cases hes : t.event_state with
          | none => rw [hes] at hrel; exact absurd hrel (by simp)
          | some b =>
            rw [hes] at hrel
            simp only [Option.some.injEq] at hrel
            subst hrel
            simp only []
            by_cases hlive : (w.states b).to_bool = true
            · rw [if_pos hlive]
              refine ⟨le_refl _, ?_, ?_⟩
              · intro htouch
                have hne : a ≠ b := by
                  intro e
                  subst e
                  simp [timer_op.touches, hes] at htouch
                rw [set_state_apply, if_neg hne]
              · intro h
                by_cases hab : a = b
                · subst hab
                  rw [h] at hlive
                  exact absurd hlive (by decide)
                · rw [set_state_apply, if_neg hab]; exact h
            · rw [if_neg hlive]
              exact ⟨le_refl _, fun _ => rfl, fun h => h⟩
  | fire token event =>
    simp only [apply_timer_op] at hap
    unfold timer_callback at hap
    by_cases hc : (!(w.states token).canceled) = true
    · rw [if_pos hc] at hap
      simp only [Option.some.injEq] at hap
      subst hap
      refine ⟨le_refl _, ?_, ?_⟩
      · intro htouch
        have hne : a ≠ token := by
          intro e
          subst e
          simp [timer_op.touches] at htouch
        show (w.set_state token _).states a = _
        rw [set_state_apply, if_neg hne]
      · intro h
        have hne : a ≠ token := by
          intro e
          subst e
          rw [h] at hc
          exact absurd hc (by decide)
        show (w.set_state token _).states a = _
        rw [set_state_apply, if_neg hne]; exact h
    · rw [if_neg hc] at hap
      by_cases hn : (w.states token).cb_token = none
      · rw [if_pos hn] at hap
        simp only [Option.some.injEq] at hap
        subst hap
        exact ⟨le_refl _, fun _ => rfl, fun h => h⟩
      · rw [if_neg hn] at hap
        exact absurd hap (by simp)

/-- A sequence of actions none of which touches the event at `a` leaves its shared
state as it is; and a canceled state with a null token stays so whatever the actions. -/
theorem run_timer_ops_frame (ops : List timer_op) (w w' : TimerWorld) (a : Nat)
    (hrun : run_timer_ops w ops = some w') (ha : a < w.next) :
    a < w'.next ∧
    ((∀ op ∈ ops, op.touches a = false) → w'.states a = w.states a) ∧
    (w.states a = ⟨true, none⟩ → w'.states a = ⟨true, none⟩) := by
  induction ops generalizing w with
  | nil =>
    simp only [run_timer_ops, Option.some.injEq] at hrun
    subst hrun
    exact ⟨ha, fun _ => rfl, fun h => h⟩
  | cons op rest ih =>
    rw [run_timer_ops_cons] at hrun
    cases hap : apply_timer_op w op with
    | none => rw [hap] at hrun; exact absurd hrun (by simp)
    | some w1 =>
      rw [hap] at hrun
      simp only [] at hrun
      obtain ⟨f1, f2, f3⟩ := apply_timer_op_frame w w1 op a hap ha
      obtain ⟨g1, g2, g3⟩ := ih w1 hrun (Nat.lt_of_lt_of_le ha f1)
      refine ⟨g1, ?_, ?_⟩
      · intro hno
        rw [g2 (fun op' h' => hno op' (List.mem_cons_of_mem _ h')),
          f2 (hno op (List.mem_cons_self _ _))]
      · intro h
        exact g3 (f3 h)

end ScrubMachine

namespace ScrubMachine

/-- C26: when the handle returned by `schedule_timer_event_after` is released (or
destroyed) before the callback has run, `cancel_callback` is called with the cancel
token of the event, and the callback, whenever it is run afterwards, passes no event to
`process_event`.  Between the scheduling and the release, and after the release, any
other timer actions may take place. -/
theorem release_before_callback (w0 : TimerWorld) (machine tok : Nat)
    (ops : List timer_op) (w2 : TimerWorld)
    (hrun : run_timer_ops (schedule_timer_event_after w0 machine tok).1 ops = some w2)
    (hno : ∀ op ∈ ops, op.touches w0.next = false) :
    ∃ w3, timer_event_token_t.release w2 (schedule_timer_event_after w0 machine tok).2 =
        some (w3, {}) ∧
      w3.cancel_log = w2.cancel_log ++ [some tok] ∧
      w3.delivered = w2.delivered ∧
      ∀ ops2 w4, run_timer_ops w3 ops2 = some w4 →
        ∀ event, timer_callback w4 w0.next event = some w4 := by
  have hs := schedule_timer_event_after_spec w0 machine tok
  have ha : w0.next < (schedule_timer_event_after w0 machine tok).1.next := by
    rw [hs.2.1]; exact Nat.lt_succ_self _
  obtain ⟨f1, f2, -⟩ := run_timer_ops_frame ops _ w2 w0.next hrun ha
  have hst : w2.states w0.next = ⟨false, some tok⟩ := by
    rw [f2 hno, hs.1]
  have hlive : (w2.states w0.next).to_bool = true := by
    rw [hst]; rfl
  refine ⟨({ w2 with cancel_log := w2.cancel_log ++ [(w2.states w0.next).cb_token] } :
      TimerWorld).set_state w0.next { canceled := true, cb_token := none }, ?_, ?_, rfl, ?_⟩
  · rw [hs.2.2.1]
    simp only [timer_event_token_t.release, timer_event_token_t.to_bool, Option.isSome_some,
      if_true, hlive]
  · show w2.cancel_log ++ [(w2.states w0.next).cb_token] = _
    rw [hst]
  · intro ops2 w4 hrun2 event
    have hcan : (({ w2 with cancel_log := w2.cancel_log ++ [(w2.states w0.next).cb_token] } :
        TimerWorld).set_state w0.next { canceled := true, cb_token := none }).states w0.next =
        ⟨true, none⟩ := by
      rw [set_state_apply, if_pos rfl]
    obtain ⟨-, -, g3⟩ := run_timer_ops_frame ops2 _ w4 w0.next hrun2 f1
    have h4 := g3 hcan
    unfold timer_callback
    rw [h4]
    rfl

/-- Witness of C26: in `example_world` an event is scheduled with cancel token 40, another
event is scheduled and fires, then the first handle is released: `cancel_callback(40)`
is called. -/
theorem release_before_callback_witness :
    (∀ op ∈ example_other_ops, op.touches example_world.next = false) ∧
    ∃ w3, timer_event_token_t.release
        ((run_timer_ops (schedule_timer_event_after example_world 1 40).1
          example_other_ops).get rfl)
        (schedule_timer_event_after example_world 1 40).2 = some (w3, {}) ∧
      w3.cancel_log =
        ((run_timer_ops (schedule_timer_event_after example_world 1 40).1
          example_other_ops).get rfl).cancel_log ++ [some 40] ∧
      w3.delivered =
        ((run_timer_ops (schedule_timer_event_after example_world 1 40).1
          example_other_ops).get rfl).delivered ∧
      ∀ ops2 w4, run_timer_ops w3 ops2 = some w4 →
        ∀ event, timer_callback w4 example_world.next event = some w4 :=
  ⟨by decide,
    release_before_callback example_world 1 40 example_other_ops
      ((run_timer_ops (schedule_timer_event_after example_world 1 40).1
        example_other_ops).get rfl)
      (Option.some_get _).symm (by decide)⟩

/-- C27: when the handle returned by `schedule_timer_event_after` has not been released
when the callback runs, the callback passes the event to `process_event`, once, and
`cb_token` of the shared state is null when `process_event` is entered; `cancel_callback`
is not called. -/
theorem live_token_delivers (w0 : TimerWorld) (machine tok : Nat)
    (ops : List timer_op) (w2 : TimerWorld)
    (hrun : run_timer_ops (schedule_timer_event_after w0 machine tok).1 ops = some w2)
    (hno : ∀ op ∈ ops, op.touches w0.next = false) (event : Nat) :
    ∃ w3, timer_callback w2 w0.next event = some w3 ∧
      w3.delivered = w2.delivered ++ [(event, none)] ∧
      w3.cancel_log = w2.cancel_log ∧
      w3.states w0.next = ⟨false, none⟩ := by
  have hs := schedule_timer_event_after_spec w0 machine tok
  have ha : w0.next < (schedule_timer_event_after w0 machine tok).1.next := by
    rw [hs.2.1]; exact Nat.lt_succ_self _
  obtain ⟨-, f2, -⟩ := run_timer_ops_frame ops _ w2 w0.next hrun ha
  have hst : w2.states w0.next = ⟨false, some tok⟩ := by
    rw [f2 hno, hs.1]
  have hcb : timer_callback w2 w0.next event =
      some { w2.set_state w0.next { w2.states w0.next with cb_token := none } with
        delivered := w2.delivered ++
          [(event, ((w2.set_state w0.next
            { w2.states w0.next with cb_token := none }).states w0.next).cb_token)] } := by
    unfold timer_callback
    rw [hst]
    rfl
  refine ⟨_, hcb, ?_, rfl, ?_⟩
  · simp [TimerWorld.set_state]
  · simp [TimerWorld.set_state, hst]

/-- Witness of C27: the event scheduled first in `example_world` is delivered when its
callback runs after `example_other_ops`. -/
theorem live_token_delivers_witness :
    (∀ op ∈ example_other_ops, op.touches example_world.next = false) ∧
    ∃ w3, timer_callback
        ((run_timer_ops (schedule_timer_event_after example_world 1 40).1
          example_other_ops).get rfl) example_world.next 5 = some w3 ∧
      w3.delivered =
        ((run_timer_ops (schedule_timer_event_after example_world 1 40).1
          example_other_ops).get rfl).delivered ++ [(5, none)] ∧
      w3.cancel_log =
        ((run_timer_ops (schedule_timer_event_after example_world 1 40).1
          example_other_ops).get rfl).cancel_log ∧
      w3.states example_world.next = ⟨false, none⟩ :=
  ⟨by decide,
    live_token_delivers example_world 1 40 example_other_ops
      ((run_timer_ops (schedule_timer_event_after example_world 1 40).1
        example_other_ops).get rfl)
      (Option.some_get _).symm (by decide) 5⟩

end ScrubMachine

namespace ScrubMachine

/-- C28, as stated, fails for a move assignment onto a handle that holds a live event:
the handles are swapped, so after assigning the handle of the event at address 1 to a
handle holding the event at address 0, the source holds the event at address 0 and
converts to true. -/
theorem move_assign_source_not_empty :
    timer_event_token_t.move_assign ⟨some 1, some 0⟩ ⟨some 1, some 1⟩ =
      some (⟨some 1, some 1⟩, ⟨some 1, some 0⟩) ∧
    (⟨some 1, some 0⟩ : timer_event_token_t).to_bool = some true ∧
    (⟨some 1, some 0⟩ : timer_event_token_t).event_state ≠ none := by
  refine ⟨by decide, by decide, by decide⟩

/-- C28, amended: after a move construction the new handle holds what the source held
and the source is empty (it converts to false and holds no event state); after a move
assignment the destination holds what the source held and the source holds what the
destination held before, so the source is empty exactly when the destination was
empty.  No shared state is written and `cancel_callback` is not called by a move. -/
theorem token_move_effect (src dst : timer_event_token_t)
    (hs : src.parent.isSome = src.event_state.isSome) :
    timer_event_token_t.move_construct src = some (src, {}) ∧
    ({} : timer_event_token_t).to_bool = some false ∧
    ({} : timer_event_token_t).event_state = none ∧
    timer_event_token_t.move_assign dst src = some (src, dst) ∧
    (dst = {} → timer_event_token_t.move_assign dst src = some (src, {})) := by
  have hm : timer_event_token_t.move_assign dst src = some (src, dst) := by
    unfold timer_event_token_t.move_assign timer_event_token_t.swap
    simp only [hs, if_true]
  refine ⟨?_, rfl, rfl, hm, ?_⟩
  · unfold timer_event_token_t.move_construct timer_event_token_t.swap
    simp only [hs, if_true]
  · intro hd
    rw [hm, hd]

/-- Witness of C28 (amended): the handle of the event at address 1 is moved into a new
handle, and assigned to an empty one. -/
theorem token_move_effect_witness :
    (⟨some 1, some 1⟩ : timer_event_token_t).parent.isSome =
      (⟨some 1, some 1⟩ : timer_event_token_t).event_state.isSome ∧
    timer_event_token_t.move_construct ⟨some 1, some 1⟩ = some (⟨some 1, some 1⟩, {}) ∧
    timer_event_token_t.move_assign {} ⟨some 1, some 1⟩ = some (⟨some 1, some 1⟩, {}) :=
  ⟨rfl, (token_move_effect ⟨some 1, some 1⟩ {} rfl).1,
    (token_move_effect ⟨some 1, some 1⟩ {} rfl).2.2.2.2 rfl⟩

end ScrubMachine

/-! ## The scrub state machine -/

namespace Scrub

/-- The states inside `Session`, `Session` included. -/
theorem in_session_iff (s : ScrubState) :
    s.in_session = true ↔
      s ∈ [ScrubState.Session, ScrubState.ReservingReplicas, ScrubState.ActiveScrubbing,
        ScrubState.PendingTimer, ScrubState.NewChunk, ScrubState.RangeBlocked,
        ScrubState.WaitPushes, ScrubState.WaitLastUpdate, ScrubState.BuildMap,
        ScrubState.DrainReplMaps, ScrubState.WaitReplicas, ScrubState.WaitDigestUpdate] := by
  cases s <;> decide

/-- The states inside `ActiveScrubbing`, `ActiveScrubbing` included. -/
theorem in_active_iff (s : ScrubState) :
    s.in_active = true ↔
      s ∈ [ScrubState.ActiveScrubbing,
        ScrubState.PendingTimer, ScrubState.NewChunk, ScrubState.RangeBlocked,
        ScrubState.WaitPushes, ScrubState.WaitLastUpdate, ScrubState.BuildMap,
        ScrubState.DrainReplMaps, ScrubState.WaitReplicas, ScrubState.WaitDigestUpdate] := by
  cases s <;> decide

/-- C29: from every state inside `Session` (`ReservingReplicas`, `ActiveScrubbing` and
each of its nine sub-states), processing a `FullReset` event leaves the machine in
`NotActive`, whatever the custom reactions of the states do: no state inside `Session`
has a reaction to `FullReset`, and `Session` has the transition to `NotActive`. -/
theorem Machine.full_reset_from_session
    (custom : Machine → ScrubState → ScrubEvent → CustomOutcome) (peers : List Nat)
    (m : Machine)
    (h : m.state ∈ [ScrubState.ReservingReplicas, ScrubState.ActiveScrubbing,
        ScrubState.PendingTimer, ScrubState.NewChunk, ScrubState.RangeBlocked,
        ScrubState.WaitPushes, ScrubState.WaitLastUpdate, ScrubState.BuildMap,
        ScrubState.DrainReplMaps, ScrubState.WaitReplicas, ScrubState.WaitDigestUpdate]) :
    (Machine.process_event custom peers m ScrubEvent.FullReset).state
      = ScrubState.NotActive := by
  rcases m with ⟨s, r, q⟩
  cases s <;> simp at h <;> rfl

/-- Witness for C29: a machine building its map, with the spec-modelled reactions. -/
theorem Machine.full_reset_from_session_witness :
    (Machine.process_event (spec_reactions example_env) [1, 2] example_building
      ScrubEvent.FullReset).state = ScrubState.NotActive :=
  Machine.full_reset_from_session (spec_reactions example_env) [1, 2] example_building
    (by decide)

end Scrub
namespace Scrub

end Scrub

namespace Scrub

end Scrub

namespace Scrub

end Scrub

namespace Scrub

end Scrub

namespace Scrub

end Scrub

namespace Scrub

/-- The states inside `ReplicaActive`, `ReplicaActive` included. -/
theorem in_replica_iff (s : ScrubState) :
    s.in_replica = true ↔
      s ∈ [ScrubState.ReplicaActive, ScrubState.ReplicaIdle, ScrubState.ReplicaActiveOp,
        ScrubState.ReplicaWaitUpdates, ScrubState.ReplicaBuildingMap] := by
  cases s <;> decide

/-- From a state of the replica region `IntervalChanged` takes the machine to
`NotActive`, whatever the custom reactions do. -/
theorem interval_changed_from_replica
    (custom : Machine → ScrubState → ScrubEvent → CustomOutcome) (peers : List Nat)
    (m : Machine) (h : m.state.in_replica = true) :
    (Machine.process_event custom peers m ScrubEvent.IntervalChanged).state
      = ScrubState.NotActive := by
  rcases m with ⟨s, r, q⟩
  cases s <;> first | rfl | cases h

/-- From `NotActive`, `ReplicaActivate` takes the machine to `ReplicaIdle`, the initial
state of `ReplicaActive`. -/
theorem replica_activate_from_not_active
    (custom : Machine → ScrubState → ScrubEvent → CustomOutcome) (peers : List Nat)
    (m : Machine) (h : m.state = ScrubState.NotActive) :
    (Machine.process_event custom peers m ScrubEvent.ReplicaActivate).state
      = ScrubState.ReplicaIdle := by
  rcases m with ⟨s, r, q⟩
  cases h
  rfl

/-- C31: from every state of the replica region (`ReplicaIdle`, `ReplicaWaitUpdates`,
`ReplicaBuildingMap`, and the composite states `ReplicaActive` and `ReplicaActiveOp`
around them), processing `IntervalChanged` leaves the machine in `NotActive` and the
member `reserved_by_my_primary` of the exited `ReplicaActive` is gone; and whenever a
machine in `NotActive` then processes `ReplicaActivate`, it is in `ReplicaIdle` with
`reserved_by_my_primary` false.  This holds whatever the custom reactions and the
in-state reactions do. -/
theorem ReplicaMachine.interval_changed_clears
    (custom : Machine → ScrubState → ScrubEvent → CustomOutcome)
    (in_state : Bool → ScrubEvent → Bool) (peers : List Nat) (rm : ReplicaMachine)
    (h : rm.machine.state ∈ [ScrubState.ReplicaActive, ScrubState.ReplicaIdle,
      ScrubState.ReplicaActiveOp, ScrubState.ReplicaWaitUpdates,
      ScrubState.ReplicaBuildingMap]) :
    (ReplicaMachine.process_event custom in_state peers rm
        ScrubEvent.IntervalChanged).machine.state = ScrubState.NotActive ∧
      (ReplicaMachine.process_event custom in_state peers rm
        ScrubEvent.IntervalChanged).reserved_by_my_primary = none ∧
      ∀ later : ReplicaMachine, later.machine.state = ScrubState.NotActive →
        (ReplicaMachine.process_event custom in_state peers later
          ScrubEvent.ReplicaActivate).machine.state = ScrubState.ReplicaIdle ∧
        (ReplicaMachine.process_event custom in_state peers later
          ScrubEvent.ReplicaActivate).reserved_by_my_primary = some false := by
  have h1 := interval_changed_from_replica custom peers rm.machine
    ((in_replica_iff _).mpr h)
  refine ⟨h1, ?_, ?_⟩
  · unfold ReplicaMachine.process_event
    simp only [h1]
    rfl
  · intro later hl
    have h2 := replica_activate_from_not_active custom peers later.machine hl
    refine ⟨h2, ?_⟩
    unfold ReplicaMachine.process_event
    simp only [h2, hl]
    rfl

/-- Witness for C31: a replica that is building its map while reserved by its
primary. -/
theorem ReplicaMachine.interval_changed_clears_witness :
    (ReplicaMachine.process_event (spec_reactions example_env) (spec_in_state true) []
        example_replica ScrubEvent.IntervalChanged).machine.state = ScrubState.NotActive ∧
      (ReplicaMachine.process_event (spec_reactions example_env) (spec_in_state true) []
        example_replica ScrubEvent.IntervalChanged).reserved_by_my_primary = none ∧
      ∀ later : ReplicaMachine, later.machine.state = ScrubState.NotActive →
        (ReplicaMachine.process_event (spec_reactions example_env) (spec_in_state true) []
          later ScrubEvent.ReplicaActivate).machine.state = ScrubState.ReplicaIdle ∧
        (ReplicaMachine.process_event (spec_reactions example_env) (spec_in_state true) []
          later ScrubEvent.ReplicaActivate).reserved_by_my_primary = some false :=
  ReplicaMachine.interval_changed_clears (spec_reactions example_env) (spec_in_state true)
    [] example_replica (by decide)

/-- The state of the machine after a `FullReset` event, by the reactions lists of the
header: `NotActive` from `NotActive` and from inside `Session`, while a machine in the
replica region stays in the state it was in, whatever the custom reactions do. -/
theorem Machine.full_reset_effect
    (custom : Machine → ScrubState → ScrubEvent → CustomOutcome) (peers : List Nat)
    (m : Machine) :
    (Machine.process_event custom peers m ScrubEvent.FullReset).state =
      if m.state.in_replica then m.state else ScrubState.NotActive := by
  rcases m with ⟨s, r, q⟩
  cases s <;> rfl

/-- C36: the blocked-range loop of `ActiveScrubbing`: `ChunkIsBusy` in `NewChunk` leads
to `RangeBlocked`, `Unblocked` in `RangeBlocked` leads to `PendingTimer`,
`InternalSchedScrub` in `PendingTimer` leads to `NewChunk`; each step stays inside
`ActiveScrubbing` and leaves the reservations of the session and the posted events as
they were, whatever the custom reactions do. -/
theorem Machine.blocked_range_loop
    (custom : Machine → ScrubState → ScrubEvent → CustomOutcome) (peers : List Nat)
    (r : Option ReplicaReservations) (q : List ScrubEvent) :
    Machine.process_event custom peers ⟨ScrubState.NewChunk, r, q⟩ ScrubEvent.ChunkIsBusy
        = ⟨ScrubState.RangeBlocked, r, q⟩ ∧
      Machine.process_event custom peers ⟨ScrubState.RangeBlocked, r, q⟩ ScrubEvent.Unblocked
        = ⟨ScrubState.PendingTimer, r, q⟩ ∧
      Machine.process_event custom peers ⟨ScrubState.PendingTimer, r, q⟩
        ScrubEvent.InternalSchedScrub = ⟨ScrubState.NewChunk, r, q⟩ ∧
      ScrubState.RangeBlocked.in_active = true ∧ ScrubState.PendingTimer.in_active = true ∧
      ScrubState.NewChunk.in_active = true :=
  ⟨rfl, rfl, rfl, rfl, rfl, rfl⟩

end Scrub

/-! ## The mClock scheduler -/

namespace mClockScheduler

/-- C34: `get_io_prio_cut` returns `CEPH_MSG_PRIO_HIGH` when `osd_op_queue_cut_off` is
`high`, `CEPH_MSG_PRIO_LOW` for every other value except `debug_random` (`low` and
unrecognised values included), and for `debug_random` one of exactly those two
constants: the first on an even draw, the second on an odd one. -/
theorem get_io_prio_cut_cases (CEPH_MSG_PRIO_HIGH CEPH_MSG_PRIO_LOW : Nat) :
    (∀ random_gen, get_io_prio_cut CEPH_MSG_PRIO_HIGH CEPH_MSG_PRIO_LOW "high" random_gen
      = CEPH_MSG_PRIO_HIGH) ∧
    (∀ random_gen, get_io_prio_cut CEPH_MSG_PRIO_HIGH CEPH_MSG_PRIO_LOW "low" random_gen
      = CEPH_MSG_PRIO_LOW) ∧
    (∀ osd_op_queue_cut_off random_gen, osd_op_queue_cut_off ≠ "high" →
      osd_op_queue_cut_off ≠ "debug_random" →
      get_io_prio_cut CEPH_MSG_PRIO_HIGH CEPH_MSG_PRIO_LOW osd_op_queue_cut_off random_gen
        = CEPH_MSG_PRIO_LOW) ∧
    (∀ random_gen,
      get_io_prio_cut CEPH_MSG_PRIO_HIGH CEPH_MSG_PRIO_LOW "debug_random" random_gen
        = if random_gen % 2 = 0 then CEPH_MSG_PRIO_HIGH else CEPH_MSG_PRIO_LOW) ∧
    (∀ random_gen,
      get_io_prio_cut CEPH_MSG_PRIO_HIGH CEPH_MSG_PRIO_LOW "debug_random" random_gen
        = CEPH_MSG_PRIO_HIGH ∨
      get_io_prio_cut CEPH_MSG_PRIO_HIGH CEPH_MSG_PRIO_LOW "debug_random" random_gen
        = CEPH_MSG_PRIO_LOW) := by
  have hhigh : ("high" : String) ≠ "debug_random" := by decide
  have hlow1 : ("low" : String) ≠ "debug_random" := by decide
  have hlow2 : ("low" : String) ≠ "high" := by decide
  have hdraw : ∀ random_gen,
      get_io_prio_cut CEPH_MSG_PRIO_HIGH CEPH_MSG_PRIO_LOW "debug_random" random_gen
        = if random_gen % 2 = 0 then CEPH_MSG_PRIO_HIGH else CEPH_MSG_PRIO_LOW := by
    intro random_gen
    unfold get_io_prio_cut
    rw [if_pos rfl]
    by_cases h : random_gen % 2 = 0
    · rw [if_pos h, if_pos (by omega)]
    · rw [if_neg h, if_neg (by omega)]
  refine ⟨?_, ?_, ?_, hdraw, ?_⟩
  · intro random_gen
    unfold get_io_prio_cut
    rw [if_neg hhigh, if_pos rfl]
  · intro random_gen
    unfold get_io_prio_cut
    rw [if_neg hlow1, if_neg hlow2]
  · intro s random_gen h1 h2
    unfold get_io_prio_cut
    rw [if_neg h2, if_neg h1]
  · intro random_gen
    rw [hdraw]
    by_cases h : random_gen % 2 = 0
    · rw [if_pos h]
      exact Or.inl rfl
    · rw [if_neg h]
      exact Or.inr rfl

end mClockScheduler

namespace mClockScheduler

end mClockScheduler

namespace mClockScheduler

end mClockScheduler

/-! ## Timer events, their tokens and the pointers to the shared state -/

namespace ScrubMachine

/-- Some token object points to a shared state: one of the objects created so far holds
its address. -/
theorem points_to_iff (s : TimerSystem) (a : Nat) :
    s.points_to a = true ↔ ∃ i, i < s.next_handle ∧ (s.handles i).event_state = some a := by
  unfold TimerSystem.points_to
  rw [List.any_eq_true]
  constructor
  · rintro ⟨i, hi, h⟩
    exact ⟨i, List.mem_range.mp hi, of_decide_eq_true h⟩
  · rintro ⟨i, hi, h⟩
    exact ⟨i, List.mem_range.mpr hi, decide_eq_true h⟩

/-- `release` of an empty token does nothing. -/
theorem release_empty (w : TimerWorld) (t : timer_event_token_t)
    (hp : t.parent = none) (he : t.event_state = none) :
    timer_event_token_t.release w t = some (w, t) := by
  unfold timer_event_token_t.release timer_event_token_t.to_bool
  rw [hp, he]
  rfl

/-- `release` of a token that points to a shared state: `cancel_callback` is called when
`cb_token` is not null, the state is then canceled with a null `cb_token`, and the token
is emptied. -/
theorem release_pointing (w : TimerWorld) (t : timer_event_token_t) (m a : Nat)
    (hp : t.parent = some m) (he : t.event_state = some a) :
    timer_event_token_t.release w t =
      some (if (w.states a).to_bool then
          ({ w with cancel_log := w.cancel_log ++ [(w.states a).cb_token] } :
            TimerWorld).set_state a { canceled := true, cb_token := none }
        else w, {}) := by
  unfold timer_event_token_t.release timer_event_token_t.to_bool
  rw [hp, he]
  rfl

/-- A consistent token is empty or points to a shared state. -/
theorem token_cases (t : timer_event_token_t)
    (h : t.parent.isSome = t.event_state.isSome) :
    (t.parent = none ∧ t.event_state = none) ∨
      ∃ m a, t.parent = some m ∧ t.event_state = some a := by
  cases hp : t.parent with
  | none =>
    cases he : t.event_state with
    | none => exact Or.inl ⟨rfl, rfl⟩
    | some a =>
      rw [hp, he] at h
      cases h
  | some m =>
    cases he : t.event_state with
    | none =>
      rw [hp, he] at h
      cases h
    | some a => exact Or.inr ⟨m, a, rfl, rfl⟩

/-- The move constructor from a consistent token: the new token is the old one, which is
left empty. -/
theorem move_construct_consistent (rhs : timer_event_token_t)
    (h : rhs.parent.isSome = rhs.event_state.isSome) :
    timer_event_token_t.move_construct rhs = some (rhs, {}) := by
  unfold timer_event_token_t.move_construct timer_event_token_t.swap
  simp only [h, if_true]

/-- The move assignment between consistent tokens exchanges them. -/
theorem move_assign_consistent (self rhs : timer_event_token_t)
    (h : rhs.parent.isSome = rhs.event_state.isSome) :
    timer_event_token_t.move_assign self rhs = some (rhs, self) := by
  unfold timer_event_token_t.move_assign timer_event_token_t.swap
  simp only [h, if_true]

end ScrubMachine

namespace ScrubMachine

/-- A shared state some token object pointed to and still points to after a change of
the token objects in which every pointer kept has a holder: used to carry the invariant
over moves. -/
theorem points_to_of_points_to (s s1 : TimerSystem) (a : Nat)
    (h : ∀ i, i < s.next_handle → (s.handles i).event_state = some a →
      ∃ j, j < s1.next_handle ∧ (s1.handles j).event_state = some a)
    (hp : s1.points_to a = false) : s.points_to a = false := by
  cases hh : s.points_to a with
  | false => rfl
  | true =>
    obtain ⟨i, hi, hia⟩ := (points_to_iff s a).mp hh
    obtain ⟨j, hj, hja⟩ := h i hi hia
    rw [(points_to_iff s1 a).mpr ⟨j, hj, hja⟩] at hp
    cases hp

/-- Scheduling an event keeps the invariant of the timer events. -/
theorem invariant_schedule (s : TimerSystem) (machine tok : Nat)
    (h : s.invariant) :
    ∃ s1, apply_system_op s (system_op.schedule machine tok) = some s1 ∧ s1.invariant := by
  obtain ⟨k1, k2, k3, k4, k5, k6, k7⟩ := h
  obtain ⟨r1, r2, r3, -, -, r6⟩ := schedule_timer_event_after_spec s.world machine tok
  refine ⟨_, rfl, ?_, ?_, ?_, ?_, ?_, ?_, ?_⟩
  · intro i
    dsimp only
    by_cases hi : i = s.next_handle
    · subst hi
      rw [Function.update_same, r3]
      rfl
    · rw [Function.update_noteq hi]
      exact k1 i
  · intro a
    dsimp only
    by_cases ha : a = s.world.next
    · subst ha
      rw [Function.update_same, r1]
      exact Or.inr ⟨rfl, rfl⟩
    · rw [Function.update_noteq ha, r6 a ha]
      exact k2 a
  · intro a
    dsimp only
    by_cases ha : a = s.world.next
    · subst ha
      intro _
      rw [Function.update_same]
    · rw [Function.update_noteq ha, r6 a ha]
      exact k3 a
  · intro a
    dsimp only
    by_cases ha : a = s.world.next
    · subst ha
      rw [Function.update_same]
      exact Nat.zero_le _
    · rw [Function.update_noteq ha]
      exact k4 a
  · intro a ha hpt
    dsimp only at ha ⊢
    rw [r2] at ha
    by_cases hne : a = s.world.next
    · exfalso
      subst hne
      have hp := (points_to_iff
        { world := (schedule_timer_event_after s.world machine tok).1,
          handles := Function.update s.handles s.next_handle
            (schedule_timer_event_after s.world machine tok).2,
          next_handle := s.next_handle + 1,
          callback := Function.update s.callback s.world.next true,
          fired := Function.update s.fired s.world.next false,
          cancels := Function.update s.cancels s.world.next 0 } s.world.next).mpr
        ⟨s.next_handle, Nat.lt_succ_self _, by
          show (Function.update s.handles s.next_handle _ s.next_handle).event_state = _
          rw [Function.update_same, r3]⟩
      rw [hp] at hpt
      cases hpt
    · rw [r6 a hne]
      apply k5 a (by omega)
      refine points_to_of_points_to s _ a ?_ hpt
      intro i hi hia
      refine ⟨i, Nat.lt_succ_of_lt hi, ?_⟩
      show (Function.update s.handles s.next_handle _ i).event_state = _
      rw [Function.update_noteq (Nat.ne_of_lt hi)]
      exact hia
  · intro a
    dsimp only
    by_cases ha : a = s.world.next
    · subst ha
      rw [Function.update_same]
      intro hf
      cases hf
    · rw [Function.update_noteq ha, r6 a ha]
      exact k6 a
  · intro a
    dsimp only
    rw [r2]
    by_cases ha : a = s.world.next
    · intro _
      omega
    · rw [Function.update_noteq ha]
      intro hc
      exact Nat.lt_succ_of_lt (k7 a hc)

end ScrubMachine

namespace ScrubMachine

/-- Moving a token into a new object keeps the invariant of the timer events. -/
theorem invariant_move_construct (s : TimerSystem) (i : Nat) (h : s.invariant) :
    ∃ s1, apply_system_op s (system_op.move_construct i) = some s1 ∧ s1.invariant := by
  by_cases hi : i < s.next_handle
  · obtain ⟨k1, k2, k3, k4, k5, k6, k7⟩ := h
    have hap : apply_system_op s (system_op.move_construct i) =
        some { s with
          handles := Function.update (Function.update s.handles i {}) s.next_handle
            (s.handles i),
          next_handle := s.next_handle + 1 } := by
      simp only [apply_system_op]
      rw [if_pos hi, move_construct_consistent _ (k1 i)]
    refine ⟨_, hap, ?_, k2, k3, k4, ?_, k6, k7⟩
    · intro x
      dsimp only
      by_cases hx : x = s.next_handle
      · subst hx
        rw [Function.update_same]
        exact k1 i
      · rw [Function.update_noteq hx]
        by_cases hx2 : x = i
        · subst hx2
          rw [Function.update_same]
        · rw [Function.update_noteq hx2]
          exact k1 x
    · intro a ha hpt
      apply k5 a ha
      refine points_to_of_points_to s _ a ?_ hpt
      intro x hx hxa
      by_cases hx2 : x = i
      · subst hx2
        refine ⟨s.next_handle, Nat.lt_succ_self _, ?_⟩
        dsimp only
        rw [Function.update_same]
        exact hxa
      · refine ⟨x, Nat.lt_succ_of_lt hx, ?_⟩
        dsimp only
        rw [Function.update_noteq (Nat.ne_of_lt hx), Function.update_noteq hx2]
        exact hxa
  · refine ⟨s, ?_, h⟩
    simp only [apply_system_op]
    rw [if_neg hi]

/-- A move assignment between token objects keeps the invariant of the timer events. -/
theorem invariant_move_assign (s : TimerSystem) (i j : Nat) (h : s.invariant) :
    ∃ s1, apply_system_op s (system_op.move_assign i j) = some s1 ∧ s1.invariant := by
  by_cases hij : i < s.next_handle ∧ j < s.next_handle
  · obtain ⟨k1, k2, k3, k4, k5, k6, k7⟩ := h
    have hap : apply_system_op s (system_op.move_assign i j) =
        some { s with
          handles := Function.update (Function.update s.handles i (s.handles j)) j
            (s.handles i) } := by
      simp only [apply_system_op]
      rw [if_pos hij, move_assign_consistent _ _ (k1 j)]
    refine ⟨_, hap, ?_, k2, k3, k4, ?_, k6, k7⟩
    · intro x
      dsimp only
      by_cases hx : x = j
      · subst hx
        rw [Function.update_same]
        exact k1 i
      · rw [Function.update_noteq hx]
        by_cases hx2 : x = i
        · subst hx2
          rw [Function.update_same]
          exact k1 j
        · rw [Function.update_noteq hx2]
          exact k1 x
    · intro a ha hpt
      apply k5 a ha
      refine points_to_of_points_to s _ a ?_ hpt
      intro x hx hxa
      by_cases hx2 : x = i
      · subst hx2
        refine ⟨j, hij.2, ?_⟩
        dsimp only
        rw [Function.update_same]
        exact hxa
      · by_cases hx3 : x = j
        · subst hx3
          refine ⟨i, hij.1, ?_⟩
          dsimp only
          rw [Function.update_noteq (fun hc => hx2 hc.symm), Function.update_same]
          exact hxa
        · refine ⟨x, hx, ?_⟩
          dsimp only
          rw [Function.update_noteq hx3, Function.update_noteq hx2]
          exact hxa
  · refine ⟨s, ?_, h⟩
    simp only [apply_system_op]
    rw [if_neg hij]

/-- The destructor of a shared state whose `cb_token` is null passes its `assert`. -/
theorem destructor_of_null (s : TimerSystem) (a : Nat)
    (h : (s.world.states a).cb_token = none) : s.destructor a = some s := by
  unfold TimerSystem.destructor
  by_cases hc : (s.points_to a || s.callback a) = true
  · rw [if_pos hc]
  · rw [if_neg hc, if_pos h]

/-- The listener destroying a callback keeps the invariant of the timer events, and the
destructor of the shared state, when this was the last pointer to it, passes its
`assert`. -/
theorem invariant_drop_callback (s : TimerSystem) (a : Nat) (h : s.invariant) :
    ∃ s1, apply_system_op s (system_op.drop_callback a) = some s1 ∧ s1.invariant := by
  by_cases hc : s.callback a = true
  · obtain ⟨k1, k2, k3, k4, k5, k6, k7⟩ := h
    have hap : apply_system_op s (system_op.drop_callback a) =
        some { s with callback := Function.update s.callback a false } := by
      simp only [apply_system_op]
      rw [if_pos hc]
      unfold TimerSystem.destructor
      by_cases hp : s.points_to a = true
      · have hp1 : TimerSystem.points_to
            { s with callback := Function.update s.callback a false } a = true := hp
        rw [hp1]
        rfl
      · have hp0 : s.points_to a = false := by
          cases hh : s.points_to a
          · rfl
          · exact absurd hh hp
        have hp1 : TimerSystem.points_to
            { s with callback := Function.update s.callback a false } a = false := hp0
        rw [hp1]
        dsimp only
        rw [Function.update_same]
        have hnull := k5 a (k7 a hc) hp0
        simp only [Bool.or_self, Bool.false_eq_true, if_false, hnull, if_true]
    refine ⟨_, hap, k1, k2, k3, k4, k5, k6, ?_⟩
    intro x
    dsimp only
    by_cases hx : x = a
    · subst hx
      rw [Function.update_same]
      intro hf
      cases hf
    · rw [Function.update_noteq hx]
      exact k7 x
  · refine ⟨s, ?_, h⟩
    simp only [apply_system_op]
    rw [if_neg hc]

end ScrubMachine

namespace ScrubMachine

/-- The callback of a shared state that is not canceled: `cb_token` is nulled and the
event passed to `process_event`. -/
theorem timer_callback_live (w : TimerWorld) (a event : Nat)
    (h : (w.states a).canceled = false) :
    ∃ w1, timer_callback w a event = some w1 ∧ w1.next = w.next ∧
      w1.cancel_log = w.cancel_log ∧
      w1.states a = { canceled := false, cb_token := none } ∧
      ∀ x, x ≠ a → w1.states x = w.states x := by
  unfold timer_callback
  rw [h]
  simp only [Bool.not_false, if_true]
  refine ⟨_, rfl, rfl, rfl, ?_, ?_⟩
  · show (w.set_state a _).states a = _
    rw [set_state_apply, if_pos rfl, h]
  · intro x hx
    show (w.set_state a _).states x = _
    rw [set_state_apply, if_neg hx]

/-- The callback of a canceled shared state whose `cb_token` is null does nothing. -/
theorem timer_callback_canceled (w : TimerWorld) (a event : Nat)
    (h : (w.states a).canceled = true) (hn : (w.states a).cb_token = none) :
    timer_callback w a event = some w := by
  unfold timer_callback
  rw [h, hn]
  rfl

/-- The listener running a callback keeps the invariant of the timer events, and the
`assert` of the canceled branch passes. -/
theorem invariant_fire (s : TimerSystem) (a event : Nat) (h : s.invariant) :
    ∃ s1, apply_system_op s (system_op.fire a event) = some s1 ∧ s1.invariant := by
  by_cases hc : s.callback a = true
  · obtain ⟨k1, k2, k3, k4, k5, k6, k7⟩ := h
    cases hcan : (s.world.states a).canceled with
    | false =>
      obtain ⟨w1, hw, hnext, -, hst, hoth⟩ := timer_callback_live s.world a event hcan
      have hap : apply_system_op s (system_op.fire a event) =
          some { s with world := w1, fired := Function.update s.fired a true } := by
        simp only [apply_system_op]
        rw [if_pos hc, hw, hcan]
        simp only [Bool.not_false, Bool.or_true]
      refine ⟨_, hap, k1, ?_, ?_, k4, ?_, ?_, ?_⟩
      · intro x
        dsimp only
        by_cases hx : x = a
        · subst hx
          rw [hst]
          exact Or.inl rfl
        · rw [hoth x hx, Function.update_noteq hx]
          exact k2 x
      · intro x
        dsimp only
        by_cases hx : x = a
        · subst hx
          intro _
          exact k3 x hcan
        · rw [hoth x hx]
          exact k3 x
      · intro x hx hpt
        dsimp only at hx ⊢
        by_cases hxa : x = a
        · subst hxa
          rw [hst]
        · rw [hoth x hxa]
          rw [hnext] at hx
          exact k5 x hx hpt
      · intro x
        dsimp only
        by_cases hx : x = a
        · subst hx
          intro _
          rw [hst]
        · rw [hoth x hx, Function.update_noteq hx]
          exact k6 x
      · intro x hx
        dsimp only at hx ⊢
        rw [hnext]
        exact k7 x hx
    | true =>
      have hn : (s.world.states a).cb_token = none := by
        rcases k2 a with h1 | h1
        · exact h1
        · rw [hcan] at h1
          cases h1.2
      have hap : apply_system_op s (system_op.fire a event) = some s := by
        simp only [apply_system_op]
        rw [if_pos hc, timer_callback_canceled _ _ _ hcan hn, hcan]
        simp only [Bool.not_true, Bool.or_false, Function.update_eq_self]
      exact ⟨s, hap, k1, k2, k3, k4, k5, k6, k7⟩
  · refine ⟨s, ?_, h⟩
    simp only [apply_system_op]
    rw [if_neg hc]

end ScrubMachine

namespace ScrubMachine

/-- Emptying a token object that points to `a` leaves every other shared state with
the token objects that pointed to it. -/
theorem points_to_after_release (s s1 : TimerSystem) (i a x : Nat)
    (hp : s1.points_to x = false)
    (hh : s1.handles = Function.update s.handles i {}) (hn : s1.next_handle = s.next_handle)
    (he : (s.handles i).event_state = some a) (hx : x ≠ a) : s.points_to x = false := by
  refine points_to_of_points_to s s1 x ?_ hp
  intro j hj hjx
  have hji : j ≠ i := by
    intro hc
    rw [hc, he] at hjx
    exact hx (Option.some.inj hjx).symm
  refine ⟨j, by rw [hn]; exact hj, ?_⟩
  rw [hh, Function.update_noteq hji]
  exact hjx

/-- A `release()` (or the destructor) of a token object keeps the invariant of the timer
events, and the destructor of the shared state, when this was the last pointer to it,
passes its `assert`. -/
theorem invariant_release (s : TimerSystem) (i : Nat) (h : s.invariant) :
    ∃ s1, apply_system_op s (system_op.release i) = some s1 ∧ s1.invariant := by
  by_cases hi : i < s.next_handle
  · obtain ⟨k1, k2, k3, k4, k5, k6, k7⟩ := h
    rcases token_cases (s.handles i) (k1 i) with ⟨hp, he⟩ | ⟨m, a, hp, he⟩
    · have hap : apply_system_op s (system_op.release i) = some s := by
        simp only [apply_system_op]
        rw [if_pos hi, release_empty _ _ hp he, he]
        simp only [Function.update_eq_self]
      exact ⟨s, hap, k1, k2, k3, k4, k5, k6, k7⟩
    · have hk1 : ∀ x, (Function.update s.handles i ({} : timer_event_token_t) x).parent.isSome
          = (Function.update s.handles i ({} : timer_event_token_t) x).event_state.isSome := by
        intro x
        by_cases hx : x = i
        · subst hx
          rw [Function.update_same]
        · rw [Function.update_noteq hx]
          exact k1 x
      cases hlive : (s.world.states a).cb_token with
      | none =>
        have hrel : timer_event_token_t.release s.world (s.handles i) = some (s.world, {}) := by
          rw [release_pointing _ _ m a hp he]
          unfold scheduled_event_state_t.to_bool
          rw [hlive]
          rfl
        have hap : apply_system_op s (system_op.release i) =
            some { s with handles := Function.update s.handles i {} } := by
          simp only [apply_system_op]
          rw [if_pos hi, hrel, he]
          simp only [Nat.sub_self, Nat.add_zero, Function.update_eq_self]
          exact destructor_of_null _ a hlive
        refine ⟨_, hap, hk1, k2, k3, k4, ?_, k6, k7⟩
        intro x hx hpt
        by_cases hxa : x = a
        · subst hxa
          exact hlive
        · exact k5 x hx (points_to_after_release s _ i a x hpt rfl rfl he hxa)
      | some tk =>
        have hnf := k2 a
        rw [hlive] at hnf
        have hnf1 : s.fired a = false ∧ (s.world.states a).canceled = false := by
          rcases hnf with h1 | h1
          · cases h1
          · exact h1
        have hc0 : s.cancels a = 0 := k3 a hnf1.2
        have hrel : timer_event_token_t.release s.world (s.handles i) =
            some (({ s.world with cancel_log := s.world.cancel_log ++ [some tk] } :
              TimerWorld).set_state a { canceled := true, cb_token := none }, {}) := by
          rw [release_pointing _ _ m a hp he]
          unfold scheduled_event_state_t.to_bool
          rw [hlive]
          rfl
        have hap : apply_system_op s (system_op.release i) =
            some { s with
              world := ({ s.world with cancel_log := s.world.cancel_log ++ [some tk] } :
                TimerWorld).set_state a { canceled := true, cb_token := none },
              handles := Function.update s.handles i {},
              cancels := Function.update s.cancels a 1 } := by
          simp only [apply_system_op]
          rw [if_pos hi, hrel, he]
          have hlen : (({ s.world with cancel_log := s.world.cancel_log ++ [some tk] } :
              TimerWorld).set_state a { canceled := true, cb_token := none }).cancel_log.length
                - s.world.cancel_log.length = 1 := by
            show (s.world.cancel_log ++ [some tk]).length - s.world.cancel_log.length = 1
            rw [List.length_append]
            simp
          simp only [hlen, hc0]
          exact destructor_of_null _ a (by
            show ((TimerWorld.set_state _ a _).states a).cb_token = none
            rw [set_state_apply, if_pos rfl])
        refine ⟨_, hap, hk1, ?_, ?_, ?_, ?_, ?_, k7⟩
        · intro x
          dsimp only
          rw [set_state_apply]
          by_cases hx : x = a
          · rw [if_pos hx]
            exact Or.inl rfl
          · rw [if_neg hx]
            exact k2 x
        · intro x
          dsimp only
          rw [set_state_apply]
          by_cases hx : x = a
          · rw [if_pos hx]
            intro hf
            cases hf
          · rw [if_neg hx, Function.update_noteq hx]
            exact k3 x
        · intro x
          dsimp only
          by_cases hx : x = a
          · subst hx
            rw [Function.update_same]
          · rw [Function.update_noteq hx]
            exact k4 x
        · intro x hx hpt
          dsimp only at hx ⊢
          rw [set_state_apply]
          by_cases hxa : x = a
          · rw [if_pos hxa]
          · rw [if_neg hxa]
            exact k5 x hx (points_to_after_release s _ i a x hpt rfl rfl he hxa)
        · intro x
          dsimp only
          rw [set_state_apply]
          by_cases hx : x = a
          · subst hx
            rw [hnf1.1]
            intro hf
            cases hf
          · rw [if_neg hx]
            exact k6 x
  · refine ⟨s, ?_, h⟩
    simp only [apply_system_op]
    rw [if_neg hi]

/-- Every action keeps the invariant of the timer events and fails no `assert`. -/
theorem invariant_apply (s : TimerSystem) (op : system_op) (h : s.invariant) :
    ∃ s1, apply_system_op s op = some s1 ∧ s1.invariant := by
  cases op with
  | schedule machine tok => exact invariant_schedule s machine tok h
  | release i => exact invariant_release s i h
  | move_construct i => exact invariant_move_construct s i h
  | move_assign i j => exact invariant_move_assign s i j h
  | fire a event => exact invariant_fire s a event h
  | drop_callback a => exact invariant_drop_callback s a h

/-- Every sequence of actions keeps the invariant of the timer events and fails no
`assert`. -/
theorem invariant_run (ops : List system_op) (s : TimerSystem) (h : s.invariant) :
    ∃ s1, run_system_ops s ops = some s1 ∧ s1.invariant := by
  induction ops generalizing s with
  | nil => exact ⟨s, rfl, h⟩
  | cons op rest ih =>
    obtain ⟨s1, h1, hinv1⟩ := invariant_apply s op h
    obtain ⟨s2, h2, hinv2⟩ := ih s1 hinv1
    refine ⟨s2, ?_, hinv2⟩
    show (match apply_system_op s op with
      | some s1 => run_system_ops s1 rest
      | none => none) = some s2
    rw [h1]
    exact h2

/-- The invariant holds before any timer event is scheduled. -/
theorem invariant_initial : TimerSystem.initial.invariant := by
  refine ⟨fun _ => rfl, fun _ => Or.inl rfl, fun _ _ => rfl, fun _ => Nat.zero_le _, ?_,
    ?_, ?_⟩
  · intro a ha
    exact absurd ha (Nat.not_lt_zero _)
  · intro a hf
    cases hf
  · intro a hc
    cases hc

end ScrubMachine

namespace ScrubMachine

/-- The `release()` of an empty token object changes nothing. -/
theorem release_op_empty (s : TimerSystem) (i : Nat) (hi : i < s.next_handle)
    (hp : (s.handles i).parent = none) (he : (s.handles i).event_state = none) :
    apply_system_op s (system_op.release i) = some s := by
  simp only [apply_system_op]
  rw [if_pos hi, release_empty _ _ hp he, he]
  simp only [Function.update_eq_self]

/-- The `release()` of a token object that points to a shared state whose `cb_token` is
null only empties the object. -/
theorem release_op_null (s : TimerSystem) (i m a : Nat) (hi : i < s.next_handle)
    (hp : (s.handles i).parent = some m) (he : (s.handles i).event_state = some a)
    (hn : (s.world.states a).cb_token = none) :
    apply_system_op s (system_op.release i) =
      some { s with handles := Function.update s.handles i {} } := by
  have hrel : timer_event_token_t.release s.world (s.handles i) = some (s.world, {}) := by
    rw [release_pointing _ _ m a hp he]
    unfold scheduled_event_state_t.to_bool
    rw [hn]
    rfl
  simp only [apply_system_op]
  rw [if_pos hi, hrel, he]
  simp only [Nat.sub_self, Nat.add_zero, Function.update_eq_self]
  exact destructor_of_null _ a hn

/-- C37: in every state reached from a machine without timer events through
`schedule_timer_event_after`, moves of tokens, `release()` or destruction of tokens, runs
of callbacks and their destruction by the listener, no `assert` has failed, and for
every shared state: `canceled` implies a null `cb_token`; `cb_token` is null once the
event has fired, and once no token points to the state any more (its token has been
released); so the callback, run now, passes the `assert` of its canceled branch, and the
destructor of the state, run when the last pointer to it has gone, passes its
`assert`. -/
theorem timer_state_invariant (ops : List system_op) :
    ∃ s, run_system_ops TimerSystem.initial ops = some s ∧
      ∀ a,
        ((s.world.states a).canceled = true → (s.world.states a).cb_token = none) ∧
        (s.fired a = true → (s.world.states a).cb_token = none) ∧
        (a < s.world.next → s.points_to a = false →
          (s.world.states a).cb_token = none) ∧
        (∀ event, (timer_callback s.world a event).isSome = true) ∧
        (a < s.world.next → s.points_to a = false → s.callback a = false →
          s.destructor a = some s ∧ (s.world.states a).cb_token = none) := by
  obtain ⟨s, hrun, k1, k2, k3, k4, k5, k6, k7⟩ := invariant_run ops _ invariant_initial
  refine ⟨s, hrun, ?_⟩
  intro a
  have hcan : (s.world.states a).canceled = true → (s.world.states a).cb_token = none := by
    intro hc
    rcases k2 a with h1 | h1
    · exact h1
    · rw [hc] at h1
      cases h1.2
  refine ⟨hcan, ?_, k5 a, ?_, ?_⟩
  · intro hf
    rcases k2 a with h1 | h1
    · exact h1
    · rw [hf] at h1
      cases h1.1
  · intro event
    cases hc : (s.world.states a).canceled with
    | false =>
      obtain ⟨w1, hw, -⟩ := timer_callback_live s.world a event hc
      rw [hw]
      rfl
    | true =>
      rw [timer_callback_canceled s.world a event hc (hcan hc)]
      rfl
  · intro ha hp _
    exact ⟨destructor_of_null s a (k5 a ha hp), k5 a ha hp⟩

/-- C40: in every state reached from a machine without timer events, `cancel_callback`
has been called at most once for each scheduled event, and not at all for an event that
has fired; and `release()` (or the destructor) of a token object that is empty (never
set, moved from, or already released) or whose event has already been delivered calls
`cancel_callback` zero times: it leaves the shared states, the calls of
`cancel_callback` and the delivered events as they are and only empties the object. -/
theorem cancel_at_most_once (ops : List system_op) (s : TimerSystem)
    (hrun : run_system_ops TimerSystem.initial ops = some s) :
    (∀ a, s.cancels a ≤ 1 ∧ (s.fired a = true → s.cancels a = 0)) ∧
    ∀ i, i < s.next_handle →
      ((s.handles i).event_state = none ∨
        ∃ a, (s.handles i).event_state = some a ∧ s.fired a = true) →
      ∃ s1, apply_system_op s (system_op.release i) = some s1 ∧
        s1.world = s.world ∧ s1.cancels = s.cancels ∧ s1.fired = s.fired ∧
        (s1.handles i).parent = none ∧ (s1.handles i).event_state = none := by
  obtain ⟨s0, hrun0, k1, k2, k3, k4, k5, k6, k7⟩ := invariant_run ops _ invariant_initial
  rw [hrun] at hrun0
  cases hrun0
  refine ⟨fun a => ⟨k4 a, fun hf => k3 a (k6 a hf)⟩, ?_⟩
  intro i hi hcase
  rcases token_cases (s.handles i) (k1 i) with ⟨hp, he⟩ | ⟨m, a, hp, he⟩
  · exact ⟨s, release_op_empty s i hi hp he, rfl, rfl, rfl, hp, he⟩
  · rcases hcase with hnone | ⟨b, hb, hf⟩
    · rw [he] at hnone
      cases hnone
    · rw [he] at hb
      cases hb
      have hn : (s.world.states a).cb_token = none := by
        rcases k2 a with h1 | h1
        · exact h1
        · rw [hf] at h1
          cases h1.1
      refine ⟨_, release_op_null s i m a hi hp he hn, rfl, rfl, rfl, ?_, ?_⟩
      · show (Function.update s.handles i _ i).parent = none
        rw [Function.update_same]
      · show (Function.update s.handles i _ i).event_state = none
        rw [Function.update_same]

/-- Witness for C40: the event is scheduled, its token moved twice, the callback runs and
delivers the event; the token is still held. -/
theorem cancel_at_most_once_witness :
    (∀ a, example_fired_system.cancels a ≤ 1 ∧
      (example_fired_system.fired a = true → example_fired_system.cancels a = 0)) ∧
    ∀ i, i < example_fired_system.next_handle →
      ((example_fired_system.handles i).event_state = none ∨
        ∃ a, (example_fired_system.handles i).event_state = some a ∧
          example_fired_system.fired a = true) →
      ∃ s1, apply_system_op example_fired_system (system_op.release i) = some s1 ∧
        s1.world = example_fired_system.world ∧
        s1.cancels = example_fired_system.cancels ∧
        s1.fired = example_fired_system.fired ∧
        (s1.handles i).parent = none ∧ (s1.handles i).event_state = none :=
  cancel_at_most_once example_fired_ops example_fired_system (Option.some_get _).symm

end ScrubMachine

namespace ScrubQueue

/-- C38: `ready_to_scrub` neither loses nor duplicates live jobs: the two lanes after
the call hold, each as often as before, the jobs that were in the two lanes before the
call with state `registered`, and no others; and the call changes no job's schedule and
no job's PG id. -/
theorem ready_to_scrub_keeps_live_jobs (L : StdAlgorithms) (cf : ScrubConf) (q : ScrubQueue)
    (restrictions : OSDRestrictions) (now : utime_t) :
    ((ready_to_scrub L cf q restrictions now).2.to_scrub ++
        (ready_to_scrub L cf q restrictions now).2.penalized).Perm
      ((q.to_scrub ++ q.penalized).filter
        (fun r => decide ((q.jobs r).state = qu_state_t.registered))) ∧
    (∀ x, x ∈ (ready_to_scrub L cf q restrictions now).2.to_scrub ++
        (ready_to_scrub L cf q restrictions now).2.penalized ↔
      (x ∈ q.to_scrub ++ q.penalized ∧ (q.jobs x).state = qu_state_t.registered)) ∧
    (∀ x, ((ready_to_scrub L cf q restrictions now).2.jobs x).schedule = (q.jobs x).schedule ∧
      ((ready_to_scrub L cf q restrictions now).2.jobs x).pgid = (q.jobs x).pgid) := by
  have hq : (ready_to_scrub L cf q restrictions now).2 =
      (ready_to_scrub_locked L cf q restrictions now).2.2 := rfl
  rw [hq]
  obtain ⟨F, R, M, T4, hFR, -, -, hTM, -, -, -, hT, hP, -⟩ :=
    ready_to_scrub_locked_anatomy L cf q restrictions now
  have hperm : ((ready_to_scrub_locked L cf q restrictions now).2.2.to_scrub ++
        (ready_to_scrub_locked L cf q restrictions now).2.2.penalized).Perm
      ((q.to_scrub ++ q.penalized).filter
        (fun r => decide ((q.jobs r).state = qu_state_t.registered))) := by
    rw [hT, hP, ← List.filter_append]
    have e1 : (T4 ++ (R ++ M)).Perm (q.to_scrub ++ (F ++ R)) := by
      have a1 : (T4 ++ (R ++ M)).Perm ((T4 ++ M) ++ R) := by
        rw [List.append_assoc]
        exact List.Perm.append_left T4 List.perm_append_comm
      have a2 : ((T4 ++ M) ++ R).Perm ((q.to_scrub ++ F) ++ R) :=
        List.Perm.append_right R hTM
      have a3 : (q.to_scrub ++ F) ++ R = q.to_scrub ++ (F ++ R) := List.append_assoc _ _ _
      rw [a3] at a2
      exact a1.trans a2
    have e2 : (q.to_scrub ++ (F ++ R)).Perm
        (q.to_scrub ++ q.penalized.filter
          (fun r => decide ((q.jobs r).state = qu_state_t.registered))) :=
      List.Perm.append_left _ hFR
    have e3 := (e1.trans e2).filter
      (fun r => decide ((q.jobs r).state = qu_state_t.registered))
    have e4 : (q.to_scrub ++ q.penalized.filter
          (fun r => decide ((q.jobs r).state = qu_state_t.registered))).filter
          (fun r => decide ((q.jobs r).state = qu_state_t.registered)) =
        (q.to_scrub ++ q.penalized).filter
          (fun r => decide ((q.jobs r).state = qu_state_t.registered)) := by
      rw [List.filter_append, List.filter_filter, List.filter_append]
      simp only [Bool.and_self]
    rw [e4] at e3
    exact e3
  refine ⟨hperm, ?_, ?_⟩
  · intro x
    rw [hperm.mem_iff, List.mem_filter, decide_eq_true_eq]
  · intro x
    have hf := ready_to_scrub_locked_frame L cf q restrictions now x
    exact ⟨hf.2, hf.1⟩

end ScrubQueue

namespace ScrubQueue

/-- On a group of registered jobs `rm_unregistered_jobs` changes nothing. -/
theorem rm_unregistered_jobs_live (h : JobStore) (group : ScrubQContainer)
    (hl : ∀ x ∈ group, (h x).state = qu_state_t.registered) :
    rm_unregistered_jobs h group = (h, group) := by
  have h1 : (rm_unregistered_jobs h group).1 = h := by
    funext x
    rw [rm_unregistered_jobs_store]
    by_cases hx : x ∈ group
    · rw [if_pos hx, rm_mark_registered _ (hl x hx)]
    · rw [if_neg hx]
  have h2 : (rm_unregistered_jobs h group).2 = group := by
    rw [rm_unregistered_jobs_group, List.filter_eq_self]
    intro x hx
    exact decide_eq_true (hl x hx)
  exact Prod.ext h1 h2

/-- With no job marked `resources_failure`, the loop of `move_failed_pgs` moves
nothing. -/
theorem move_failed_loop_none (cf : ScrubConf) (now_is : utime_t) (l : ScrubQContainer)
    (h : JobStore) (pen : ScrubQContainer)
    (hl : ∀ x ∈ l, (h x).resources_failure = false) :
    move_failed_loop cf now_is l h pen = (l, h, pen) := by
  induction l with
  | nil => rfl
  | cons r rest ih =>
    have hr : (h r).resources_failure = false := hl r (List.mem_cons_self _ _)
    rw [move_failed_loop_cons, if_neg (by rw [hr]; exact Bool.false_ne_true),
      ih (fun x hx => hl x (List.mem_cons_of_mem _ hx))]

/-- Clearing `updated` on jobs that do not have it set changes nothing. -/
theorem clear_updated_none (group : ScrubQContainer) (h : JobStore)
    (hl : ∀ x ∈ group, (h x).updated = false) :
    for_each_job (fun j => { j with updated := false }) group h = h := by
  funext x
  rw [for_each_job_apply _ clear_updated_idem]
  by_cases hx : x ∈ group
  · rw [if_pos hx]
    have hu := hl x hx
    rcases hj : h x with ⟨pg, sc, st, iq, rf, pt, up⟩
    rw [hj] at hu
    simp only at hu
    rw [hu]
  · rw [if_neg hx]

/-- When the predicate holds of no element, the first part of a partition is empty. -/
theorem partition_fst_nil (L : StdAlgorithms) (p : ScrubJobRef → Bool) (l : ScrubQContainer)
    (hl : ∀ x ∈ l, p x = false) : (L.partition p l).1 = [] := by
  cases hfst : (L.partition p l).1 with
  | nil => rfl
  | cons a rest =>
    have ha : a ∈ (L.partition p l).1 := by
      rw [hfst]
      exact List.mem_cons_self _ _
    have h1 := L.partition_fst p l a ha
    have h2 : a ∈ l := (L.partition_perm p l).mem_iff.mp (List.mem_append_left _ ha)
    rw [hl a h2] at h1
    cases h1

end ScrubQueue

namespace ScrubQueue

/-- On a settled queue `scan_penalized` forgives nobody and changes nothing, when the
partition leaves in place a range in which no element satisfies the predicate. -/
theorem scan_penalized_settled (L : StdAlgorithms) (q : ScrubQueue) (now : utime_t)
    (hs : settled now q)
    (hpart : ∀ (p : ScrubJobRef → Bool) (l : ScrubQContainer),
      (∀ x ∈ l, p x = false) → (L.partition p l).2 = l) :
    scan_penalized L q false now = q := by
  obtain ⟨s1, -, s3, -⟩ := hs
  have hclean : rm_unregistered_jobs q.jobs q.penalized = (q.jobs, q.penalized) :=
    rm_unregistered_jobs_live _ _ (fun x hx => s1 x (List.mem_append_right _ hx))
  have hpred : ∀ x ∈ q.penalized,
      ((q.jobs x).updated || decide ((q.jobs x).penalty_timeout ≤ now)) = false := by
    intro x hx
    obtain ⟨hu, ht⟩ := s3 x hx
    rw [hu, Bool.false_or, decide_eq_false_iff_not]
    exact not_le.mpr ht
  unfold scan_penalized
  rw [hclean]
  simp only [Bool.false_eq_true, if_false]
  rw [partition_fst_nil L _ _ hpred, hpart _ _ hpred, List.append_nil]

/-- A sweep of a settled queue changes nothing: it returns the ripe jobs of each lane,
sorted, and leaves the queue as it was. -/
theorem ready_to_scrub_locked_settled (L : StdAlgorithms) (cf : ScrubConf) (q : ScrubQueue)
    (restrictions : OSDRestrictions) (now : utime_t) (hs : settled now q)
    (hpart : ∀ (p : ScrubJobRef → Bool) (l : ScrubQContainer),
      (∀ x ∈ l, p x = false) → (L.partition p l).2 = l) :
    ready_to_scrub_locked L cf q restrictions now =
      (L.sort (cmp_sched_time_t q.jobs)
          (q.to_scrub.filter (fun x => filtr restrictions now (q.jobs x))),
        L.sort (cmp_sched_time_t q.jobs)
          (q.penalized.filter (fun x => filtr restrictions now (q.jobs x))),
        q) := by
  have h1 := scan_penalized_settled L q now hs hpart
  obtain ⟨s1, s2, s3, s4⟩ := hs
  have h2 : ({ q with restore_penalized := false } : ScrubQueue) = q := by
    rw [← s4]
  have h3 : for_each_job (fun j => { j with updated := false }) q.to_scrub q.jobs = q.jobs :=
    clear_updated_none _ _ (fun x hx => (s2 x hx).2)
  have h4 : move_failed_loop cf now q.to_scrub q.jobs q.penalized =
      (q.to_scrub, q.jobs, q.penalized) :=
    move_failed_loop_none cf now _ _ _ (fun x hx => (s2 x hx).1)
  have h5 : rm_unregistered_jobs q.jobs q.to_scrub = (q.jobs, q.to_scrub) :=
    rm_unregistered_jobs_live _ _ (fun x hx => s1 x (List.mem_append_left _ hx))
  have h6 : rm_unregistered_jobs q.jobs q.penalized = (q.jobs, q.penalized) :=
    rm_unregistered_jobs_live _ _ (fun x hx => s1 x (List.mem_append_right _ hx))
  unfold ready_to_scrub_locked
  simp only [s4, h1, h2, h3, move_failed_pgs, h4, collect_ripe_jobs, h5, h6]

end ScrubQueue

namespace ScrubQueue

/-- A sweep leaves the queue settled, when the penalty `osd_scrub_sleep * 2 + 300` is
positive. -/
theorem ready_to_scrub_locked_settles (L : StdAlgorithms) (cf : ScrubConf) (q : ScrubQueue)
    (restrictions : OSDRestrictions) (now : utime_t)
    (hpen : 0 < cf.osd_scrub_sleep * 2 + 300) :
    settled now (ready_to_scrub_locked L cf q restrictions now).2.2 := by
  obtain ⟨F, R, M, T4, hFR, hRf, hRt, hTM, hM, -, -, hT, hP, hstore⟩ :=
    ready_to_scrub_locked_anatomy L cf q restrictions now
  have hFpen : ∀ x, x ∈ F ++ R → x ∈ q.penalized := by
    intro x hx
    exact (List.mem_filter.mp (hFR.mem_iff.mp hx)).1
  have hlane : ∀ x, x ∈ q.to_scrub ++ F → x ∈ q.to_scrub ++ q.penalized := by
    intro x hx
    rcases List.mem_append.mp hx with h | h
    · exact List.mem_append_left _ h
    · exact List.mem_append_right _ (hFpen x (List.mem_append_left _ h))
  -- a job that went through `to_scrub` comes out with neither flag set
  have hvisited : ∀ x, x ∈ q.to_scrub ++ F →
      ((ready_to_scrub_locked L cf q restrictions now).2.2.jobs x).resources_failure = false ∧
      ((ready_to_scrub_locked L cf q restrictions now).2.2.jobs x).updated = false := by
    intro x hx
    rw [hstore x, if_pos (hlane x hx), (rm_mark_frame _).2.2.1, (rm_mark_frame _).2.2.2.1]
    by_cases hrf : (q.jobs x).resources_failure = true
    · rw [if_pos ⟨hx, hrf⟩]
      exact ⟨rfl, rfl⟩
    · rw [if_neg (fun hc => hrf hc.2), if_pos hx]
      refine ⟨?_, rfl⟩
      show (q.jobs x).resources_failure = false
      cases hh : (q.jobs x).resources_failure
      · rfl
      · exact absurd hh hrf
  refine ⟨?_, ?_, ?_, ready_to_scrub_locked_restore L cf q restrictions now⟩
  · intro x hx
    have hm := (ready_to_scrub_locked_mem L cf q restrictions now x).mp hx
    rw [(ready_to_scrub_locked_state L cf q restrictions now x).1, if_pos hm.1, if_pos hm.2]
  · intro x hx
    rw [hT] at hx
    have hx4 : x ∈ T4 := (List.mem_filter.mp hx).1
    exact hvisited x (hTM.mem_iff.mp (List.mem_append_left _ hx4))
  · intro x hx
    rw [hP] at hx
    rcases List.mem_append.mp (List.mem_filter.mp hx).1 with hR | hMx
    · have hxpen : x ∈ q.to_scrub ++ q.penalized :=
        List.mem_append_right _ (hFpen x (List.mem_append_right _ hR))
      have hrp : q.restore_penalized = false := by
        cases hh : q.restore_penalized
        · rfl
        · rw [hRt hh] at hR
          exact absurd hR (List.not_mem_nil _)
      obtain ⟨hu, ht⟩ := (hRf hrp).2 x hR
      rw [hstore x, if_pos hxpen, (rm_mark_frame _).2.2.1, (rm_mark_frame _).2.2.2.2]
      by_cases hc : x ∈ q.to_scrub ++ F ∧ (q.jobs x).resources_failure = true
      · rw [if_pos hc]
        refine ⟨rfl, ?_⟩
        show now < now + (cf.osd_scrub_sleep * 2 + 300)
        linarith
      · rw [if_neg hc]
        by_cases hv : x ∈ q.to_scrub ++ F
        · rw [if_pos hv]
          exact ⟨rfl, ht⟩
        · rw [if_neg hv]
          exact ⟨hu, ht⟩
    · have hv : x ∈ q.to_scrub ++ F := hTM.mem_iff.mp (List.mem_append_right _ hMx)
      rw [hstore x, if_pos (hlane x hv), (rm_mark_frame _).2.2.1, (rm_mark_frame _).2.2.2.2,
        if_pos ⟨hv, hM x hMx⟩]
      refine ⟨rfl, ?_⟩
      show now < now + (cf.osd_scrub_sleep * 2 + 300)
      linarith

end ScrubQueue

namespace ScrubQueue

/-- The ripe jobs collected from one group, read through the job store left by the
collection from a second group: the second sweep writes no schedule. -/
theorem collect_ripe_jobs_twice (L : StdAlgorithms) (h : JobStore) (T P : ScrubQContainer)
    (restrictions : OSDRestrictions) (now : utime_t) :
    (collect_ripe_jobs L h T restrictions now).1 =
      L.sort
        (cmp_sched_time_t
          (collect_ripe_jobs L (collect_ripe_jobs L h T restrictions now).2.1 P
            restrictions now).2.1)
        ((collect_ripe_jobs L h T restrictions now).2.2.filter
          (fun x => filtr restrictions now
            ((collect_ripe_jobs L (collect_ripe_jobs L h T restrictions now).2.1 P
              restrictions now).2.1 x))) := by
  have e1 : cmp_sched_time_t
        (rm_unregistered_jobs (rm_unregistered_jobs h T).1 P).1 =
      cmp_sched_time_t (rm_unregistered_jobs h T).1 :=
    cmp_sched_time_t_congr _ _ (fun x => rm_unregistered_jobs_schedule _ P x)
  have e2 : (fun x => filtr restrictions now
        ((rm_unregistered_jobs (rm_unregistered_jobs h T).1 P).1 x)) =
      (fun x => filtr restrictions now ((rm_unregistered_jobs h T).1 x)) :=
    funext (fun x => filtr_congr restrictions now _ _ (rm_unregistered_jobs_schedule _ P x))
  show L.sort (cmp_sched_time_t (rm_unregistered_jobs h T).1)
      ((rm_unregistered_jobs h T).2.filter
        (fun x => filtr restrictions now ((rm_unregistered_jobs h T).1 x))) =
    L.sort (cmp_sched_time_t (rm_unregistered_jobs (rm_unregistered_jobs h T).1 P).1)
      ((rm_unregistered_jobs h T).2.filter
        (fun x => filtr restrictions now
          ((rm_unregistered_jobs (rm_unregistered_jobs h T).1 P).1 x)))
  rw [e1, e2]

/-- The copy of `to_scrub` a sweep returns is the sorted ripe part of the lane it leaves,
read through the job store it leaves. -/
theorem ready_to_scrub_locked_fst (L : StdAlgorithms) (cf : ScrubConf) (q : ScrubQueue)
    (restrictions : OSDRestrictions) (now : utime_t) :
    (ready_to_scrub_locked L cf q restrictions now).1 =
      L.sort (cmp_sched_time_t (ready_to_scrub_locked L cf q restrictions now).2.2.jobs)
        ((ready_to_scrub_locked L cf q restrictions now).2.2.to_scrub.filter
          (fun x => filtr restrictions now
            ((ready_to_scrub_locked L cf q restrictions now).2.2.jobs x))) :=
  collect_ripe_jobs_twice L _ _ _ restrictions now

/-- The copy of `penalized` a sweep returns is the sorted ripe part of the lane it
leaves. -/
theorem ready_to_scrub_locked_snd (L : StdAlgorithms) (cf : ScrubConf) (q : ScrubQueue)
    (restrictions : OSDRestrictions) (now : utime_t) :
    (ready_to_scrub_locked L cf q restrictions now).2.1 =
      L.sort (cmp_sched_time_t (ready_to_scrub_locked L cf q restrictions now).2.2.jobs)
        ((ready_to_scrub_locked L cf q restrictions now).2.2.penalized.filter
          (fun x => filtr restrictions now
            ((ready_to_scrub_locked L cf q restrictions now).2.2.jobs x))) := rfl

/-- C39, as stated, fails.  With `osd_scrub_sleep` at -200 the job penalized by the
first call gets a penalty that has already run out at the tick, so the second call
pardons it: the first call returns the ids 0, 1 and leaves the lanes `[0]` and `[1]`,
the second returns 1, 0 and leaves `[0, 1]` and `[]`.  And with a `std::partition`
that reorders the elements that do not satisfy its predicate, the second call leaves
`penalized` in another order than the first (`[2, 1]` after `[1, 2]`) and returns the
ids in another order. -/
theorem ready_to_scrub_twice_differs :
    ((ready_to_scrub refAlgo example_conf_negative_sleep example_failed {} 100).1 = [0, 1] ∧
      (ready_to_scrub refAlgo example_conf_negative_sleep example_failed {} 100).2.to_scrub
        = [0] ∧
      (ready_to_scrub refAlgo example_conf_negative_sleep example_failed {} 100).2.penalized
        = [1] ∧
      (ready_to_scrub refAlgo example_conf_negative_sleep
        (ready_to_scrub refAlgo example_conf_negative_sleep example_failed {} 100).2
        {} 100).1 = [1, 0] ∧
      (ready_to_scrub refAlgo example_conf_negative_sleep
        (ready_to_scrub refAlgo example_conf_negative_sleep example_failed {} 100).2
        {} 100).2.to_scrub = [0, 1] ∧
      (ready_to_scrub refAlgo example_conf_negative_sleep
        (ready_to_scrub refAlgo example_conf_negative_sleep example_failed {} 100).2
        {} 100).2.penalized = []) ∧
    ((ready_to_scrub revAlgo example_conf example_two_failed {} 100).1 = [0, 2, 1] ∧
      (ready_to_scrub revAlgo example_conf example_two_failed {} 100).2.penalized
        = [1, 2] ∧
      (ready_to_scrub revAlgo example_conf
        (ready_to_scrub revAlgo example_conf example_two_failed {} 100).2 {} 100).1
        = [0, 1, 2] ∧
      (ready_to_scrub revAlgo example_conf
        (ready_to_scrub revAlgo example_conf example_two_failed {} 100).2
        {} 100).2.penalized = [2, 1]) := by
  refine ⟨⟨?_, ?_, ?_, ?_, ?_, ?_⟩, ?_, ?_, ?_, ?_⟩ <;> decide!

/-- C39, amended: a second call `ready_to_scrub(restrictions, now)` made right after a
first one with the same arguments returns the same sequence of PG ids and leaves the
queue (both lanes and every field of every job) exactly as the first call left it,
provided the penalty `osd_scrub_sleep * 2 + 300` is positive and `std::partition`
leaves in place a range in which no element satisfies the predicate. -/
theorem ready_to_scrub_twice (L : StdAlgorithms) (cf : ScrubConf) (q : ScrubQueue)
    (restrictions : OSDRestrictions) (now : utime_t)
    (hpen : 0 < cf.osd_scrub_sleep * 2 + 300)
    (hpart : ∀ (p : ScrubJobRef → Bool) (l : ScrubQContainer),
      (∀ x ∈ l, p x = false) → (L.partition p l).2 = l) :
    ready_to_scrub L cf (ready_to_scrub L cf q restrictions now).2 restrictions now =
      ((ready_to_scrub L cf q restrictions now).1,
        (ready_to_scrub L cf q restrictions now).2) := by
  have hs := ready_to_scrub_locked_settles L cf q restrictions now hpen
  have hfix := ready_to_scrub_locked_settled L cf _ restrictions now hs hpart
  have hq : (ready_to_scrub L cf q restrictions now).2 =
      (ready_to_scrub_locked L cf q restrictions now).2.2 := rfl
  rw [hq]
  unfold ready_to_scrub
  rw [hfix]
  dsimp only
  rw [← ready_to_scrub_locked_fst, ← ready_to_scrub_locked_snd]

/-- Witness for C39 (amended): the example queue with a failed job, swept twice at tick
100 with the reference algorithms and a penalty of 310 seconds. -/
theorem ready_to_scrub_twice_witness :
    ready_to_scrub refAlgo example_conf
        (ready_to_scrub refAlgo example_conf example_failed {} 100).2 {} 100 =
      ((ready_to_scrub refAlgo example_conf example_failed {} 100).1,
        (ready_to_scrub refAlgo example_conf example_failed {} 100).2) :=
  ready_to_scrub_twice refAlgo example_conf example_failed {} 100 (by decide!)
    (by
      intro p l hl
      show l.filter (fun x => !p x) = l
      rw [List.filter_eq_self]
      intro x hx
      rw [hl x hx]
      rfl)

end ScrubQueue
